import Mathlib

/-!
# OADP operator: reconcile orchestrator and scoped identity secret reconciler

A shallow embedding of `internal/controller/dataprotectionapplication_controller.go`
and `internal/controller/stsflow.go`.  Go code with side effects is embedded as
explicit state passing: a function that reads or writes the cluster, the
reconciler's fields or the process environment takes the state and returns the
new state next to its Go return values.  A Go `error` is `Option GoError`
(`none` is `nil`).
-/

namespace OADP

/-! ## Definitions -/

/-- A non-nil Go `error`; `Error` is the text of `err.Error()`. -/
structure GoError where
  Error : String
  deriving DecidableEq, Repr

/-- The `context.Context` handed to a call, identified by a token. -/
structure Context where
  id : String
  deriving DecidableEq, Repr

/-- A `logr.Logger`: the context it was taken from (`log.FromContext`) and the
key/value pairs added by `WithValues`.  Log output is not modelled. -/
structure Logger where
  ctx : Option Context
  values : List (String × String)
  deriving DecidableEq, Repr

/-- Go: `type ReconcileFunc func(logr.Logger) (bool, error)`.  The steps are
methods of the reconciler, so they also read and write the state `σ`. -/
abbrev ReconcileFunc (σ : Type) := Logger → σ → (Bool × Option GoError) × σ

/-- Go: `ReconcileBatch` — the loop
`for _, f := range reconcileFuncs { if cont, err := f(l); !cont || err != nil { return cont, err } }`
followed by `return true, nil`. -/
def ReconcileBatch {σ : Type} (l : Logger) : List (ReconcileFunc σ) → σ → (Bool × Option GoError) × σ
  | [], s => ((true, none), s)
  | f :: rest, s =>
    let out := f l s
    if !out.1.1 || out.1.2.isSome then (out.1, out.2) else ReconcileBatch l rest out.2

/-- The loop's exit test on a step's return values: `!cont || err != nil`. -/
def Stops (r : Bool × Option GoError) : Prop := r.1 = false ∨ r.2 ≠ none

instance (r : Bool × Option GoError) : Decidable (Stops r) := by
  unfold Stops; infer_instance

/-- The state after invoking every step of `fs`, in list order, once each. -/
def runPrefix {σ : Type} (l : Logger) (fs : List (ReconcileFunc σ)) (s : σ) : σ :=
  fs.foldl (fun st f => (f l st).2) s

/-- What the `i`-th step of `fs` returns when it is invoked after the steps before it. -/
def resultAt {σ : Type} (l : Logger) (fs : List (ReconcileFunc σ)) (s : σ) (i : Nat) :
    Option (Bool × Option GoError) :=
  (fs.get? i).map (fun f => (f l (runPrefix l (fs.take i) s)).1)

/-- A step wrapped so that every invocation appends the step's position to a call log
kept next to the state; return values and the effect on the state are the step's own. -/
def logged {σ : Type} (i : Nat) (f : ReconcileFunc σ) : ReconcileFunc (σ × List Nat) :=
  fun l st => let out := f l st.1; (out.1, (out.2, st.2 ++ [i]))

/-- The steps of `fs`, each logging its position (counted from `start`). -/
def loggedFrom {σ : Type} : Nat → List (ReconcileFunc σ) → List (ReconcileFunc (σ × List Nat))
  | _, [] => []
  | start, f :: rest => logged start f :: loggedFrom (start + 1) rest

/-! ### Kubernetes objects -/

/-- Go: `types.NamespacedName`. -/
structure NamespacedName where
  Namespace : String
  Name : String
  deriving DecidableEq, Repr

/-- Go: `ctrl.Request`. -/
structure Request where
  NamespacedName : NamespacedName
  deriving DecidableEq, Repr

/-- Go: `ctrl.Result`; `ctrl.Result{}` is the zero value. -/
structure Result where
  Requeue : Bool := false
  RequeueAfter : Nat := 0
  deriving DecidableEq, Repr

/-- A Go `map[string]string` (or `map[string][]byte`, a value being the bytes of a
string): the entries in insertion order, one per key.  A nil map is the empty map. -/
structure GoMap where
  entries : List (String × String)
  deriving DecidableEq, Repr

namespace GoMap

/-- The empty (or nil) map. -/
def empty : GoMap := ⟨[]⟩

/-- The two-value lookup `v, ok := m[k]`. -/
def get? (m : GoMap) (k : String) : Option String :=
  (m.entries.find? (fun p => p.1 == k)).map (fun p => p.2)

/-- The lookup `m[k]`: the zero value (the empty string) for an absent key. -/
def index (m : GoMap) (k : String) : String := (m.get? k).getD ""

/-- Assignment to the entry list: replace the entry of `k`, or add one at the end. -/
def setEntries : List (String × String) → String → String → List (String × String)
  | [], k, v => [(k, v)]
  | p :: rest, k, v => if p.1 == k then (k, v) :: rest else p :: setEntries rest k v

/-- The assignment `m[k] = v`. -/
def set (m : GoMap) (k v : String) : GoMap := ⟨setEntries m.entries k v⟩

/-- The keys of the map. -/
def keys (m : GoMap) : List String := m.entries.map (fun p => p.1)

/-- Deep equality of maps: the same keys with the same values; nil and empty are equal. -/
def deepEqual (a b : GoMap) : Bool :=
  (a.keys ++ b.keys).all (fun k => a.get? k == b.get? k)

end GoMap

/-- Go: `metav1.ConditionStatus`. -/
inductive ConditionStatus where
  | ConditionTrue
  | ConditionFalse
  | ConditionUnknown
  deriving DecidableEq, Repr

/-- Go: `metav1.Condition`.  `LastTransitionTime` is a clock reading, `0` the zero time. -/
structure Condition where
  Type_ : String
  Status : ConditionStatus
  ObservedGeneration : Int := 0
  LastTransitionTime : Nat := 0
  Reason : String
  Message : String
  deriving DecidableEq, Repr

/-- Go: `DataProtectionApplicationStatus`, the part the controller writes. -/
structure DataProtectionApplicationStatus where
  Conditions : List Condition := []
  deriving DecidableEq, Repr

/-- Go: `oadpv1alpha1.DataProtectionApplication`: the metadata used by the controller,
the spec as an uninterpreted payload, and the status. -/
structure DataProtectionApplication where
  Name : String := ""
  Namespace : String := ""
  UID : String := ""
  Spec : String := ""
  Status : DataProtectionApplicationStatus := {}
  deriving DecidableEq, Repr

/-- Go: `schema.GroupVersion`, the parsed form of an `apiVersion` string. -/
structure GroupVersion where
  Group : String
  Version : String
  deriving DecidableEq, Repr

/-- Go: `metav1.OwnerReference`, with `APIVersion` in parsed form. -/
structure OwnerReference where
  APIVersion : GroupVersion
  Kind : String
  Name : String
  UID : String
  Controller : Option Bool
  BlockOwnerDeletion : Option Bool
  deriving DecidableEq, Repr

/-- Go: `corev1.Secret`: the metadata and data the controller reads or writes. -/
structure Secret where
  Name : String
  Namespace : String
  Labels : GoMap := GoMap.empty
  OwnerReferences : List OwnerReference := []
  Data : GoMap := GoMap.empty
  deriving DecidableEq, Repr

/-- Go: `equality.Semantic.DeepEqual` on two secrets. -/
def Secret.deepEqual (a b : Secret) : Bool :=
  a.Name == b.Name && a.Namespace == b.Namespace && a.Labels.deepEqual b.Labels &&
    a.OwnerReferences == b.OwnerReferences && a.Data.deepEqual b.Data

/-- The key of a secret: `client.ObjectKeyFromObject`. -/
def Secret.key (s : Secret) : NamespacedName := ⟨s.Namespace, s.Name⟩

/-- The key of the primary resource. -/
def DataProtectionApplication.key (d : DataProtectionApplication) : NamespacedName :=
  ⟨d.Namespace, d.Name⟩

/-- An event recorded through `record.EventRecorder.Event`. -/
structure Event where
  object : NamespacedName
  eventtype : String
  reason : String
  message : String
  deriving DecidableEq, Repr

/-! ### Status conditions (`k8s.io/apimachinery/pkg/api/meta`) -/

/-- Go: `apimeta.FindStatusCondition` — the first condition of the given type. -/
def FindStatusCondition (conditions : List Condition) (conditionType : String) :
    Option Condition :=
  conditions.find? (fun c => c.Type_ == conditionType)

/-- The update `SetStatusCondition` makes to an existing condition: status and
transition time only when the status differs, then reason, message, generation. -/
def mergeCondition (existing newCondition : Condition) (now : Nat) : Condition :=
  let c :=
    if existing.Status ≠ newCondition.Status then
      { existing with
        Status := newCondition.Status
        LastTransitionTime :=
          if newCondition.LastTransitionTime ≠ 0 then newCondition.LastTransitionTime else now }
    else existing
  { c with
    Reason := newCondition.Reason
    Message := newCondition.Message
    ObservedGeneration := newCondition.ObservedGeneration }

/-- Go: `apimeta.SetStatusCondition` at clock reading `now`: append the condition
(stamped with `now` when it carries no time) if its type is absent, else update the
first condition of that type in place. -/
def SetStatusCondition (conditions : List Condition) (newCondition : Condition) (now : Nat) :
    List Condition :=
  match conditions with
  | [] =>
    [if newCondition.LastTransitionTime = 0 then
        { newCondition with LastTransitionTime := now } else newCondition]
  | c :: rest =>
    if c.Type_ == newCondition.Type_ then mergeCondition c newCondition now :: rest
    else c :: SetStatusCondition rest newCondition now

/-- Modelled from the spec: `oadpv1alpha1.ConditionReconciled` (declared in
`api/v1alpha1`), the condition `type=Reconciled`. -/
def ConditionReconciled : String := "Reconciled"

/-- Modelled from the spec: `oadpv1alpha1.ReconciledReasonError`, `reason` `Error`. -/
def ReconciledReasonError : String := "Error"

/-- Modelled from the spec: `oadpv1alpha1.ReconciledReasonComplete`, `reason` `Complete`. -/
def ReconciledReasonComplete : String := "Complete"

/-! ### The cluster behind `client.Client` -/

/-- An API error: a `GoError` for which `apierrors.IsNotFound` may hold. -/
structure APIError where
  err : GoError
  IsNotFound : Bool
  deriving DecidableEq, Repr

/-- The objects stored in the cluster: the primary resources, the secrets, and
everything else (`other`), which only the reconcile steps outside this file touch. -/
structure Cluster (ω : Type) where
  dpas : List DataProtectionApplication
  secrets : List Secret
  other : ω

/-- Go: `client.Client`, as far as the cluster does not determine it: for every
operation the failure, if any, that the API injects (conflict, timeout, forbidden, ...)
in a given cluster state.  `none` lets the operation proceed on the stored objects. -/
structure Client (ω : Type) where
  name : String
  failGetDPA : Cluster ω → NamespacedName → Option APIError
  failStatusUpdate : Cluster ω → DataProtectionApplication → Option GoError
  failGetSecret : Cluster ω → NamespacedName → Option APIError
  failCreateSecret : Cluster ω → Secret → Option GoError
  failUpdateSecret : Cluster ω → Secret → Option GoError

/-- A call made on `r.Client` by the code of this file. -/
inductive APICall where
  | getDPA (key : NamespacedName)
  | statusUpdate (obj : DataProtectionApplication)
  | getSecret (key : NamespacedName)
  | createSecret (obj : Secret)
  | updateSecret (obj : Secret)
  deriving DecidableEq, Repr

/-- The stored primary resource with the given key. -/
def Cluster.findDPA {ω : Type} (c : Cluster ω) (key : NamespacedName) :
    Option DataProtectionApplication :=
  c.dpas.find? (fun d => d.key == key)

/-- The stored secret with the given key. -/
def Cluster.findSecret {ω : Type} (c : Cluster ω) (key : NamespacedName) : Option Secret :=
  c.secrets.find? (fun x => x.key == key)

/-- The error of a read or write of an object that is not stored. -/
def notFound (resource : String) (key : NamespacedName) : APIError :=
  ⟨⟨resource ++ " \"" ++ key.Name ++ "\" not found"⟩, true⟩

/-- The error of a create of an object that is already stored. -/
def alreadyExists (resource : String) (key : NamespacedName) : GoError :=
  ⟨resource ++ " \"" ++ key.Name ++ "\" already exists"⟩

/-- Go: `c.Get(ctx, key, &dpa)`. -/
def Client.GetDPA {ω : Type} (c : Client ω) (cl : Cluster ω) (key : NamespacedName) :
    Except APIError DataProtectionApplication :=
  match c.failGetDPA cl key with
  | some e => .error e
  | none =>
    match cl.findDPA key with
    | some d => .ok d
    | none => .error (notFound "dataprotectionapplications.oadp.openshift.io" key)

/-- Replace the status of the first stored primary resource with the key of `obj`. -/
def replaceStatus (obj : DataProtectionApplication) :
    List DataProtectionApplication → List DataProtectionApplication
  | [] => []
  | d :: rest =>
    if d.key == obj.key then { d with Status := obj.Status } :: rest
    else d :: replaceStatus obj rest

/-- Go: `c.Status().Update(ctx, obj)` — the status subresource: the stored object takes
the status of `obj` and nothing else; `obj` is overwritten with the stored object.
Returns the error, the cluster, and `obj` after the call. -/
def Client.StatusUpdate {ω : Type} (c : Client ω) (cl : Cluster ω)
    (obj : DataProtectionApplication) :
    Option GoError × Cluster ω × DataProtectionApplication :=
  match c.failStatusUpdate cl obj with
  | some e => (some e, cl, obj)
  | none =>
    match cl.findDPA obj.key with
    | none => (some (notFound "dataprotectionapplications.oadp.openshift.io" obj.key).err, cl, obj)
    | some d =>
      (none, { cl with dpas := replaceStatus obj cl.dpas }, { d with Status := obj.Status })

/-- Go: `c.Get(ctx, key, &secret)`. -/
def Client.GetSecret {ω : Type} (c : Client ω) (cl : Cluster ω) (key : NamespacedName) :
    Except APIError Secret :=
  match c.failGetSecret cl key with
  | some e => .error e
  | none =>
    match cl.findSecret key with
    | some x => .ok x
    | none => .error (notFound "secrets" key)

/-- Go: `c.Create(ctx, &secret)`. -/
def Client.CreateSecret {ω : Type} (c : Client ω) (cl : Cluster ω) (obj : Secret) :
    Option GoError × Cluster ω :=
  match c.failCreateSecret cl obj with
  | some e => (some e, cl)
  | none =>
    match cl.findSecret obj.key with
    | some _ => (some (alreadyExists "secrets" obj.key), cl)
    | none => (none, { cl with secrets := cl.secrets ++ [obj] })

/-- Replace the first stored secret with the key of `obj` by `obj`. -/
def replaceSecret (obj : Secret) : List Secret → List Secret
  | [] => []
  | x :: rest => if x.key == obj.key then obj :: rest else x :: replaceSecret obj rest

/-- Go: `c.Update(ctx, &secret)`. -/
def Client.UpdateSecret {ω : Type} (c : Client ω) (cl : Cluster ω) (obj : Secret) :
    Option GoError × Cluster ω :=
  match c.failUpdateSecret cl obj with
  | some e => (some e, cl)
  | none =>
    match cl.findSecret obj.key with
    | none => (some (notFound "secrets" obj.key).err, cl)
    | some _ => (none, { cl with secrets := replaceSecret obj cl.secrets })

/-! ### The reconciler and the state it runs in -/

/-- Go: `DataProtectionApplicationReconciler`.  `Scheme` is the group, version and kind
under which the primary resource type is registered, if it is; the event recorder's
record is `World.events`; `r.dpa` is the pointed-to object, which `Reconcile` assigns
before any step runs. -/
structure DataProtectionApplicationReconciler (ω : Type) where
  Client : Client ω
  Scheme : Option (GroupVersion × String)
  Log : Logger
  Context : Context
  NamespacedName : NamespacedName
  dpa : DataProtectionApplication

/-- Everything a reconcile can read or write: the reconciler value `r`, the cluster, the
process environment (`os.Getenv`), the events recorded, the calls made on `r.Client`,
and the package-level client of `pkg/client` (`oadpclient.SetClient`). -/
structure World (ω : Type) where
  r : DataProtectionApplicationReconciler ω
  cluster : Cluster ω
  env : GoMap
  events : List Event
  calls : List APICall
  pkgClient : Option (Client ω)

/-- Go: `os.Getenv`: the empty string for an unset variable. -/
def World.Getenv {ω : Type} (w : World ω) (key : String) : String := w.env.index key

/-- What an invocation of `Reconcile` returned and did: the Go return values `result`
and `err`, the state left behind, what `ReconcileBatch` returned if it was called,
and each `Status().Update` the invocation made, with its argument and returned error. -/
structure ReconcileOutcome (ω : Type) where
  result : Result
  err : Option GoError
  world : World ω
  pipeline : Option (Bool × Option GoError)
  statusUpdates : List (DataProtectionApplication × Option GoError)

/-- The condition `Reconcile` sets for the error returned by the step pipeline.
`completeMessage` is `oadpv1alpha1.ReconcileCompleteMessage`. -/
def reconciledCondition (completeMessage : String) : Option GoError → Condition
  | some err =>
    { Type_ := ConditionReconciled
      Status := ConditionStatus.ConditionFalse
      Reason := ReconciledReasonError
      Message := err.Error }
  | none =>
    { Type_ := ConditionReconciled
      Status := ConditionStatus.ConditionTrue
      Reason := ReconciledReasonComplete
      Message := completeMessage }

/-- Go: `(*DataProtectionApplicationReconciler).Reconcile`, run at clock reading `now`
with the step list `steps` (in the source the fixed list of eighteen methods of `r`);
`completeMessage` is the constant `oadpv1alpha1.ReconcileCompleteMessage`. -/
def Reconcile {ω : Type} (completeMessage : String) (steps : List (ReconcileFunc (World ω)))
    (now : Nat) (ctx : Context) (req : Request) (w : World ω) : ReconcileOutcome ω :=
  -- r.Log = log.FromContext(ctx); r.Context = ctx; r.NamespacedName = ...; r.dpa = &DPA{}
  let w1 : World ω :=
    { w with r := { w.r with
        Log := ⟨some ctx, []⟩, Context := ctx, NamespacedName := req.NamespacedName, dpa := {} } }
  -- r.Get(ctx, req.NamespacedName, r.dpa)
  let w2 : World ω := { w1 with calls := w1.calls ++ [APICall.getDPA req.NamespacedName] }
  match w2.r.Client.GetDPA w2.cluster req.NamespacedName with
  | .error _ =>
    { result := {}, err := none, world := w2, pipeline := none, statusUpdates := [] }
  | .ok d =>
    -- oadpclient.SetClient(r.Client)
    let w3 : World ω := { w2 with r := { w2.r with dpa := d }, pkgClient := some w2.r.Client }
    -- _, err := ReconcileBatch(r.Log, ...)
    let batch := ReconcileBatch w3.r.Log steps w3
    let err := batch.1.2
    let w4 := batch.2
    -- apimeta.SetStatusCondition(&r.dpa.Status.Conditions, ...)
    let dpa : DataProtectionApplication :=
      { w4.r.dpa with Status := { w4.r.dpa.Status with
          Conditions :=
            SetStatusCondition w4.r.dpa.Status.Conditions (reconciledCondition completeMessage err)
              now } }
    -- statusErr := r.Client.Status().Update(ctx, r.dpa)
    let upd := w4.r.Client.StatusUpdate w4.cluster dpa
    let statusErr := upd.1
    let w5 : World ω :=
      { w4 with
        r := { w4.r with dpa := upd.2.2 }
        cluster := upd.2.1
        calls := w4.calls ++ [APICall.statusUpdate dpa] }
    -- if err == nil { err = statusErr }
    { result := {}
      err := if err = none then statusErr else err
      world := w5
      pipeline := some batch.1
      statusUpdates := [(dpa, statusErr)] }

/-! ### `controllerutil` (sigs.k8s.io/controller-runtime) -/

/-- Go: `controllerutil.OperationResult`. -/
inductive OperationResult where
  | OperationResultNone
  | OperationResultCreated
  | OperationResultUpdated
  deriving DecidableEq, Repr

/-- The string value of an `OperationResult`, as `%s` prints it. -/
def OperationResult.toString : OperationResult → String
  | OperationResultNone => "unchanged"
  | OperationResultCreated => "created"
  | OperationResultUpdated => "updated"

/-- Go: `metav1.GetControllerOf` — the first owner reference with `Controller` true. -/
def GetControllerOf (controlled : Secret) : Option OwnerReference :=
  controlled.OwnerReferences.find? (fun ref => ref.Controller == some true)

/-- Go: `referSameObject` — same group, kind and name. -/
def referSameObject (a b : OwnerReference) : Bool :=
  a.APIVersion.Group == b.APIVersion.Group && a.Kind == b.Kind && a.Name == b.Name

/-- Go: `upsertOwnerRef` on the reference list — replace the first reference to the
same object, or append. -/
def upsertOwnerRef (ref : OwnerReference) : List OwnerReference → List OwnerReference
  | [] => [ref]
  | x :: rest => if referSameObject x ref then ref :: rest else x :: upsertOwnerRef ref rest

/-- Go: `controllerutil.SetControllerReference(owner, controlled, scheme)` for the
primary resource as owner of a secret: `validateOwner`, the owner's group, version and
kind from the scheme, the already-owned check, then `upsertOwnerRef`. -/
def SetControllerReference (owner : DataProtectionApplication) (controlled : Secret)
    (scheme : Option (GroupVersion × String)) : Except GoError Secret :=
  if owner.Namespace ≠ "" ∧ controlled.Namespace = "" then
    .error ⟨"cluster-scoped resource must not have a namespace-scoped owner, owner's namespace "
      ++ owner.Namespace⟩
  else if owner.Namespace ≠ "" ∧ owner.Namespace ≠ controlled.Namespace then
    .error ⟨"cross-namespace owner references are disallowed, owner's namespace "
      ++ owner.Namespace ++ ", obj's namespace " ++ controlled.Namespace⟩
  else
    match scheme with
    | none => .error ⟨"no kind is registered for the type v1alpha1.DataProtectionApplication"⟩
    | some gvk =>
      let ref : OwnerReference :=
        { APIVersion := gvk.1, Kind := gvk.2, Name := owner.Name, UID := owner.UID,
          BlockOwnerDeletion := some true, Controller := some true }
      match GetControllerOf controlled with
      | some existing =>
        if !referSameObject existing ref then
          .error ⟨"Object " ++ controlled.Namespace ++ "/" ++ controlled.Name
            ++ " is already owned by another " ++ existing.Kind ++ " controller " ++ existing.Name⟩
        else .ok { controlled with OwnerReferences := upsertOwnerRef ref controlled.OwnerReferences }
      | none => .ok { controlled with OwnerReferences := upsertOwnerRef ref controlled.OwnerReferences }

/-- Go: `controllerutil.mutate` — run the mutate function and refuse a changed key. -/
def mutate (f : Secret → Except GoError Secret) (key : NamespacedName) (obj : Secret) :
    Except GoError Secret :=
  match f obj with
  | .error e => .error e
  | .ok obj2 =>
    if obj2.key ≠ key then
      .error ⟨"MutateFn cannot mutate object name and/or object namespace"⟩
    else .ok obj2

/-- What `CreateOrUpdate` returned and left behind: the operation result, the error,
the state, and the object `obj` points to after the call. -/
structure CreateOrUpdateOutcome (ω : Type) where
  op : OperationResult
  err : Option GoError
  world : World ω
  obj : Secret

/-- Go: `controllerutil.CreateOrUpdate(ctx, r.Client, obj, f)` for a secret: get the
object; when it is not found, mutate and create; when found, mutate the stored object
and update it unless the mutation left it deeply equal. -/
def CreateOrUpdate {ω : Type} (w : World ω) (obj : Secret)
    (f : Secret → Except GoError Secret) : CreateOrUpdateOutcome ω :=
  let key := obj.key
  let w1 : World ω := { w with calls := w.calls ++ [APICall.getSecret key] }
  match w1.r.Client.GetSecret w1.cluster key with
  | .error e =>
    if !e.IsNotFound then
      { op := .OperationResultNone, err := some e.err, world := w1, obj := obj }
    else
      match mutate f key obj with
      | .error e2 => { op := .OperationResultNone, err := some e2, world := w1, obj := obj }
      | .ok obj2 =>
        let created := w1.r.Client.CreateSecret w1.cluster obj2
        let w2 : World ω :=
          { w1 with cluster := created.2, calls := w1.calls ++ [APICall.createSecret obj2] }
        match created.1 with
        | some e3 => { op := .OperationResultNone, err := some e3, world := w2, obj := obj2 }
        | none => { op := .OperationResultCreated, err := none, world := w2, obj := obj2 }
  | .ok existing =>
    match mutate f key existing with
    | .error e2 => { op := .OperationResultNone, err := some e2, world := w1, obj := existing }
    | .ok obj2 =>
      if existing.deepEqual obj2 then
        { op := .OperationResultNone, err := none, world := w1, obj := obj2 }
      else
        let updated := w1.r.Client.UpdateSecret w1.cluster obj2
        let w2 : World ω :=
          { w1 with cluster := updated.2, calls := w1.calls ++ [APICall.updateSecret obj2] }
        match updated.1 with
        | some e3 => { op := .OperationResultNone, err := some e3, world := w2, obj := obj2 }
        | none => { op := .OperationResultUpdated, err := none, world := w2, obj := obj2 }

/-! ### The scoped identity secret reconciler (`stsflow.go`) -/

/-- Declarations of this repository that `stsflow.go` uses and that lie outside the
embedded files: the constants of `pkg/credentials/stsflow` and the label function
`getDpaAppLabels` of the controller package. -/
structure Declarations where
  ClientIDEnvKey : String
  TenantIDEnvKey : String
  SubscriptionIDEnvKey : String
  AzureWorkloadIdentitySecretName : String
  WebIdentityTokenPath : String
  getDpaAppLabels : DataProtectionApplication → GoMap

/-- The mutate function passed to `CreateOrUpdate` by
`ReconcileAzureWorkloadIdentitySecret`: labels, the three data keys, controller reference. -/
def azureSecretMutateFn (D : Declarations) (dpa : DataProtectionApplication)
    (scheme : Option (GroupVersion × String)) (azureClientID azureTenantID : String)
    (secret : Secret) : Except GoError Secret :=
  let secret1 := { secret with Labels := D.getDpaAppLabels dpa }
  let secret2 := { secret1 with
    Data := ((secret1.Data.set "AZURE_CLIENT_ID" azureClientID).set
      "AZURE_TENANT_ID" azureTenantID).set "AZURE_FEDERATED_TOKEN_FILE" D.WebIdentityTokenPath }
  SetControllerReference dpa secret2 scheme

/-- Go: `(*DataProtectionApplicationReconciler).ReconcileAzureWorkloadIdentitySecret`. -/
def ReconcileAzureWorkloadIdentitySecret {ω : Type} (D : Declarations) :
    ReconcileFunc (World ω) := fun _log w =>
  let dpa := w.r.dpa
  let azureClientID := w.Getenv D.ClientIDEnvKey
  let azureTenantID := w.Getenv D.TenantIDEnvKey
  if azureClientID = "" ∨ azureTenantID = "" ∨ w.Getenv D.SubscriptionIDEnvKey = "" then
    ((true, none), w)
  else
    let secret : Secret := { Name := D.AzureWorkloadIdentitySecretName, Namespace := dpa.Namespace }
    let out := CreateOrUpdate w secret
      (azureSecretMutateFn D dpa w.r.Scheme azureClientID azureTenantID)
    match out.err with
    | some err => ((false, some err), out.world)
    | none =>
      if out.op = .OperationResultCreated ∨ out.op = .OperationResultUpdated then
        ((true, none),
          { out.world with events := out.world.events ++
              [{ object := out.obj.key
                 eventtype := "Normal"
                 reason := "AzureWorkloadIdentitySecretReconciled"
                 message := "performed " ++ out.op.toString
                   ++ " on azure workload identity secret "
                   ++ out.obj.Namespace ++ "/" ++ out.obj.Name }] })
      else ((true, none), out.world)

/-- The state in which `Reconcile` starts the step pipeline once `r.Get` has returned
the primary resource `d`: the four fields of `r` assigned, the get recorded, and the
package-level client set. -/
def fetchedWorld {ω : Type} (w : World ω) (ctx : Context) (req : Request)
    (d : DataProtectionApplication) : World ω :=
  { w with
    r := { w.r with
      Log := ⟨some ctx, []⟩, Context := ctx, NamespacedName := req.NamespacedName, dpa := d }
    calls := w.calls ++ [APICall.getDPA req.NamespacedName]
    pkgClient := some w.r.Client }

/-! ### Concrete objects, after the fixtures of `stsflow_test.go` -/

/-- A client through which the API injects no failure (the test's fake client). -/
def fakeClient : Client Bool :=
  { name := "fake"
    failGetDPA := fun _ _ => none
    failStatusUpdate := fun _ _ => none
    failGetSecret := fun _ _ => none
    failCreateSecret := fun _ _ => none
    failUpdateSecret := fun _ _ => none }

/-- The test's primary resource `test-ns/test-dpa`, with no condition yet. -/
def testDPA : DataProtectionApplication :=
  { Name := "test-dpa", Namespace := "test-ns", UID := "uid-1" }

/-- The same resource after an earlier reconcile that failed. -/
def failedDPA : DataProtectionApplication :=
  { testDPA with
    Status := { Conditions :=
      [{ Type_ := "Reconciled", Status := ConditionStatus.ConditionFalse,
         LastTransitionTime := 3, Reason := "Error", Message := "boom" }] } }

/-- A reconciler value before its first `Reconcile`, with the primary resource type
registered in the scheme. -/
def testReconciler : DataProtectionApplicationReconciler Bool :=
  { Client := fakeClient
    Scheme := some (⟨"oadp.openshift.io", "v1alpha1"⟩, "DataProtectionApplication")
    Log := ⟨none, []⟩
    Context := ⟨""⟩
    NamespacedName := ⟨"", ""⟩
    dpa := {} }

/-- A world whose cluster stores `d` and nothing else; `other` is a single flag. -/
def testWorld (d : DataProtectionApplication) (env : GoMap) : World Bool :=
  { r := testReconciler
    cluster := { dpas := [d], secrets := [], other := false }
    env := env
    events := []
    calls := []
    pkgClient := none }

/-- The request for the test's primary resource. -/
def testRequest : Request := ⟨⟨"test-ns", "test-dpa"⟩⟩

/-- A step that stops the pipeline cleanly: `return false, nil`. -/
def stopCleanly : ReconcileFunc (World Bool) := fun _ w => ((false, none), w)

/-- A step that fails: `return false, errors.New("step failed")`. -/
def failingStep : ReconcileFunc (World Bool) := fun _ w => ((false, some ⟨"step failed"⟩), w)

/-- A step that succeeds and changes nothing: `return true, nil`. -/
def passingStep : ReconcileFunc (World Bool) := fun _ w => ((true, none), w)

/-- Values for the declarations outside the embedded files, for the concrete runs. -/
def testDeclarations : Declarations :=
  { ClientIDEnvKey := "CLIENTID"
    TenantIDEnvKey := "TENANTID"
    SubscriptionIDEnvKey := "SUBSCRIPTIONID"
    AzureWorkloadIdentitySecretName := "azure-workload-identity-env"
    WebIdentityTokenPath := "/var/run/secrets/openshift/serviceaccount/token"
    getDpaAppLabels := fun dpa =>
      ⟨[("openshift.io/oadp", "True"), ("app.kubernetes.io/instance", dpa.Name)]⟩ }

/-- The environment of the test case "Azure STS credentials present". -/
def azureEnv : GoMap :=
  ⟨[("CLIENTID", "test-client-id"), ("TENANTID", "test-tenant-id"),
    ("SUBSCRIPTIONID", "test-subscription-id")]⟩

/-- The environment of the test case "Partial Azure credentials (missing tenant)". -/
def missingTenantEnv : GoMap :=
  ⟨[("CLIENTID", "test-client-id"), ("SUBSCRIPTIONID", "test-subscription-id")]⟩

/-- The world of the test: the reconciler holds the primary resource in `r.dpa`. -/
def stepWorld (env : GoMap) : World Bool :=
  { testWorld testDPA env with r := { testReconciler with dpa := testDPA } }

/-- A step is idempotent on its own: run again on the state it left, it returns the
same values and leaves that state as it is. -/
def IdempotentStep {σ : Type} (f : ReconcileFunc σ) : Prop :=
  ∀ l s, f l (f l s).2 = f l s

/-- A step that refuses to proceed once the cluster flag is set, and changes nothing. -/
def refuseWhenDeployed : ReconcileFunc (World Bool) := fun _ w =>
  if w.cluster.other then ((false, some ⟨"already deployed"⟩), w) else ((true, none), w)

/-- A step that sets the cluster flag. -/
def deploy : ReconcileFunc (World Bool) := fun _ w =>
  ((true, none), { w with cluster := { w.cluster with other := true } })

/-- The first of two consecutive invocations of `Reconcile` on the test fixture. -/
def firstReconcile (steps : List (ReconcileFunc (World Bool))) (env : GoMap) :
    ReconcileOutcome Bool :=
  Reconcile "Reconcile complete" steps 7 ⟨"ctx"⟩ testRequest (testWorld testDPA env)

/-- The second invocation, on the state the first one left. -/
def secondReconcile (steps : List (ReconcileFunc (World Bool))) (env : GoMap) :
    ReconcileOutcome Bool :=
  Reconcile "Reconcile complete" steps 8 ⟨"ctx"⟩ testRequest (firstReconcile steps env).world

/-- The step pipeline as `Reconcile` runs it once `r.Get` has returned `d`: the return
values of `ReconcileBatch` and the state it leaves. -/
def pipelineRun {ω : Type} (steps : List (ReconcileFunc (World ω))) (ctx : Context)
    (req : Request) (w : World ω) (d : DataProtectionApplication) :
    (Bool × Option GoError) × World ω :=
  ReconcileBatch ⟨some ctx, []⟩ steps (fetchedWorld w ctx req d)

/-- A pipeline that settles after one run: the identity secret step, then `deploy`. -/
def settledSteps : List (ReconcileFunc (World Bool)) :=
  [ReconcileAzureWorkloadIdentitySecret testDeclarations, deploy]

/-- The test's primary resource once a reconcile at clock reading 7 has completed. -/
def completedDPA : DataProtectionApplication :=
  { testDPA with
    Status := { Conditions :=
      [{ Type_ := "Reconciled", Status := ConditionStatus.ConditionTrue,
         LastTransitionTime := 7, Reason := "Complete", Message := "Reconcile complete" }] } }

/-- The key under which `ReconcileAzureWorkloadIdentitySecret` keeps its secret. -/
def azureSecretKey {ω : Type} (D : Declarations) (w : World ω) : NamespacedName :=
  ⟨w.r.dpa.Namespace, D.AzureWorkloadIdentitySecretName⟩

/-- The `CreateOrUpdate` call that `ReconcileAzureWorkloadIdentitySecret` makes in `w`. -/
def azureCreateOrUpdate {ω : Type} (D : Declarations) (w : World ω) : CreateOrUpdateOutcome ω :=
  CreateOrUpdate w
    { Name := D.AzureWorkloadIdentitySecretName, Namespace := w.r.dpa.Namespace }
    (azureSecretMutateFn D w.r.dpa w.r.Scheme (w.Getenv D.ClientIDEnvKey)
      (w.Getenv D.TenantIDEnvKey))

/-- The controller reference that `SetControllerReference` builds for the primary
resource registered under `gvk`. -/
def controllerRef (owner : DataProtectionApplication) (gvk : GroupVersion × String) :
    OwnerReference :=
  { APIVersion := gvk.1, Kind := gvk.2, Name := owner.Name, UID := owner.UID,
    BlockOwnerDeletion := some true, Controller := some true }

/-- The data of the secret stored under `key`, looked up at `k`; absent without a secret. -/
def storedData {ω : Type} (cl : Cluster ω) (key : NamespacedName) (k : String) : Option String :=
  match cl.findSecret key with
  | some old => old.Data.get? k
  | none => none

/-- The owner references of the secret stored under `key`; none without a secret. -/
def storedOwners {ω : Type} (cl : Cluster ω) (key : NamespacedName) : List OwnerReference :=
  match cl.findSecret key with
  | some old => old.OwnerReferences
  | none => []

/-- A secret of the identity secret's name left by someone else: one extra data key and
an owner reference to a config map that is not its controller. -/
def foreignSecret : Secret :=
  { Name := "azure-workload-identity-env"
    Namespace := "test-ns"
    OwnerReferences :=
      [{ APIVersion := ⟨"", "v1"⟩, Kind := "ConfigMap", Name := "other", UID := "uid-2",
         Controller := none, BlockOwnerDeletion := none }]
    Data := ⟨[("EXTRA_KEY", "x")]⟩ }

/-- The test's world with `foreignSecret` already stored. -/
def foreignSecretWorld : World Bool :=
  { stepWorld azureEnv with
    cluster := { dpas := [testDPA], secrets := [foreignSecret], other := false } }

/-! ### The label-correlated watch handler (`labelHandler`) -/

/-- Go: a `client.Object` as the handler reads it: `GetNamespace()` and `GetLabels()`. -/
structure ClientObject where
  Namespace : String
  Labels : GoMap
  deriving DecidableEq, Repr

/-- Go: `event.TypedCreateEvent[client.Object]`. -/
structure CreateEvent where
  Object : ClientObject

/-- Go: `event.TypedDeleteEvent[client.Object]`. -/
structure DeleteEvent where
  Object : ClientObject
  DeleteStateUnknown : Bool := false

/-- Go: `event.TypedUpdateEvent[client.Object]`. -/
structure UpdateEvent where
  ObjectOld : ClientObject
  ObjectNew : ClientObject

/-- Go: `event.TypedGenericEvent[client.Object]`. -/
structure GenericEvent where
  Object : ClientObject

/-- The work queue, as the requests handed to `q.Add`, in order. -/
abbrev WorkQueue := List Request

namespace labelHandler

/-- Go: `(*labelHandler).Create`; `OadpOperatorLabel` is the constant of `api/v1alpha1`. -/
def Create (OadpOperatorLabel : String) (evt : CreateEvent) (q : WorkQueue) : WorkQueue :=
  let ns := evt.Object.Namespace
  let dpaname := evt.Object.Labels.index "dataprotectionapplication.name"
  if evt.Object.Labels.index OadpOperatorLabel = "" ∨ dpaname = "" then q
  else q ++ [{ NamespacedName := { Name := dpaname, Namespace := ns } }]

/-- Go: `(*labelHandler).Delete`. -/
def Delete (OadpOperatorLabel : String) (evt : DeleteEvent) (q : WorkQueue) : WorkQueue :=
  let ns := evt.Object.Namespace
  let dpaname := evt.Object.Labels.index "dataprotectionapplication.name"
  if evt.Object.Labels.index OadpOperatorLabel = "" ∨ dpaname = "" then q
  else q ++ [{ NamespacedName := { Name := dpaname, Namespace := ns } }]

/-- Go: `(*labelHandler).Update`: everything is read from `evt.ObjectNew`. -/
def Update (OadpOperatorLabel : String) (evt : UpdateEvent) (q : WorkQueue) : WorkQueue :=
  let ns := evt.ObjectNew.Namespace
  let dpaname := evt.ObjectNew.Labels.index "dataprotectionapplication.name"
  if evt.ObjectNew.Labels.index OadpOperatorLabel = "" ∨ dpaname = "" then q
  else q ++ [{ NamespacedName := { Name := dpaname, Namespace := ns } }]

/-- Go: `(*labelHandler).Generic`. -/
def Generic (OadpOperatorLabel : String) (evt : GenericEvent) (q : WorkQueue) : WorkQueue :=
  let ns := evt.Object.Namespace
  let dpaname := evt.Object.Labels.index "dataprotectionapplication.name"
  if evt.Object.Labels.index OadpOperatorLabel = "" ∨ dpaname = "" then q
  else q ++ [{ NamespacedName := { Name := dpaname, Namespace := ns } }]

end labelHandler

/-- What every handler is to do with the object it reads (the new object on Update):
leave the queue when a label is absent or empty, else add the one request. -/
def enqueueFor (OadpOperatorLabel : String) (obj : ClientObject) (q : WorkQueue) : WorkQueue :=
  if obj.Labels.index OadpOperatorLabel = "" ∨
      obj.Labels.index "dataprotectionapplication.name" = "" then q
  else q ++ [⟨⟨obj.Namespace, obj.Labels.index "dataprotectionapplication.name"⟩⟩]

/-! ### The credential provisioner (`pkg/credentials/stsflow`)

The package's source file is not among the embedded files; only its test file is.  Its
functions are therefore modelled from the specification (§3, §4.3, §6), with the names,
signatures, label and payload texts that the test file shows. -/

/-- The map without the key `k`: `delete(m, k)`. -/
def GoMap.erase (m : GoMap) (k : String) : GoMap := ⟨m.entries.filter (fun p => !(p.1 == k))⟩

/-- Modelled from the spec: the `ProvisionedSecret` of §3 (the secret type of
`pkg/credentials/stsflow` is outside the embedded files): name, namespace, labels, the
`stringData` map and an optional owner reference. -/
structure ProvisionedSecret where
  Name : String
  Namespace : String
  Labels : GoMap := GoMap.empty
  StringData : GoMap := GoMap.empty
  OwnerRef : Option OwnerReference := none
  deriving DecidableEq, Repr

/-- The key of a provisioned secret. -/
def ProvisionedSecret.key (s : ProvisionedSecret) : NamespacedName := ⟨s.Namespace, s.Name⟩

/-- A service account, as far as the provisioner touches it. -/
structure ServiceAccount where
  Name : String
  Namespace : String
  Annotations : GoMap := GoMap.empty
  deriving DecidableEq, Repr

/-- The key of a service account. -/
def ServiceAccount.key (s : ServiceAccount) : NamespacedName := ⟨s.Namespace, s.Name⟩

/-- A JSON merge patch of a secret: for each `stringData` key it carries, the new value
or `none` (JSON null, the key is removed), and the labels it sets. -/
structure MergePatch where
  stringData : List (String × Option String)
  labels : List (String × String)
  deriving DecidableEq, Repr

/-- The objects the provisioner reads and writes through its client. -/
structure STSStore where
  secrets : List ProvisionedSecret
  serviceAccounts : List ServiceAccount
  deriving DecidableEq, Repr

/-- The provisioner's client, as far as the store does not determine it: the failure,
if any, that the API injects into a get, create or patch of a secret and into a get or
update of a service account. -/
structure STSClient where
  failGet : STSStore → NamespacedName → Option GoError
  failCreate : STSStore → ProvisionedSecret → Option GoError
  failPatch : STSStore → NamespacedName → MergePatch → Option GoError
  failGetServiceAccount : STSStore → NamespacedName → Option GoError
  failUpdateServiceAccount : STSStore → ServiceAccount → Option GoError

/-- A call made by the provisioner on its client. -/
inductive STSCall where
  | get (key : NamespacedName)
  | create (obj : ProvisionedSecret)
  | patch (key : NamespacedName) (p : MergePatch)
  | getServiceAccount (key : NamespacedName)
  | updateServiceAccount (obj : ServiceAccount)
  deriving DecidableEq, Repr

/-- The state the provisioner runs in: the store and the record of its client calls. -/
structure STSState where
  store : STSStore
  calls : List STSCall
  deriving DecidableEq, Repr

/-- The second, independent read path (the clientset) used to wait for a secret:
whether the secret with a key is observable at the `i`-th poll, and the number of polls
that fit before the deadline. -/
structure Clientset where
  visible : Nat → NamespacedName → Bool
  polls : Nat

/-- The stored secret with the given key. -/
def STSStore.findSecret (s : STSStore) (key : NamespacedName) : Option ProvisionedSecret :=
  s.secrets.find? (fun x => x.key == key)

/-- The stored service account with the given key. -/
def STSStore.findServiceAccount (s : STSStore) (key : NamespacedName) : Option ServiceAccount :=
  s.serviceAccounts.find? (fun x => x.key == key)

/-- Modelled from the spec: the fixed type-marker label of §4.3 (the label constant of
`pkg/credentials/stsflow` is outside the embedded files); key and value are those the
test file asserts. -/
def secretTypeLabel : String × String := ("oadp.openshift.io/secret-type", "sts-credentials")

/-- Whether a call is a create or a patch of a secret. -/
def STSCall.isWrite : STSCall → Bool
  | .create _ => true
  | .patch _ _ => true
  | _ => false

/-- Whether a call is a patch of a secret. -/
def STSCall.isPatch : STSCall → Bool
  | .patch _ _ => true
  | _ => false

/-- Modelled from the spec: the merge patch of §4.3 "carrying only the changed
`stringData`": one entry for every key at which the desired and the current map differ,
with the desired value (`none` for a key the desired map lacks). -/
def changedStringData (current desired : GoMap) : List (String × Option String) :=
  ((desired.keys ++ current.keys.filter (fun k => desired.get? k == none)).filter
    (fun k => current.get? k != desired.get? k)).map (fun k => (k, desired.get? k))

/-- Apply the `stringData` entries of a merge patch to a map. -/
def applyStringData : GoMap → List (String × Option String) → GoMap
  | m, [] => m
  | m, (k, some v) :: rest => applyStringData (m.set k v) rest
  | m, (k, none) :: rest => applyStringData (m.erase k) rest

/-- Set the labels carried by a merge patch. -/
def applyLabels : GoMap → List (String × String) → GoMap
  | m, [] => m
  | m, (k, v) :: rest => applyLabels (m.set k v) rest

/-- Apply a merge patch to the first stored secret with the given key. -/
def patchSecret (key : NamespacedName) (p : MergePatch) :
    List ProvisionedSecret → List ProvisionedSecret
  | [] => []
  | x :: rest =>
    if x.key == key then
      { x with StringData := applyStringData x.StringData p.stringData
               Labels := applyLabels x.Labels p.labels } :: rest
    else x :: patchSecret key p rest

/-- Modelled from the spec: the wait-for-visibility of §4.3 (`WaitForSecret` of
`pkg/credentials/stsflow`): a bounded poll loop on the second read path that ends with
no error at the first poll that observes the secret and with a timeout error when no
poll before the deadline does. -/
def WaitForSecret (clientset : Clientset) (key : NamespacedName) : Option GoError :=
  if (List.range clientset.polls).any (fun i => clientset.visible i key) then none
  else some ⟨"timed out waiting for secret " ++ key.Namespace ++ "/" ++ key.Name⟩

/-- Modelled from the spec: `CreateOrUpdateSTSSecretWithClientsAndWait` of
`pkg/credentials/stsflow` (§4.3, diff-aware materialization): fetch the named secret;
if absent, create it with the desired `stringData` and the type-marker label; if
present and key-by-key identical to the desired map, write nothing; if different, issue
one merge patch with the changed `stringData` and the marker label; a failure of the
get, create or patch is returned; then, if asked, wait for visibility. -/
def CreateOrUpdateSTSSecretWithClientsAndWait (secretName : String) (credStringData : GoMap)
    (secretNS : String) (clientInstance : STSClient) (clientset : Clientset)
    (waitForSecret : Bool) (st : STSState) : Option GoError × STSState :=
  let key : NamespacedName := ⟨secretNS, secretName⟩
  let st1 : STSState := { st with calls := st.calls ++ [STSCall.get key] }
  match clientInstance.failGet st1.store key with
  | some err => (some err, st1)
  | none =>
    let written : Option GoError × STSState :=
      match st1.store.findSecret key with
      | none =>
        let secret : ProvisionedSecret :=
          { Name := secretName, Namespace := secretNS,
            Labels := ⟨[secretTypeLabel]⟩, StringData := credStringData }
        let st2 : STSState := { st1 with calls := st1.calls ++ [STSCall.create secret] }
        match clientInstance.failCreate st2.store secret with
        | some err => (some err, st2)
        | none =>
          (none, { st2 with store := { st2.store with secrets := st2.store.secrets ++ [secret] } })
      | some current =>
        if credStringData.deepEqual current.StringData then (none, st1)
        else
          let p : MergePatch :=
            { stringData := changedStringData current.StringData credStringData
              labels := [secretTypeLabel] }
          let st2 : STSState := { st1 with calls := st1.calls ++ [STSCall.patch key p] }
          match clientInstance.failPatch st2.store key p with
          | some err => (some err, st2)
          | none =>
            (none, { st2 with
              store := { st2.store with secrets := patchSecret key p st2.store.secrets } })
    match written.1 with
    | some err => (some err, written.2)
    | none => if waitForSecret then (WaitForSecret clientset key, written.2) else (none, written.2)

/-- A client of the provisioner through which the API injects no failure. -/
def fakeSTSClient : STSClient :=
  { failGet := fun _ _ => none
    failCreate := fun _ _ => none
    failPatch := fun _ _ _ => none
    failGetServiceAccount := fun _ _ => none
    failUpdateServiceAccount := fun _ _ => none }

/-- A second read path on which every secret is observable at once. -/
def fakeClientset : Clientset := { visible := fun _ _ => true, polls := 1 }

/-- The scenario of the specification: the stored secret holds k1=old1, k2=old2. -/
def scenarioState : STSState :=
  { store :=
      { secrets :=
          [{ Name := "test-secret", Namespace := "test-namespace",
             StringData := ⟨[("k1", "old1"), ("k2", "old2")]⟩ }]
        serviceAccounts := [] }
    calls := [] }

/-- The desired map of the scenario: k1=old1, k2=new2, k3=v3. -/
def scenarioDesired : GoMap := ⟨[("k1", "old1"), ("k2", "new2"), ("k3", "v3")]⟩

/-- An empty store, as in the test case "Create new secret successfully". -/
def emptySTSState : STSState := { store := { secrets := [], serviceAccounts := [] }, calls := [] }

/-- Replace the first stored service account with the key of `obj` by `obj`. -/
def replaceServiceAccount (obj : ServiceAccount) : List ServiceAccount → List ServiceAccount
  | [] => []
  | x :: rest =>
    if x.key == obj.key then obj :: rest else x :: replaceServiceAccount obj rest

/-- Constants of `pkg/credentials/stsflow` that the test file names without their
values, and the key of the client-id annotation of §4.3, which neither the
specification nor the test file names. -/
structure STSDeclarations where
  VeleroAWSSecretName : String
  VeleroGCPSecretName : String
  VeleroAzureSecretName : String
  GcpSecretJSONKey : String
  WebIdentityTokenPath : String
  ClientIDAnnotationKey : String

/-- Modelled from the spec: the service account annotated with the client id (§4.3):
the client-id annotation is set, the other annotations are kept. -/
def ServiceAccount.withClientID (sa : ServiceAccount) (D : STSDeclarations)
    (clientID : String) : ServiceAccount :=
  { sa with Annotations := sa.Annotations.set D.ClientIDAnnotationKey clientID }

/-- Modelled from the spec: `AnnotateVeleroServiceAccountForAzureWithClient` of
`pkg/credentials/stsflow` (§4.3, auxiliary side effect; §7, Precondition and
Best-effort-ignorable): an empty client id is an error returned before any client call;
otherwise the service account `velero` of the namespace is fetched, annotated with the
client id and updated, and any other failure during annotation is swallowed: when the
get fails, when the account is not found and when the update fails, no error is
returned (the log line is not modelled).  The test file's remark that the assignment of
the annotation is commented out in the implementation is at odds with §4.3, which this
definition follows; the test's assertions hold of it. -/
def AnnotateVeleroServiceAccountForAzureWithClient (D : STSDeclarations) (clientID : String)
    (secretNS : String) (clientInstance : STSClient) (st : STSState) :
    Option GoError × STSState :=
  if clientID = "" then
    (some ⟨"client ID is required for Azure workload identity annotation"⟩, st)
  else
    let key : NamespacedName := ⟨secretNS, "velero"⟩
    let st1 : STSState := { st with calls := st.calls ++ [STSCall.getServiceAccount key] }
    match clientInstance.failGetServiceAccount st1.store key with
    | some _ => (none, st1)
    | none =>
      match st1.store.findServiceAccount key with
      | none => (none, st1)
      | some sa =>
        let annotated : ServiceAccount := sa.withClientID D clientID
        let st2 : STSState :=
          { st1 with calls := st1.calls ++ [STSCall.updateServiceAccount annotated] }
        match clientInstance.failUpdateServiceAccount st2.store annotated with
        | some _ => (none, st2)
        | none =>
          (none,
            { st2 with
              store := { st2.store with
                serviceAccounts :=
                  replaceServiceAccount annotated st2.store.serviceAccounts } })

/-- Modelled from the spec: the environment-style configuration inputs of §6 consumed
by the selection logic, each a plain string, empty meaning "not configured"; and the
namespace the secret is provisioned in (`WATCH_NAMESPACE` in the test file). -/
structure STSConfig where
  RoleARN : String := ""
  ServiceAccountEmail : String := ""
  ProjectNumber : String := ""
  PoolID : String := ""
  ProviderID : String := ""
  ClientID : String := ""
  TenantID : String := ""
  SubscriptionID : String := ""
  WatchNamespace : String := ""
  deriving DecidableEq, Repr

/-- Modelled from the spec: the tagged union `ProviderCredentials` of §3, by its tag. -/
inductive CloudProvider where
  | AWS
  | GCP
  | Azure
  deriving DecidableEq, Repr

/-- Modelled from the spec: the completeness predicate of the GCP variant (§4.3). -/
def STSConfig.gcpComplete (cfg : STSConfig) : Prop :=
  cfg.ServiceAccountEmail ≠ "" ∧ cfg.ProjectNumber ≠ "" ∧ cfg.PoolID ≠ "" ∧ cfg.ProviderID ≠ ""

/-- Modelled from the spec: the completeness predicate of the Azure variant (§4.3). -/
def STSConfig.azureComplete (cfg : STSConfig) : Prop :=
  cfg.ClientID ≠ "" ∧ cfg.TenantID ≠ "" ∧ cfg.SubscriptionID ≠ ""

instance (cfg : STSConfig) : Decidable cfg.gcpComplete := by
  unfold STSConfig.gcpComplete; infer_instance

instance (cfg : STSConfig) : Decidable cfg.azureComplete := by
  unfold STSConfig.azureComplete; infer_instance

/-- Modelled from the spec: the selection algorithm of §4.3 (in `STSStandardizedFlow` of
`pkg/credentials/stsflow`): fixed priority, first complete variant wins. -/
def selectProvider (cfg : STSConfig) : Option CloudProvider :=
  if cfg.RoleARN ≠ "" then some CloudProvider.AWS
  else if cfg.gcpComplete then some CloudProvider.GCP
  else if cfg.azureComplete then some CloudProvider.Azure
  else none

/-- The secret name of a provider. -/
def STSDeclarations.secretName (D : STSDeclarations) : CloudProvider → String
  | .AWS => D.VeleroAWSSecretName
  | .GCP => D.VeleroGCPSecretName
  | .Azure => D.VeleroAzureSecretName

/-- Modelled from the spec: the secret shapes of §6, with the texts of the test file. -/
def credStringData (D : STSDeclarations) (cfg : STSConfig) : CloudProvider → GoMap
  | .AWS =>
    ⟨[("credentials",
        "[default]\nsts_regional_endpoints = regional\nrole_arn = " ++ cfg.RoleARN
          ++ "\nweb_identity_token_file = " ++ D.WebIdentityTokenPath)]⟩
  | .GCP =>
    ⟨[(D.GcpSecretJSONKey,
        "\x7b\n\t\"type\": \"external_account\",\n\t\"audience\": \""
          ++ "//iam.googleapis.com/projects/" ++ cfg.ProjectNumber
          ++ "/locations/global/workloadIdentityPools/" ++ cfg.PoolID ++ "/providers/"
          ++ cfg.ProviderID
          ++ "\",\n\t\"subject_token_type\": \"urn:ietf:params:oauth:token-type:jwt\","
          ++ "\n\t\"token_url\": \"https://sts.googleapis.com/v1/token\","
          ++ "\n\t\"service_account_impersonation_url\": "
          ++ "\"https://iamcredentials.googleapis.com/v1/projects/-/serviceAccounts/"
          ++ cfg.ServiceAccountEmail ++ ":generateAccessToken\","
          ++ "\n\t\"credential_source\": \x7b\n\t\t\"file\": \"" ++ D.WebIdentityTokenPath
          ++ "\",\n\t\t\"format\": \x7b\n\t\t\t\"type\": \"text\"\n\t\t\x7d\n\t\x7d\n\x7d")]⟩
  | .Azure =>
    ⟨[("azurekey",
        "\nAZURE_SUBSCRIPTION_ID=" ++ cfg.SubscriptionID ++ "\nAZURE_TENANT_ID=" ++ cfg.TenantID
          ++ "\nAZURE_CLIENT_ID=" ++ cfg.ClientID ++ "\nAZURE_CLOUD_NAME=AzurePublicCloud\n")]⟩

/-- Modelled from the spec: `STSStandardizedFlow` of `pkg/credentials/stsflow` (§4.3):
select the provider; with none selected return the empty secret name and no error
without touching anything; else materialize the provider's secret, and for Azure then
attempt the service-account annotation, whose failure is swallowed.  Whether the flow
asks to wait for visibility is not in the specification and is a parameter here. -/
def STSStandardizedFlow (D : STSDeclarations) (cfg : STSConfig) (clientInstance : STSClient)
    (clientset : Clientset) (waitForSecret : Bool) (st : STSState) :
    (String × Option GoError) × STSState :=
  match selectProvider cfg with
  | none => (("", none), st)
  | some provider =>
    let written := CreateOrUpdateSTSSecretWithClientsAndWait (D.secretName provider)
      (credStringData D cfg provider) cfg.WatchNamespace clientInstance clientset
      waitForSecret st
    match written.1 with
    | some err => (("", some err), written.2)
    | none =>
      match provider with
      | .Azure =>
        ((D.secretName provider, none),
          (AnnotateVeleroServiceAccountForAzureWithClient D cfg.ClientID cfg.WatchNamespace
            clientInstance written.2).2)
      | _ => ((D.secretName provider, none), written.2)

/-- Values for the package constants, for the concrete runs. -/
def testSTSDeclarations : STSDeclarations :=
  { VeleroAWSSecretName := "cloud-credentials"
    VeleroGCPSecretName := "cloud-credentials-gcp"
    VeleroAzureSecretName := "cloud-credentials-azure"
    GcpSecretJSONKey := "service_account.json"
    WebIdentityTokenPath := "/var/run/secrets/openshift/serviceaccount/token"
    ClientIDAnnotationKey := "azure.workload.identity/client-id" }

/-- A configuration in which all three providers are complete. -/
def allProvidersConfig : STSConfig :=
  { RoleARN := "arn:aws:iam::123456789012:role/test-role"
    ServiceAccountEmail := "test@example.iam.gserviceaccount.com"
    ProjectNumber := "123456789012"
    PoolID := "test-pool"
    ProviderID := "test-provider"
    ClientID := "test-client-id"
    TenantID := "test-tenant-id"
    SubscriptionID := "test-subscription-id"
    WatchNamespace := "test-namespace" }

/-- A store with the service account `velero` carrying one annotation, as in the test
case "Successfully annotate service account with existing annotations". -/
def annotatedState : STSState :=
  { store :=
      { secrets := []
        serviceAccounts :=
          [{ Name := "velero", Namespace := "test-namespace",
             Annotations := ⟨[("existing-annotation", "existing-value")]⟩ }] }
    calls := [] }

/-- A store in which the service account `velero` already carries a client-id
annotation, with the id of another identity, next to one other annotation. -/
def staleClientIDState : STSState :=
  { store :=
      { secrets := []
        serviceAccounts :=
          [{ Name := "velero", Namespace := "test-namespace",
             Annotations := ⟨[("azure.workload.identity/client-id", "old-client-id"),
               ("existing-annotation", "existing-value")]⟩ }] }
    calls := [] }

/-- A client of the provisioner through which every service-account call fails. -/
def failingServiceAccountClient : STSClient :=
  { fakeSTSClient with
    failGetServiceAccount := fun _ _ => some ⟨"connection refused"⟩
    failUpdateServiceAccount := fun _ _ => some ⟨"conflict"⟩ }

/-! ### Cloud storage adapters (`pkg/cloudprovider`) -/

/-- Go: `time.Duration`, a number of nanoseconds. -/
abbrev Duration := Int

/-- Go: `time.Second`. -/
def Second : Duration := 1000000000

/-- Go: `oadpv1alpha1.UploadSpeedTestConfig`; `Timeout` is `config.Timeout.Duration`. -/
structure UploadSpeedTestConfig where
  FileSize : String
  Timeout : Duration := 0
  deriving DecidableEq, Repr

/-- Go: `maxTestSizeBytesAzure = 200 * 1024 * 1024`. -/
def maxTestSizeBytesAzure : Int := 200 * 1024 * 1024

/-- Go: the context returned by `context.WithTimeout(parent, timeout)`. -/
structure TimeoutContext where
  parent : Context
  timeout : Duration
  deriving DecidableEq, Repr

/-- What `UploadTest` does outside its own frame, in order: materialize a payload of a
number of bytes; the Azure `UploadBuffer` call; the GCP writer's `Write` and `Close`.
The upload calls carry the context they run under. -/
inductive UploadEffect where
  | allocate (bytes : Int)
  | uploadBuffer (ctx : TimeoutContext) (bucket key : String) (bytes : Int)
  | write (ctx : TimeoutContext) (bucket object : String) (bytes : Int)
  | close
  deriving DecidableEq, Repr

/-- How a call of `UploadTest` ends: with its three return values, or in a Go panic. -/
inductive UploadOutcome where
  | returned (speedMbps : Int) (duration : Duration) (err : Option GoError)
  | panicked (reason : String)
  deriving DecidableEq, Repr

/-! ### Go `float64` arithmetic, as far as `UploadTest` uses it

The throughput is computed in `float64`.  Each operation yields the IEEE-754 binary64
value nearest to the exact result, ties to even.  A finite value is kept as sign,
integer mantissa and binary exponent; the exponent range is not bounded here, which
agrees with binary64 on every `int64` input of `UploadTest` (no intermediate value
leaves the normal range). -/

set_option maxRecDepth 4000

/-- The number of binary digits of `n`, counted with at most `fuel` halvings. -/
def bitLengthAux : Nat → Nat → Nat
  | 0, _ => 0
  | fuel + 1, n => if n = 0 then 0 else bitLengthAux fuel (n / 2) + 1

/-- The number of binary digits of `n`: 0 for 0, else the `k` with `2^(k-1) ≤ n < 2^k`. -/
def bitLength (n : Nat) : Nat := bitLengthAux n n

/-- A Go `float64`: a finite value `(-1)^neg * m * 2^e`, an infinity, or NaN. -/
inductive Float64 where
  | finite (neg : Bool) (m : Nat) (e : Int)
  | inf (neg : Bool)
  | nan
  deriving DecidableEq, Repr

/-- The `float64` nearest to `(-1)^neg * (num / den) * 2^e` for `den > 0`, ties to even:
the quotient is taken with at least 56 binary digits and a sticky bit for the remainder,
then cut to its leading 53 digits and rounded. -/
def Float64.round (neg : Bool) (num den : Nat) (e : Int) : Float64 :=
  if num = 0 then .finite neg 0 0
  else
    let k := 55 + bitLength den
    let q := num * 2 ^ k / den
    let sticky : Bool := num * 2 ^ k % den != 0
    let extra := bitLength q - 53
    let mant := q / 2 ^ extra
    let rest := q % 2 ^ extra
    let half := 2 ^ (extra - 1)
    if rest > half ∨ (rest = half ∧ (sticky = true ∨ mant % 2 = 1)) then
      .finite neg (mant + 1) (e - k + extra)
    else .finite neg mant (e - k + extra)

/-- Go: the conversion `float64(x)` of an integer, and a float constant such as `1e9`. -/
def Float64.ofInt (x : Int) : Float64 := Float64.round (decide (x < 0)) x.natAbs 1 0

/-- Go: `a / b` on `float64`. -/
def Float64.div : Float64 → Float64 → Float64
  | .nan, _ => .nan
  | _, .nan => .nan
  | .inf _, .inf _ => .nan
  | .inf s, .finite t _ _ => .inf (xor s t)
  | .finite s _ _, .inf t => .finite (xor s t) 0 0
  | .finite s m e, .finite t n f =>
    if n = 0 then (if m = 0 then .nan else .inf (xor s t))
    else Float64.round (xor s t) m n (e - f)

/-- Go: `a + b` on `float64`. -/
def Float64.add : Float64 → Float64 → Float64
  | .nan, _ => .nan
  | _, .nan => .nan
  | .inf s, .inf t => if s = t then .inf s else .nan
  | .inf s, .finite _ _ _ => .inf s
  | .finite _ _ _, .inf t => .inf t
  | .finite s m e, .finite t n f =>
    let g := min e f
    let x : Int := (if s then -(m : Int) else m) * 2 ^ (e - g).toNat
      + (if t then -(n : Int) else n) * 2 ^ (f - g).toNat
    if x = 0 then .finite (s && t) 0 0
    else Float64.round (decide (x < 0)) x.natAbs 1 g

/-- Go: the conversion `int64(f)`: the fraction is discarded (truncation toward zero);
for a value that `int64` cannot represent (out of range, an infinity, NaN) the result is
implementation-dependent and is given by `implementation`. -/
def Float64.toInt64 (implementation : Float64 → Int) : Float64 → Int
  | .finite s m e =>
    let mag : Nat := if 0 ≤ e then m * 2 ^ e.toNat else m / 2 ^ (-e).toNat
    let v : Int := if s then -(mag : Int) else mag
    if -9223372036854775808 ≤ v ∧ v ≤ 9223372036854775807 then v
    else implementation (.finite s m e)
  | f => implementation f

/-- Go: `(d Duration).Seconds()` of package `time`:
`sec := d / Second; nsec := d % Second; return float64(sec) + float64(nsec)/1e9`. -/
def Duration.Seconds (d : Duration) : Float64 :=
  let sec := Int.tdiv d Second
  let nsec := Int.tmod d Second
  (Float64.ofInt sec).add ((Float64.ofInt nsec).div (Float64.ofInt 1000000000))

/-- The float `f` is finite and not negative, and its value lies between `lo * x` and
`hi * x`. -/
def Float64.Near (f : Float64) (x lo hi : ℚ) : Prop :=
  ∃ m e, f = .finite false m e ∧ lo * x ≤ (m : ℚ) * 2 ^ e ∧ (m : ℚ) * 2 ^ e ≤ hi * x

/-- What `AzureProvider.UploadTest` takes from outside the embedded files:
`utils.ParseFileSize`; the clock reading `time.Now().UnixNano()` that names the object;
the client's `UploadBuffer` under a deadline, returning its error and the wall-clock time
`time.Since(start)` it took; and the implementation-dependent result of `int64(f)` for a
float that `int64` cannot represent. -/
structure AzureUploadEnv where
  ParseFileSize : String → Except GoError Int
  UnixNano : Int
  UploadBuffer : TimeoutContext → String → String → Int → Option GoError × Duration
  int64Unrepresentable : Float64 → Int

/-- Go: `(*AzureProvider).UploadTest`, with the effects it had. -/
def AzureProvider.UploadTest (env : AzureUploadEnv) (ctx : Context)
    (config : UploadSpeedTestConfig) (bucket : String) : UploadOutcome × List UploadEffect :=
  match env.ParseFileSize config.FileSize with
  | .error err => (.returned 0 0 (some ⟨"invalid file size: " ++ err.Error⟩), [])
  | .ok testDataBytes =>
    if testDataBytes > maxTestSizeBytesAzure then
      (.returned 0 0 (some ⟨"test file size " ++ toString testDataBytes
        ++ " exceeds max allowed " ++ toString (maxTestSizeBytesAzure / 1024 / 1024)
        ++ "MB (due to pod mem limit)"⟩), [])
    else
      let timeoutDuration : Duration := if config.Timeout ≠ 0 then config.Timeout else 30 * Second
      -- payload := bytes.Repeat([]byte("0"), int(testDataBytes))
      if testDataBytes < 0 then (.panicked "bytes: negative Repeat count", [])
      else
        let key := "dpt-upload-test-" ++ toString env.UnixNano
        -- ctxWithTimeout, cancel := context.WithTimeout(ctx, timeoutDuration)
        let ctxWithTimeout : TimeoutContext := ⟨ctx, timeoutDuration⟩
        let up := env.UploadBuffer ctxWithTimeout bucket key testDataBytes
        let effects := [UploadEffect.allocate testDataBytes,
          UploadEffect.uploadBuffer ctxWithTimeout bucket key testDataBytes]
        match up.1 with
        | some err => (.returned 0 up.2 (some ⟨"upload failed: " ++ err.Error⟩), effects)
        | none =>
          -- speedMbps := (float64(testDataBytes*8) / duration.Seconds()) / 1_000_000
          let speedMbps := ((Float64.ofInt (testDataBytes * 8)).div
            (Duration.Seconds up.2)).div (Float64.ofInt 1000000)
          (.returned (speedMbps.toInt64 env.int64Unrepresentable) up.2 none, effects)

/-- What `GCPProvider.UploadTest` takes from outside the embedded files:
`utils.ParseFileSize`; the clock reading that names the object; the writer's `Write`
under a deadline (bytes written and error) and `Close`; the wall-clock time
`time.Since(start)`; and the implementation-dependent result of `int64(f)` for a float
that `int64` cannot represent. -/
structure GCPUploadEnv where
  ParseFileSize : String → Except GoError Int
  UnixNano : Int
  Write : TimeoutContext → String → String → Int → Int × Option GoError
  Close : Option GoError
  elapsed : Duration
  int64Unrepresentable : Float64 → Int

/-- Go: `(*GCPProvider).UploadTest`, with the effects it had. -/
def GCPProvider.UploadTest (env : GCPUploadEnv) (ctx : Context)
    (config : UploadSpeedTestConfig) (bucket : String) : UploadOutcome × List UploadEffect :=
  match env.ParseFileSize config.FileSize with
  | .error err => (.returned 0 0 (some ⟨"failed to parse file size: " ++ err.Error⟩), [])
  | .ok testDataBytes =>
    if testDataBytes > 200 * 1024 * 1024 then
      (.returned 0 0 (some ⟨"test file size " ++ toString testDataBytes
        ++ " exceeds maximum allowed size " ++ toString (200 * 1024 * 1024 : Int)⟩), [])
    else
      -- testData := make([]byte, testDataBytes)
      if testDataBytes < 0 then (.panicked "makeslice: len out of range", [])
      else
        let objectName := "dpt-upload-test-" ++ toString env.UnixNano
        let timeoutDuration : Duration := if config.Timeout ≠ 0 then config.Timeout else 30 * Second
        -- uploadCtx, cancel := context.WithTimeout(ctx, timeoutDuration)
        let uploadCtx : TimeoutContext := ⟨ctx, timeoutDuration⟩
        let written := env.Write uploadCtx bucket objectName testDataBytes
        let effects := [UploadEffect.allocate testDataBytes,
          UploadEffect.write uploadCtx bucket objectName testDataBytes]
        match written.2 with
        | some err =>
          (.returned 0 0 (some ⟨"failed to write test data: " ++ err.Error⟩),
            effects ++ [UploadEffect.close])
        | none =>
          match env.Close with
          | some err =>
            (.returned 0 0 (some ⟨"failed to close writer: " ++ err.Error⟩),
              effects ++ [UploadEffect.close])
          | none =>
            -- speedMbps := int64(float64(bytesWritten*8) / duration.Seconds() / 1000000)
            let speedMbps := ((Float64.ofInt (written.1 * 8)).div
              (Duration.Seconds env.elapsed)).div (Float64.ofInt 1000000)
            (.returned (speedMbps.toInt64 env.int64Unrepresentable) env.elapsed none,
              effects ++ [UploadEffect.close])

/-- A file-size parser for the concrete runs: two sizes it knows, in bytes. -/
def testParseFileSize (s : String) : Except GoError Int :=
  if s = "100MB" then .ok (100 * 1024 * 1024)
  else if s = "300MB" then .ok (300 * 1024 * 1024)
  else .error ⟨"invalid file size format"⟩

/-- An Azure upload environment in which the upload succeeds after two seconds. -/
def testAzureUploadEnv : AzureUploadEnv :=
  { ParseFileSize := testParseFileSize
    UnixNano := 1
    UploadBuffer := fun _ _ _ _ => (none, 2 * Second)
    int64Unrepresentable := fun _ => -9223372036854775808 }

/-- A GCP upload environment in which the upload succeeds after two seconds. -/
def testGCPUploadEnv : GCPUploadEnv :=
  { ParseFileSize := testParseFileSize
    UnixNano := 1
    Write := fun _ _ _ n => (n, none)
    Close := none
    elapsed := 2 * Second
    int64Unrepresentable := fun _ => -9223372036854775808 }

/-- A file-size parser that knows one size: one mebibyte. -/
def mebibyteParseFileSize (s : String) : Except GoError Int :=
  if s = "1MB" then .ok 1048576 else .error ⟨"invalid file size format"⟩

/-- An Azure upload environment in which the upload succeeds after 67108864 ns. -/
def mebibyteAzureUploadEnv : AzureUploadEnv :=
  { ParseFileSize := mebibyteParseFileSize
    UnixNano := 1
    UploadBuffer := fun _ _ _ _ => (none, 67108864)
    int64Unrepresentable := fun _ => -9223372036854775808 }

/-- A GCP upload environment in which the upload succeeds after 67108864 ns. -/
def mebibyteGCPUploadEnv : GCPUploadEnv :=
  { ParseFileSize := mebibyteParseFileSize
    UnixNano := 1
    Write := fun _ _ _ n => (n, none)
    Close := none
    elapsed := 67108864
    int64Unrepresentable := fun _ => -9223372036854775808 }

/-- A client whose get of the primary resource times out (an error other than not-found). -/
def timeoutClient : Client Bool :=
  { fakeClient with
    name := "timeout"
    failGetDPA := fun _ _ => some ⟨⟨"context deadline exceeded"⟩, false⟩ }

/-- The test's world behind `timeoutClient`. -/
def timeoutWorld : World Bool :=
  { testWorld testDPA GoMap.empty with r := { testReconciler with Client := timeoutClient } }

/-- The state `w` with other values in the fields of the reconciler that `Reconcile`
assigns (`Log`, `Context`, `NamespacedName`, `dpa`) and in the package-level client: what
an earlier invocation, for any resource, may have left there. -/
def staleFields {ω : Type} (w : World ω) (log0 : Logger) (ctx0 : Context)
    (name0 : NamespacedName) (dpa0 : DataProtectionApplication) (client0 : Option (Client ω)) :
    World ω :=
  { w with
    r := { w.r with Log := log0, Context := ctx0, NamespacedName := name0, dpa := dpa0 }
    pkgClient := client0 }

/-- A secret of the identity secret's name that already records a subscription id
under a key of its own. -/
def subscriptionSecret : Secret :=
  { Name := "azure-workload-identity-env"
    Namespace := "test-ns"
    Data := ⟨[("AZURE_SUBSCRIPTION_ID", "test-subscription-id")]⟩ }

/-- The test's world with `subscriptionSecret` already stored. -/
def subscriptionSecretWorld : World Bool :=
  { stepWorld azureEnv with
    cluster := { dpas := [testDPA], secrets := [subscriptionSecret], other := false } }

/-- The environment `azureEnv` with another subscription id. -/
def otherSubscriptionEnv : GoMap :=
  ⟨[("CLIENTID", "test-client-id"), ("TENANTID", "test-tenant-id"),
    ("SUBSCRIPTIONID", "another-subscription-id")]⟩

/-! ### Bucket metadata (`GetBucketMetadata`) and the Azure authentication chain -/

/-- Go: `oadpv1alpha1.BucketMetadata`, the two fields the adapters assign. -/
structure BucketMetadata where
  EncryptionAlgorithm : String := ""
  VersioningStatus : String := ""
  deriving DecidableEq, Repr

/-- Go: `storage.BucketEncryption`. -/
structure BucketEncryption where
  DefaultKMSKeyName : String := ""
  deriving DecidableEq, Repr

/-- Go: `storage.BucketAttrs`, the fields `GetBucketMetadata` reads; `Encryption` is a
pointer. -/
structure BucketAttrs where
  Encryption : Option BucketEncryption := none
  VersioningEnabled : Bool := false
  deriving DecidableEq, Repr

/-- The storage client behind `GCPProvider.GetBucketMetadata`:
`g.client.Bucket(bucket).Attrs(ctx)`. -/
structure GCPMetadataEnv where
  Attrs : Context → String → Except GoError BucketAttrs

/-- Go: `(*GCPProvider).GetBucketMetadata`; the returned pointer is `none` for nil. -/
def GCPProvider.GetBucketMetadata (env : GCPMetadataEnv) (ctx : Context) (bucket : String) :
    Option BucketMetadata × Option GoError :=
  match env.Attrs ctx bucket with
  | .error err => (none, some ⟨"failed to get bucket attributes: " ++ err.Error⟩)
  | .ok attrs =>
    let metadata : BucketMetadata := {}
    let metadata1 : BucketMetadata :=
      match attrs.Encryption with
      | some enc =>
        if enc.DefaultKMSKeyName ≠ "" then { metadata with EncryptionAlgorithm := "google-kms" }
        else { metadata with EncryptionAlgorithm := "google-managed" }
      | none => { metadata with EncryptionAlgorithm := "google-managed" }
    let metadata2 : BucketMetadata :=
      if attrs.VersioningEnabled then { metadata1 with VersioningStatus := "Enabled" }
      else { metadata1 with VersioningStatus := "Suspended" }
    (some metadata2, none)

/-- Go: `AzureCredentials`. -/
structure AzureCredentials where
  SubscriptionID : String := ""
  TenantID : String := ""
  ClientID : String := ""
  ClientSecret : String := ""
  ResourceGroupName : String := ""
  StorageAccountName : String := ""
  StorageAccountKey : String := ""
  CertificatePath : String := ""
  deriving DecidableEq, Repr

/-- Go: `*azblob.SharedKeyCredential`, as `azblob.NewSharedKeyCredential` builds it. -/
structure SharedKeyCredential where
  accountName : String
  accountKey : String
  deriving DecidableEq, Repr

/-- Go: a non-nil `azcore.TokenCredential`, by the `azidentity` constructor that built
it and the arguments it was given. -/
inductive TokenCredential where
  | clientSecret (tenantID clientID clientSecret : String)
  | clientCertificate (tenantID clientID certs key : String)
  | defaultAzure
  deriving DecidableEq, Repr

/-- Go: `*azblob.Client`, by the constructor that built it; the token credential passed
to `azblob.NewClient` is an interface value, `none` for nil. -/
inductive BlobClient where
  | withSharedKey (serviceURL : String) (cred : SharedKeyCredential)
  | withToken (serviceURL : String) (cred : Option TokenCredential)
  deriving DecidableEq, Repr

/-- The calls `NewAzureProvider` makes on the Azure SDK and on `os`, with arguments. -/
inductive AzureSDKCall where
  | NewSharedKeyCredential (accountName accountKey : String)
  | NewClientWithSharedKeyCredential (serviceURL : String) (cred : SharedKeyCredential)
  | NewClientSecretCredential (tenantID clientID clientSecret : String)
  | ReadFile (path : String)
  | ParseCertificates (certData : String)
  | NewClientCertificateCredential (tenantID clientID certs key : String)
  | NewDefaultAzureCredential
  | NewClient (serviceURL : String) (cred : Option TokenCredential)
  deriving DecidableEq, Repr

/-- Go: `armstorage.BlobServicePropertiesProperties`, the field read (a `*bool`). -/
structure BlobServicePropertiesProperties where
  IsVersioningEnabled : Option Bool := none
  deriving DecidableEq, Repr

/-- Go: `armstorage.BlobServicesClientGetServicePropertiesResponse`, down to
`.BlobServiceProperties.BlobServiceProperties` (a pointer). -/
structure GetServicePropertiesResponse where
  BlobServiceProperties : Option BlobServicePropertiesProperties := none
  deriving DecidableEq, Repr

/-- Go: `armstorage.Encryption`, the field read (a `*KeySource`, a string type). -/
structure Encryption where
  KeySource : Option String := none
  deriving DecidableEq, Repr

/-- Go: `armstorage.AccountProperties`, the field read (a pointer). -/
structure AccountProperties where
  Encryption : Option Encryption := none
  deriving DecidableEq, Repr

/-- Go: `armstorage.AccountsClientGetPropertiesResponse`, down to `.Account.Properties`
(a pointer). -/
structure GetPropertiesResponse where
  Properties : Option AccountProperties := none
  deriving DecidableEq, Repr

/-- The Azure SDK and `os.ReadFile` as `azure.go` uses them.  A constructor builds the
value its arguments determine unless it fails (`fail...` gives the error); reading and
parsing a certificate file and the two control-plane reads return data.  The
control-plane clients are identified by the subscription id and the credential they
were built with. -/
structure AzureSDK where
  failNewSharedKeyCredential : String → String → Option GoError
  failNewClientWithSharedKeyCredential : String → SharedKeyCredential → Option GoError
  failNewClientSecretCredential : String → String → String → Option GoError
  ReadFile : String → Except GoError String
  ParseCertificates : String → Except GoError (String × String)
  failNewClientCertificateCredential : String → String → String → String → Option GoError
  failNewDefaultAzureCredential : Option GoError
  failNewClient : String → Option TokenCredential → Option GoError
  failNewBlobServicesClient : String → Option TokenCredential → Option GoError
  GetServiceProperties : String → Option TokenCredential → Context → String → String →
    Except GoError GetServicePropertiesResponse
  failNewAccountsClient : String → Option TokenCredential → Option GoError
  GetProperties : String → Option TokenCredential → Context → String → String →
    Except GoError GetPropertiesResponse

/-- Go: `AzureProvider`. -/
structure AzureProvider where
  creds : AzureCredentials
  client : BlobClient
  deriving DecidableEq, Repr

/-- Go: `NewAzureProvider(creds)`, with the SDK calls it made, in order.  The local
variables `client` and `tokenCred` are `none` while nil. -/
def NewAzureProvider (sdk : AzureSDK) (creds : AzureCredentials) :
    Except GoError AzureProvider × List AzureSDKCall :=
  let serviceURL := "https://" ++ creds.StorageAccountName ++ ".blob.core.windows.net/"
  -- the if / else-if chain: the error it returned, or `client` and `tokenCred` after it
  let chain : Except GoError (Option BlobClient × Option TokenCredential) × List AzureSDKCall :=
    if creds.StorageAccountKey ≠ "" then
      let c1 := AzureSDKCall.NewSharedKeyCredential creds.StorageAccountName
        creds.StorageAccountKey
      match sdk.failNewSharedKeyCredential creds.StorageAccountName creds.StorageAccountKey with
      | some err => (.error ⟨"failed to create shared key credential: " ++ err.Error⟩, [c1])
      | none =>
        let sharedKeyCred : SharedKeyCredential :=
          ⟨creds.StorageAccountName, creds.StorageAccountKey⟩
        let c2 := AzureSDKCall.NewClientWithSharedKeyCredential serviceURL sharedKeyCred
        match sdk.failNewClientWithSharedKeyCredential serviceURL sharedKeyCred with
        | some err => (.error ⟨"failed to create azure client: " ++ err.Error⟩, [c1, c2])
        | none => (.ok (some (BlobClient.withSharedKey serviceURL sharedKeyCred), none), [c1, c2])
    else if creds.ClientSecret ≠ "" then
      let c1 := AzureSDKCall.NewClientSecretCredential creds.TenantID creds.ClientID
        creds.ClientSecret
      match sdk.failNewClientSecretCredential creds.TenantID creds.ClientID
        creds.ClientSecret with
      | some err => (.error ⟨"failed to create client secret credential: " ++ err.Error⟩, [c1])
      | none =>
        (.ok (none, some (TokenCredential.clientSecret creds.TenantID creds.ClientID
          creds.ClientSecret)), [c1])
    else if creds.CertificatePath ≠ "" then
      let c1 := AzureSDKCall.ReadFile creds.CertificatePath
      match sdk.ReadFile creds.CertificatePath with
      | .error err => (.error ⟨"failed to read certificate file: " ++ err.Error⟩, [c1])
      | .ok certData =>
        let c2 := AzureSDKCall.ParseCertificates certData
        match sdk.ParseCertificates certData with
        | .error err => (.error ⟨"failed to parse certificates: " ++ err.Error⟩, [c1, c2])
        | .ok (certs, key) =>
          let c3 := AzureSDKCall.NewClientCertificateCredential creds.TenantID creds.ClientID
            certs key
          match sdk.failNewClientCertificateCredential creds.TenantID creds.ClientID
            certs key with
          | some err =>
            (.error ⟨"failed to create client certificate credential: " ++ err.Error⟩,
              [c1, c2, c3])
          | none =>
            (.ok (none, some (TokenCredential.clientCertificate creds.TenantID creds.ClientID
              certs key)), [c1, c2, c3])
    else
      match sdk.failNewDefaultAzureCredential with
      | some err =>
        (.error ⟨"failed to create default azure credential: " ++ err.Error⟩,
          [AzureSDKCall.NewDefaultAzureCredential])
      | none =>
        (.ok (none, some TokenCredential.defaultAzure), [AzureSDKCall.NewDefaultAzureCredential])
  match chain with
  | (.error err, calls) => (.error err, calls)
  | (.ok (some client, _), calls) => (.ok { creds := creds, client := client }, calls)
  | (.ok (none, tokenCred), calls) =>
    -- if client == nil
    let c := AzureSDKCall.NewClient serviceURL tokenCred
    match sdk.failNewClient serviceURL tokenCred with
    | some err => (.error ⟨"failed to create azure client: " ++ err.Error⟩, calls ++ [c])
    | none =>
      (.ok { creds := creds, client := BlobClient.withToken serviceURL tokenCred }, calls ++ [c])

/-- Go: `(*AzureProvider).IsStorageAccountKeyAuth`. -/
def AzureProvider.IsStorageAccountKeyAuth (a : AzureProvider) : Bool :=
  a.creds.StorageAccountKey != ""

/-- The credential chain at the head of `(*AzureProvider).GetBucketMetadata`, "the
correct auth method for ARM APIs": the error it returns, or `tokenCred` after it. -/
def AzureProvider.armTokenCredential (sdk : AzureSDK) (a : AzureProvider) :
    Except GoError (Option TokenCredential) :=
  if a.creds.StorageAccountKey ≠ "" then
    match sdk.failNewDefaultAzureCredential with
    | some err => .error ⟨"failed to create default azure credential: " ++ err.Error⟩
    | none => .ok (some TokenCredential.defaultAzure)
  else if a.creds.ClientSecret ≠ "" then
    match sdk.failNewClientSecretCredential a.creds.TenantID a.creds.ClientID
      a.creds.ClientSecret with
    | some err => .error ⟨"failed to create client secret credential: " ++ err.Error⟩
    | none =>
      .ok (some (TokenCredential.clientSecret a.creds.TenantID a.creds.ClientID
        a.creds.ClientSecret))
  else if a.creds.CertificatePath ≠ "" then
    match sdk.ReadFile a.creds.CertificatePath with
    | .error err => .error ⟨"failed to read certificate file: " ++ err.Error⟩
    | .ok certData =>
      match sdk.ParseCertificates certData with
      | .error err => .error ⟨"failed to parse certificates: " ++ err.Error⟩
      | .ok (certs, key) =>
        match sdk.failNewClientCertificateCredential a.creds.TenantID a.creds.ClientID
          certs key with
        | some err => .error ⟨"failed to create client certificate credential: " ++ err.Error⟩
        | none =>
          .ok (some (TokenCredential.clientCertificate a.creds.TenantID a.creds.ClientID
            certs key))
  else
    match sdk.failNewDefaultAzureCredential with
    | some err => .error ⟨"failed to create default azure credential: " ++ err.Error⟩
    | none => .ok (some TokenCredential.defaultAzure)

/-- Go: `(*AzureProvider).GetBucketMetadata`; the returned pointer is `none` for nil.
The `bucket` parameter is unused, as in the source. -/
def AzureProvider.GetBucketMetadata (sdk : AzureSDK) (a : AzureProvider) (ctx : Context)
    (_bucket : String) : Option BucketMetadata × Option GoError :=
  match a.armTokenCredential sdk with
  | .error err => (none, some err)
  | .ok tokenCred =>
    let result : BucketMetadata := {}
    match sdk.failNewBlobServicesClient a.creds.SubscriptionID tokenCred with
    | some err => (none, some ⟨"failed to create blob services client: " ++ err.Error⟩)
    | none =>
      match sdk.GetServiceProperties a.creds.SubscriptionID tokenCred ctx
        a.creds.ResourceGroupName a.creds.StorageAccountName with
      | .error err => (none, some ⟨"failed to get blob service properties: " ++ err.Error⟩)
      | .ok blobSvcResp =>
        let props := blobSvcResp.BlobServiceProperties
        let result1 : BucketMetadata :=
          match props with
          | some p =>
            match p.IsVersioningEnabled with
            | some true => { result with VersioningStatus := "Enabled" }
            | _ => { result with VersioningStatus := "Disabled" }
          | none => { result with VersioningStatus := "Disabled" }
        match sdk.failNewAccountsClient a.creds.SubscriptionID tokenCred with
        | some err => (none, some ⟨"failed to create accounts client: " ++ err.Error⟩)
        | none =>
          match sdk.GetProperties a.creds.SubscriptionID tokenCred ctx
            a.creds.ResourceGroupName a.creds.StorageAccountName with
          | .error err =>
            (none, some ⟨"failed to get storage account properties: " ++ err.Error⟩)
          | .ok accountProps =>
            let result2 : BucketMetadata :=
              match accountProps.Properties with
              | some properties =>
                match properties.Encryption with
                | some encryption =>
                  match encryption.KeySource with
                  | some keySource => { result1 with EncryptionAlgorithm := keySource }
                  | none => { result1 with EncryptionAlgorithm := "Unknown" }
                | none => { result1 with EncryptionAlgorithm := "Unknown" }
              | none => { result1 with EncryptionAlgorithm := "Unknown" }
            (some result2, none)

/-- A GCP storage client for the concrete runs: the bucket "missing" does not exist,
"kms-bucket" has a default KMS key and versioning, any other bucket has neither. -/
def testGCPMetadataEnv : GCPMetadataEnv :=
  { Attrs := fun _ bucket =>
      if bucket = "missing" then .error ⟨"storage: bucket doesn't exist"⟩
      else if bucket = "kms-bucket" then
        .ok { Encryption := some ⟨"projects/p/locations/l/keyRings/r/cryptoKeys/k"⟩,
              VersioningEnabled := true }
      else .ok { Encryption := some ⟨""⟩, VersioningEnabled := false } }

/-- An Azure SDK for the concrete runs in which every call succeeds: the account has
versioning enabled and is encrypted under `Microsoft.Storage`. -/
def testAzureSDK : AzureSDK :=
  { failNewSharedKeyCredential := fun _ _ => none
    failNewClientWithSharedKeyCredential := fun _ _ => none
    failNewClientSecretCredential := fun _ _ _ => none
    ReadFile := fun _ => .ok "PEM"
    ParseCertificates := fun _ => .ok ("certs", "key")
    failNewClientCertificateCredential := fun _ _ _ _ => none
    failNewDefaultAzureCredential := none
    failNewClient := fun _ _ => none
    failNewBlobServicesClient := fun _ _ => none
    GetServiceProperties := fun _ _ _ _ _ => .ok ⟨some ⟨some true⟩⟩
    failNewAccountsClient := fun _ _ => none
    GetProperties := fun _ _ _ _ _ => .ok ⟨some ⟨some ⟨some "Microsoft.Storage"⟩⟩⟩ }

/-- Credentials with every authentication field populated. -/
def allFieldsCreds : AzureCredentials :=
  { SubscriptionID := "sub", TenantID := "tenant", ClientID := "client"
    ClientSecret := "secret", ResourceGroupName := "rg", StorageAccountName := "acct"
    StorageAccountKey := "key", CertificatePath := "/cert.pem" }

/-- The provider that `NewAzureProvider` builds from `allFieldsCreds`. -/
def testAzureProvider : AzureProvider :=
  { creds := allFieldsCreds
    client := BlobClient.withSharedKey "https://acct.blob.core.windows.net/" ⟨"acct", "key"⟩ }

/-! ## Theorems -/

theorem not_stops_iff (r : Bool × Option GoError) : ¬ Stops r ↔ r = (true, none) := by
  obtain ⟨c, e⟩ := r
  cases c <;> cases e <;> simp [Stops]

theorem ReconcileBatch_cons_stop {σ : Type} (l : Logger) (f : ReconcileFunc σ)
    (rest : List (ReconcileFunc σ)) (s : σ) (h : Stops (f l s).1) :
    ReconcileBatch l (f :: rest) s = f l s := by
  have hc : (!(f l s).1.1 || (f l s).1.2.isSome) = true := by
    rcases h with h | h
    · simp [h]
    · cases he : (f l s).1.2 with
      | none => exact absurd he h
      | some e => simp
  simp [ReconcileBatch, hc]

theorem ReconcileBatch_cons_continue {σ : Type} (l : Logger) (f : ReconcileFunc σ)
    (rest : List (ReconcileFunc σ)) (s : σ) (h : ¬ Stops (f l s).1) :
    ReconcileBatch l (f :: rest) s = ReconcileBatch l rest (f l s).2 := by
  have h2 := (not_stops_iff _).1 h
  simp [ReconcileBatch, h2]

theorem resultAt_zero {σ : Type} (l : Logger) (f : ReconcileFunc σ)
    (rest : List (ReconcileFunc σ)) (s : σ) :
    resultAt l (f :: rest) s 0 = some (f l s).1 := by
  simp [resultAt, runPrefix]

theorem resultAt_succ {σ : Type} (l : Logger) (f : ReconcileFunc σ)
    (rest : List (ReconcileFunc σ)) (s : σ) (j : Nat) :
    resultAt l (f :: rest) s (j + 1) = resultAt l rest (f l s).2 j := by
  simp [resultAt, runPrefix]

/-- C1: ReconcileBatch returns exactly the (continue, err) pair of the first step, in
list order, whose return values have continue=false or a non-nil error (every step
before it having returned (true, nil)); when no step does so, the empty list
included, it returns (true, nil). -/
theorem ReconcileBatch_returns_first_stop {σ : Type} (l : Logger)
    (fs : List (ReconcileFunc σ)) (s : σ) :
    (∃ i r, resultAt l fs s i = some r ∧ Stops r ∧
        (∀ j, j < i → resultAt l fs s j = some (true, none)) ∧
        (ReconcileBatch l fs s).1 = r) ∨
    ((∀ j, j < fs.length → resultAt l fs s j = some (true, none)) ∧
        (ReconcileBatch l fs s).1 = (true, none)) := by
  induction fs generalizing s with
  | nil =>
    right
    exact ⟨fun j hj => absurd hj (Nat.not_lt_zero j), rfl⟩
  | cons f rest ih =>
    by_cases h : Stops (f l s).1
    · left
      refine ⟨0, (f l s).1, resultAt_zero l f rest s, h, ?_, ?_⟩
      · intro j hj
        exact absurd hj (Nat.not_lt_zero j)
      · rw [ReconcileBatch_cons_stop l f rest s h]
    · have h0 : (f l s).1 = (true, none) := (not_stops_iff _).1 h
      rw [ReconcileBatch_cons_continue l f rest s h]
      rcases ih (f l s).2 with ⟨i, r, hr, hs, hall, hres⟩ | ⟨hall, hres⟩
      · left
        refine ⟨i + 1, r, ?_, hs, ?_, hres⟩
        · rw [resultAt_succ]; exact hr
        · intro j hj
          cases j with
          | zero => rw [resultAt_zero, h0]
          | succ j =>
            rw [resultAt_succ]
            exact hall j (Nat.lt_of_succ_lt_succ hj)
      · right
        refine ⟨?_, hres⟩
        intro j hj
        cases j with
        | zero => rw [resultAt_zero, h0]
        | succ j =>
          rw [resultAt_succ]
          exact hall j (Nat.lt_of_succ_lt_succ hj)

theorem ReconcileBatch_logged_aux {σ : Type} (l : Logger)
    (fs : List (ReconcileFunc σ)) (s : σ) (n : Nat) (lg : List Nat) :
    ∃ k, k ≤ fs.length ∧
      ReconcileBatch l (loggedFrom n fs) (s, lg) =
        ((ReconcileBatch l fs s).1, (runPrefix l (fs.take k) s, lg ++ List.range' n k)) ∧
      (ReconcileBatch l fs s).2 = runPrefix l (fs.take k) s ∧
      (∀ j, j + 1 < k → resultAt l fs s j = some (true, none)) ∧
      (k < fs.length → 0 < k ∧ ∃ r, resultAt l fs s (k - 1) = some r ∧ Stops r) := by
  induction fs generalizing s n lg with
  | nil =>
    refine ⟨0, Nat.le_refl _, ?_, ?_, ?_, ?_⟩
    · simp [loggedFrom, ReconcileBatch, runPrefix]
    · simp [ReconcileBatch, runPrefix]
    · intro j hj
      exact absurd hj (Nat.not_lt_zero _)
    · intro hk
      exact absurd hk (Nat.lt_irrefl _)
  | cons f rest ih =>
    by_cases h : Stops (f l s).1
    · have hl : Stops (logged n f l (s, lg)).1 := h
      refine ⟨1, by simp, ?_, ?_, ?_, ?_⟩
      · rw [loggedFrom, ReconcileBatch_cons_stop l _ _ _ hl,
          ReconcileBatch_cons_stop l f rest s h]
        simp [logged, runPrefix, List.range']
      · rw [ReconcileBatch_cons_stop l f rest s h]
        simp [runPrefix]
      · intro j hj
        omega
      · intro _
        exact ⟨Nat.one_pos, (f l s).1, resultAt_zero l f rest s, h⟩
    · have h0 : (f l s).1 = (true, none) := (not_stops_iff _).1 h
      have hl : ¬ Stops (logged n f l (s, lg)).1 := h
      obtain ⟨k, hk, hrun, hst, hall, hlast⟩ := ih (f l s).2 (n + 1) (lg ++ [n])
      refine ⟨k + 1, by simpa using hk, ?_, ?_, ?_, ?_⟩
      · rw [loggedFrom, ReconcileBatch_cons_continue l _ _ _ hl,
          ReconcileBatch_cons_continue l f rest s h]
        have e : (logged n f l (s, lg)).2 = ((f l s).2, lg ++ [n]) := rfl
        rw [e, hrun]
        simp [runPrefix, List.range'_succ]
      · rw [ReconcileBatch_cons_continue l f rest s h, hst]
        simp [runPrefix]
      · intro j hj
        cases j with
        | zero => rw [resultAt_zero, h0]
        | succ j =>
          rw [resultAt_succ]
          exact hall j (by omega)
      · intro hlt
        have hlt2 : k < rest.length := by simpa using hlt
        obtain ⟨hpos, r, hr, hs⟩ := hlast hlt2
        refine ⟨Nat.succ_pos _, r, ?_, hs⟩
        obtain ⟨k2, rfl⟩ : ∃ k2, k = k2 + 1 := ⟨k - 1, by omega⟩
        simpa [resultAt_succ] using hr

/-- C2: ReconcileBatch invokes the steps in list order, each at most once, and none
positioned after the first step that returned continue=false or a non-nil error: with
every step logging its position, the call log after the batch is 0, 1, ..., k-1 for
the k that ends at that first stopping step (or is the whole list), and the state after
the batch is the state after running exactly those first k steps. -/
theorem ReconcileBatch_invokes_prefix_in_order {σ : Type} (l : Logger)
    (fs : List (ReconcileFunc σ)) (s : σ) :
    ∃ k, k ≤ fs.length ∧
      (ReconcileBatch l (loggedFrom 0 fs) (s, [])).2.2 = List.range k ∧
      (ReconcileBatch l (loggedFrom 0 fs) (s, [])).2.1 = runPrefix l (fs.take k) s ∧
      (ReconcileBatch l (loggedFrom 0 fs) (s, [])).1 = (ReconcileBatch l fs s).1 ∧
      (ReconcileBatch l fs s).2 = runPrefix l (fs.take k) s ∧
      (∀ j, j + 1 < k → resultAt l fs s j = some (true, none)) ∧
      (k < fs.length → 0 < k ∧ ∃ r, resultAt l fs s (k - 1) = some r ∧ Stops r) := by
  obtain ⟨k, hk, hrun, hst, hall, hlast⟩ := ReconcileBatch_logged_aux l fs s 0 []
  refine ⟨k, hk, ?_, ?_, ?_, hst, hall, hlast⟩
  · rw [hrun]
    simp [List.range_eq_range']
  · rw [hrun]
  · rw [hrun]

/-! ### Status conditions -/

theorem FindStatusCondition_SetStatusCondition (conditions : List Condition)
    (c : Condition) (now : Nat) :
    ∃ cond, FindStatusCondition (SetStatusCondition conditions c now) c.Type_ = some cond ∧
      cond.Type_ = c.Type_ ∧ cond.Status = c.Status ∧ cond.Reason = c.Reason ∧
      cond.Message = c.Message := by
  induction conditions with
  | nil =>
    by_cases h : c.LastTransitionTime = 0
    · exact ⟨{ c with LastTransitionTime := now }, by
        simp [SetStatusCondition, FindStatusCondition, h]⟩
    · exact ⟨c, by simp [SetStatusCondition, FindStatusCondition, h]⟩
  | cons x rest ih =>
    by_cases hx : x.Type_ = c.Type_
    · refine ⟨mergeCondition x c now, ?_, ?_, ?_, ?_, ?_⟩
      · have ht : (mergeCondition x c now).Type_ = c.Type_ := by
          unfold mergeCondition
          split <;> simp [hx]
        simp [SetStatusCondition, FindStatusCondition, hx, ht]
      · unfold mergeCondition
        split <;> simp [hx]
      · unfold mergeCondition
        split
        · simp
        · rename_i h
          simpa using h
      · simp [mergeCondition]
      · simp [mergeCondition]
    · obtain ⟨cond, hf, h1, h2, h3, h4⟩ := ih
      refine ⟨cond, ?_, h1, h2, h3, h4⟩
      simp only [FindStatusCondition] at hf ⊢
      simp [SetStatusCondition, hx, hf]

/-! ### Reconcile -/

theorem Reconcile_fetched {ω : Type} (completeMessage : String)
    (steps : List (ReconcileFunc (World ω))) (now : Nat) (ctx : Context) (req : Request)
    (w : World ω) (d : DataProtectionApplication)
    (hfetch : w.r.Client.GetDPA w.cluster req.NamespacedName = .ok d) :
    let batch := ReconcileBatch ⟨some ctx, []⟩ steps (fetchedWorld w ctx req d)
    let obj : DataProtectionApplication :=
      { batch.2.r.dpa with Status := { batch.2.r.dpa.Status with
          Conditions := SetStatusCondition batch.2.r.dpa.Status.Conditions
            (reconciledCondition completeMessage batch.1.2) now } }
    let upd := batch.2.r.Client.StatusUpdate batch.2.cluster obj
    Reconcile completeMessage steps now ctx req w =
      { result := {}
        err := if batch.1.2 = none then upd.1 else batch.1.2
        world := { batch.2 with
          r := { batch.2.r with dpa := upd.2.2 }
          cluster := upd.2.1
          calls := batch.2.calls ++ [APICall.statusUpdate obj] }
        pipeline := some batch.1
        statusUpdates := [(obj, upd.1)] } := by
  simp only [Reconcile, hfetch]
  rfl

theorem find_replaceStatus (obj : DataProtectionApplication)
    (l : List DataProtectionApplication) (d : DataProtectionApplication)
    (h : l.find? (fun x => x.key == obj.key) = some d) :
    (replaceStatus obj l).find? (fun x => x.key == obj.key)
      = some { d with Status := obj.Status } := by
  induction l with
  | nil => simp at h
  | cons x rest ih =>
    by_cases hx : x.key = obj.key
    · have hk : ({ x with Status := obj.Status } : DataProtectionApplication).key = obj.key := hx
      simp only [List.find?_cons, hx, beq_self_eq_true, Option.some.injEq] at h
      subst h
      simp [replaceStatus, hx, hk]
    · have hb : (x.key == obj.key) = false := by simp [hx]
      simp only [List.find?_cons, hb] at h
      simp [replaceStatus, hx, ih h]

theorem StatusUpdate_stored {ω : Type} (c : Client ω) (cl : Cluster ω)
    (obj : DataProtectionApplication) (h : (c.StatusUpdate cl obj).1 = none) :
    ∃ stored, (c.StatusUpdate cl obj).2.1.findDPA obj.key = some stored ∧
      stored.Status = obj.Status := by
  unfold Client.StatusUpdate at h ⊢
  cases hf : c.failStatusUpdate cl obj with
  | some e => simp [hf] at h
  | none =>
    cases hd : cl.findDPA obj.key with
    | none => simp [hf, hd] at h
    | some d =>
      refine ⟨{ d with Status := obj.Status }, ?_, rfl⟩
      simp only [hf, hd]
      exact find_replaceStatus obj cl.dpas d hd

/-- C3: when the primary resource is fetched, the object handed to the one status
update carries a Reconciled condition that, for a pipeline error e, has status False,
reason Error and message e.Error(), and for no pipeline error has status True and
reason Complete; when the status update succeeds the stored resource has that status. -/
theorem Reconcile_sets_reconciled_condition {ω : Type} (completeMessage : String)
    (steps : List (ReconcileFunc (World ω))) (now : Nat) (ctx : Context) (req : Request)
    (w : World ω) (d : DataProtectionApplication)
    (hfetch : w.r.Client.GetDPA w.cluster req.NamespacedName = .ok d) :
    ∃ cont err obj statusErr cond,
      (cont, err) = (ReconcileBatch ⟨some ctx, []⟩ steps (fetchedWorld w ctx req d)).1 ∧
      (Reconcile completeMessage steps now ctx req w).pipeline = some (cont, err) ∧
      (Reconcile completeMessage steps now ctx req w).statusUpdates = [(obj, statusErr)] ∧
      FindStatusCondition obj.Status.Conditions ConditionReconciled = some cond ∧
      (∀ e, err = some e → cond.Status = ConditionStatus.ConditionFalse ∧
        cond.Reason = ReconciledReasonError ∧ cond.Message = e.Error) ∧
      (err = none → cond.Status = ConditionStatus.ConditionTrue ∧
        cond.Reason = ReconciledReasonComplete) ∧
      (statusErr = none → ∃ stored,
        (Reconcile completeMessage steps now ctx req w).world.cluster.findDPA obj.key
          = some stored ∧ stored.Status = obj.Status) := by
  have hR := Reconcile_fetched completeMessage steps now ctx req w d hfetch
  simp only at hR
  generalize ReconcileBatch ⟨some ctx, []⟩ steps (fetchedWorld w ctx req d) = batch at hR ⊢
  rw [hR]
  obtain ⟨cond, hfind, -, hst, hre, hme⟩ :=
    FindStatusCondition_SetStatusCondition batch.2.r.dpa.Status.Conditions
      (reconciledCondition completeMessage batch.1.2) now
  refine ⟨batch.1.1, batch.1.2, _, _, cond, rfl, rfl, rfl, ?_, ?_, ?_, ?_⟩
  · have ht : (reconciledCondition completeMessage batch.1.2).Type_ = ConditionReconciled := by
      cases batch.1.2 <;> rfl
    rw [ht] at hfind
    exact hfind
  · intro e he
    rw [he] at hst hre hme
    exact ⟨hst, hre, hme⟩
  · intro he
    rw [he] at hst hre
    exact ⟨hst, hre⟩
  · intro hs
    exact StatusUpdate_stored _ _ _ hs

/-- C3 at the test fixture, with a pipeline of one failing step. -/
theorem Reconcile_sets_reconciled_condition_witness :
    (testWorld testDPA GoMap.empty).r.Client.GetDPA (testWorld testDPA GoMap.empty).cluster
        testRequest.NamespacedName = .ok testDPA ∧
    ∃ cont err obj statusErr cond,
      (cont, err) = (ReconcileBatch ⟨some ⟨"ctx"⟩, []⟩ [failingStep]
        (fetchedWorld (testWorld testDPA GoMap.empty) ⟨"ctx"⟩ testRequest testDPA)).1 ∧
      (Reconcile "Reconcile complete" [failingStep] 7 ⟨"ctx"⟩ testRequest
        (testWorld testDPA GoMap.empty)).pipeline = some (cont, err) ∧
      (Reconcile "Reconcile complete" [failingStep] 7 ⟨"ctx"⟩ testRequest
        (testWorld testDPA GoMap.empty)).statusUpdates = [(obj, statusErr)] ∧
      FindStatusCondition obj.Status.Conditions ConditionReconciled = some cond ∧
      (∀ e, err = some e → cond.Status = ConditionStatus.ConditionFalse ∧
        cond.Reason = ReconciledReasonError ∧ cond.Message = e.Error) ∧
      (err = none → cond.Status = ConditionStatus.ConditionTrue ∧
        cond.Reason = ReconciledReasonComplete) ∧
      (statusErr = none → ∃ stored,
        (Reconcile "Reconcile complete" [failingStep] 7 ⟨"ctx"⟩ testRequest
          (testWorld testDPA GoMap.empty)).world.cluster.findDPA obj.key
          = some stored ∧ stored.Status = obj.Status) :=
  ⟨rfl, Reconcile_sets_reconciled_condition "Reconcile complete" [failingStep] 7 ⟨"ctx"⟩
    testRequest (testWorld testDPA GoMap.empty) testDPA rfl⟩

theorem ReconcileBatch_eq_of_first_stop {σ : Type} (l : Logger)
    (fs : List (ReconcileFunc σ)) (s : σ) (i : Nat) (r : Bool × Option GoError)
    (hreached : ∀ j, j < i → resultAt l fs s j = some (true, none))
    (hat : resultAt l fs s i = some r) (hstop : Stops r) :
    (ReconcileBatch l fs s).1 = r := by
  induction fs generalizing s i with
  | nil => simp [resultAt] at hat
  | cons f rest ih =>
    cases i with
    | zero =>
      rw [resultAt_zero] at hat
      have hr : (f l s).1 = r := Option.some.inj hat
      rw [ReconcileBatch_cons_stop l f rest s (hr ▸ hstop), hr]
    | succ i =>
      have h0 := hreached 0 (Nat.succ_pos i)
      rw [resultAt_zero] at h0
      have hc : ¬ Stops (f l s).1 := (not_stops_iff _).2 (Option.some.inj h0)
      rw [ReconcileBatch_cons_continue l f rest s hc]
      apply ih (f l s).2 i
      · intro j hj
        have := hreached (j + 1) (Nat.succ_lt_succ hj)
        rwa [resultAt_succ] at this
      · rwa [resultAt_succ] at hat

/-- C4: when a step that was invoked (every step before it having returned (true, nil))
returned a non-nil error, Reconcile returns a non-nil error and the Reconciled
condition on the object it hands to the status update is not status True / reason
Complete.  Steps are invoked only after the primary resource was fetched. -/
theorem Reconcile_never_reports_success_after_step_error {ω : Type} (completeMessage : String)
    (steps : List (ReconcileFunc (World ω))) (now : Nat) (ctx : Context) (req : Request)
    (w : World ω) (d : DataProtectionApplication)
    (hfetch : w.r.Client.GetDPA w.cluster req.NamespacedName = .ok d)
    (i : Nat) (cont : Bool) (e : GoError)
    (hreached : ∀ j, j < i →
      resultAt ⟨some ctx, []⟩ steps (fetchedWorld w ctx req d) j = some (true, none))
    (hfailed : resultAt ⟨some ctx, []⟩ steps (fetchedWorld w ctx req d) i = some (cont, some e)) :
    (Reconcile completeMessage steps now ctx req w).err ≠ none ∧
    ∃ obj statusErr cond,
      (Reconcile completeMessage steps now ctx req w).statusUpdates = [(obj, statusErr)] ∧
      FindStatusCondition obj.Status.Conditions ConditionReconciled = some cond ∧
      ¬ (cond.Status = ConditionStatus.ConditionTrue ∧
          cond.Reason = ReconciledReasonComplete) := by
  have hb := ReconcileBatch_eq_of_first_stop ⟨some ctx, []⟩ steps (fetchedWorld w ctx req d) i
    (cont, some e) hreached hfailed (Or.inr (by simp))
  have hR := Reconcile_fetched completeMessage steps now ctx req w d hfetch
  simp only at hR
  generalize ReconcileBatch ⟨some ctx, []⟩ steps (fetchedWorld w ctx req d) = batch at hR hb
  rw [hR]
  obtain ⟨cond, hfind, -, hst, -, -⟩ :=
    FindStatusCondition_SetStatusCondition batch.2.r.dpa.Status.Conditions
      (reconciledCondition completeMessage batch.1.2) now
  have ht : (reconciledCondition completeMessage batch.1.2).Type_ = ConditionReconciled := by
    cases batch.1.2 <;> rfl
  rw [ht] at hfind
  refine ⟨?_, _, _, cond, rfl, hfind, ?_⟩
  · simp [hb]
  · rw [hb] at hst
    intro hc
    have hfalse : cond.Status = ConditionStatus.ConditionFalse := hst
    rw [hc.1] at hfalse
    cases hfalse

/-- C4 at the test fixture: the second of two steps fails. -/
theorem Reconcile_never_reports_success_after_step_error_witness :
    (testWorld testDPA GoMap.empty).r.Client.GetDPA (testWorld testDPA GoMap.empty).cluster
        testRequest.NamespacedName = .ok testDPA ∧
    (∀ j, j < 1 →
      resultAt ⟨some ⟨"ctx"⟩, []⟩ [passingStep, failingStep]
        (fetchedWorld (testWorld testDPA GoMap.empty) ⟨"ctx"⟩ testRequest testDPA) j
        = some (true, none)) ∧
    resultAt ⟨some ⟨"ctx"⟩, []⟩ [passingStep, failingStep]
        (fetchedWorld (testWorld testDPA GoMap.empty) ⟨"ctx"⟩ testRequest testDPA) 1
        = some (false, some ⟨"step failed"⟩) ∧
    (Reconcile "Reconcile complete" [passingStep, failingStep] 7 ⟨"ctx"⟩ testRequest
      (testWorld testDPA GoMap.empty)).err ≠ none ∧
    ∃ obj statusErr cond,
      (Reconcile "Reconcile complete" [passingStep, failingStep] 7 ⟨"ctx"⟩ testRequest
        (testWorld testDPA GoMap.empty)).statusUpdates = [(obj, statusErr)] ∧
      FindStatusCondition obj.Status.Conditions ConditionReconciled = some cond ∧
      ¬ (cond.Status = ConditionStatus.ConditionTrue ∧
          cond.Reason = ReconciledReasonComplete) :=
  have hreached : ∀ j, j < 1 →
      resultAt ⟨some ⟨"ctx"⟩, []⟩ [passingStep, failingStep]
        (fetchedWorld (testWorld testDPA GoMap.empty) ⟨"ctx"⟩ testRequest testDPA) j
        = some (true, none) := by
    intro j hj
    obtain rfl : j = 0 := by omega
    rfl
  ⟨rfl, hreached, rfl,
    Reconcile_never_reports_success_after_step_error "Reconcile complete"
      [passingStep, failingStep] 7 ⟨"ctx"⟩ testRequest (testWorld testDPA GoMap.empty) testDPA
      rfl 1 false ⟨"step failed"⟩ hreached rfl⟩

/-- C5: with pipeline error e and status-update error s, Reconcile returns e whenever e
is non-nil, whatever s is, and returns s when e is nil; it returns something other than
e only when e is nil: a status-write failure never replaces a step error. -/
theorem Reconcile_does_not_mask_step_error {ω : Type} (completeMessage : String)
    (steps : List (ReconcileFunc (World ω))) (now : Nat) (ctx : Context) (req : Request)
    (w : World ω) (d : DataProtectionApplication)
    (hfetch : w.r.Client.GetDPA w.cluster req.NamespacedName = .ok d) :
    ∃ cont e obj s,
      (cont, e) = (ReconcileBatch ⟨some ctx, []⟩ steps (fetchedWorld w ctx req d)).1 ∧
      (Reconcile completeMessage steps now ctx req w).pipeline = some (cont, e) ∧
      (Reconcile completeMessage steps now ctx req w).statusUpdates = [(obj, s)] ∧
      (∀ x, e = some x → (Reconcile completeMessage steps now ctx req w).err = some x) ∧
      (e = none → (Reconcile completeMessage steps now ctx req w).err = s) ∧
      ((Reconcile completeMessage steps now ctx req w).err ≠ e → e = none) := by
  have hR := Reconcile_fetched completeMessage steps now ctx req w d hfetch
  simp only at hR
  generalize ReconcileBatch ⟨some ctx, []⟩ steps (fetchedWorld w ctx req d) = batch at hR ⊢
  rw [hR]
  refine ⟨batch.1.1, batch.1.2, _, _, rfl, rfl, rfl, ?_, ?_, ?_⟩
  · intro x hx
    simp [hx]
  · intro hx
    simp [hx]
  · intro hne
    by_contra hx
    exact hne (by simp [hx])

/-- C5 at the test fixture, with a pipeline of one failing step. -/
theorem Reconcile_does_not_mask_step_error_witness :
    (testWorld testDPA GoMap.empty).r.Client.GetDPA (testWorld testDPA GoMap.empty).cluster
        testRequest.NamespacedName = .ok testDPA ∧
    ∃ cont e obj s,
      (cont, e) = (ReconcileBatch ⟨some ⟨"ctx"⟩, []⟩ [failingStep]
        (fetchedWorld (testWorld testDPA GoMap.empty) ⟨"ctx"⟩ testRequest testDPA)).1 ∧
      (Reconcile "Reconcile complete" [failingStep] 7 ⟨"ctx"⟩ testRequest
        (testWorld testDPA GoMap.empty)).pipeline = some (cont, e) ∧
      (Reconcile "Reconcile complete" [failingStep] 7 ⟨"ctx"⟩ testRequest
        (testWorld testDPA GoMap.empty)).statusUpdates = [(obj, s)] ∧
      (∀ x, e = some x →
        (Reconcile "Reconcile complete" [failingStep] 7 ⟨"ctx"⟩ testRequest
          (testWorld testDPA GoMap.empty)).err = some x) ∧
      (e = none →
        (Reconcile "Reconcile complete" [failingStep] 7 ⟨"ctx"⟩ testRequest
          (testWorld testDPA GoMap.empty)).err = s) ∧
      ((Reconcile "Reconcile complete" [failingStep] 7 ⟨"ctx"⟩ testRequest
          (testWorld testDPA GoMap.empty)).err ≠ e → e = none) :=
  ⟨rfl, Reconcile_does_not_mask_step_error "Reconcile complete" [failingStep] 7 ⟨"ctx"⟩
    testRequest (testWorld testDPA GoMap.empty) testDPA rfl⟩

/-- C6, refuted: a step stops the pipeline cleanly (continue=false, err=nil) on a
resource whose Reconciled condition is status False, reason Error; after Reconcile the
stored condition is status True, reason Complete. -/
theorem Reconcile_clean_stop_overwrites_condition :
    (Reconcile "Reconcile complete" [stopCleanly] 7 ⟨"ctx"⟩ testRequest
      (testWorld failedDPA GoMap.empty)).pipeline = some (false, none) ∧
    ((testWorld failedDPA GoMap.empty).cluster.findDPA testRequest.NamespacedName).map
        (fun d => d.Status.Conditions)
      = some [{ Type_ := "Reconciled", Status := ConditionStatus.ConditionFalse,
                LastTransitionTime := 3, Reason := "Error", Message := "boom" }] ∧
    ((Reconcile "Reconcile complete" [stopCleanly] 7 ⟨"ctx"⟩ testRequest
        (testWorld failedDPA GoMap.empty)).world.cluster.findDPA testRequest.NamespacedName).map
        (fun d => d.Status.Conditions)
      = some [{ Type_ := "Reconciled", Status := ConditionStatus.ConditionTrue,
                LastTransitionTime := 7, Reason := "Complete",
                Message := "Reconcile complete" }] ∧
    ((Reconcile "Reconcile complete" [stopCleanly] 7 ⟨"ctx"⟩ testRequest
        (testWorld failedDPA GoMap.empty)).world.cluster.findDPA testRequest.NamespacedName).map
        (fun d => d.Status.Conditions)
      ≠ ((testWorld failedDPA GoMap.empty).cluster.findDPA testRequest.NamespacedName).map
        (fun d => d.Status.Conditions) := by
  refine ⟨rfl, rfl, rfl, ?_⟩
  decide

/-- C6, amended: when the pipeline stops cleanly (ReconcileBatch returns continue=false
with a nil error), Reconcile does as for a completed pipeline: the object handed to the
status update carries the Reconciled condition with status True, reason Complete and
the completion message, and Reconcile returns the status update's error. -/
theorem Reconcile_clean_stop_sets_complete {ω : Type} (completeMessage : String)
    (steps : List (ReconcileFunc (World ω))) (now : Nat) (ctx : Context) (req : Request)
    (w : World ω) (d : DataProtectionApplication)
    (hfetch : w.r.Client.GetDPA w.cluster req.NamespacedName = .ok d)
    (hstop : (ReconcileBatch ⟨some ctx, []⟩ steps (fetchedWorld w ctx req d)).1 = (false, none)) :
    ∃ obj statusErr cond,
      (Reconcile completeMessage steps now ctx req w).statusUpdates = [(obj, statusErr)] ∧
      FindStatusCondition obj.Status.Conditions ConditionReconciled = some cond ∧
      cond.Status = ConditionStatus.ConditionTrue ∧
      cond.Reason = ReconciledReasonComplete ∧
      cond.Message = completeMessage ∧
      (Reconcile completeMessage steps now ctx req w).err = statusErr := by
  have hR := Reconcile_fetched completeMessage steps now ctx req w d hfetch
  simp only at hR
  generalize ReconcileBatch ⟨some ctx, []⟩ steps (fetchedWorld w ctx req d) = batch at hR hstop
  rw [hR]
  obtain ⟨cond, hfind, -, hst, hre, hme⟩ :=
    FindStatusCondition_SetStatusCondition batch.2.r.dpa.Status.Conditions
      (reconciledCondition completeMessage batch.1.2) now
  rw [hstop] at hfind hst hre hme
  refine ⟨_, _, cond, rfl, ?_, hst, hre, hme, ?_⟩
  · rw [hstop]
    exact hfind
  · simp [hstop]

/-- C6 amended, at the test fixture with the previously failed resource. -/
theorem Reconcile_clean_stop_sets_complete_witness :
    (testWorld failedDPA GoMap.empty).r.Client.GetDPA (testWorld failedDPA GoMap.empty).cluster
        testRequest.NamespacedName = .ok failedDPA ∧
    (ReconcileBatch ⟨some ⟨"ctx"⟩, []⟩ [stopCleanly, failingStep]
      (fetchedWorld (testWorld failedDPA GoMap.empty) ⟨"ctx"⟩ testRequest failedDPA)).1
      = (false, none) ∧
    ∃ obj statusErr cond,
      (Reconcile "Reconcile complete" [stopCleanly, failingStep] 7 ⟨"ctx"⟩ testRequest
        (testWorld failedDPA GoMap.empty)).statusUpdates = [(obj, statusErr)] ∧
      FindStatusCondition obj.Status.Conditions ConditionReconciled = some cond ∧
      cond.Status = ConditionStatus.ConditionTrue ∧
      cond.Reason = ReconciledReasonComplete ∧
      cond.Message = "Reconcile complete" ∧
      (Reconcile "Reconcile complete" [stopCleanly, failingStep] 7 ⟨"ctx"⟩ testRequest
        (testWorld failedDPA GoMap.empty)).err = statusErr :=
  ⟨rfl, rfl, Reconcile_clean_stop_sets_complete "Reconcile complete" [stopCleanly, failingStep]
    7 ⟨"ctx"⟩ testRequest (testWorld failedDPA GoMap.empty) failedDPA rfl rfl⟩

/-- C7: when the primary resource is fetched, Reconcile attempts exactly one status
update, after the pipeline, whatever the pipeline returned: completion, a clean stop
or a step error. -/
theorem Reconcile_attempts_one_status_update {ω : Type} (completeMessage : String)
    (steps : List (ReconcileFunc (World ω))) (now : Nat) (ctx : Context) (req : Request)
    (w : World ω) (d : DataProtectionApplication)
    (hfetch : w.r.Client.GetDPA w.cluster req.NamespacedName = .ok d) :
    ∃ obj statusErr,
      (Reconcile completeMessage steps now ctx req w).statusUpdates = [(obj, statusErr)] ∧
      (Reconcile completeMessage steps now ctx req w).statusUpdates.length = 1 ∧
      (Reconcile completeMessage steps now ctx req w).world.calls =
        (ReconcileBatch ⟨some ctx, []⟩ steps (fetchedWorld w ctx req d)).2.calls
          ++ [APICall.statusUpdate obj] := by
  have hR := Reconcile_fetched completeMessage steps now ctx req w d hfetch
  simp only at hR
  rw [hR]
  exact ⟨_, _, rfl, rfl, rfl⟩

/-- C7 at the test fixture, for a pipeline that stops with a step error. -/
theorem Reconcile_attempts_one_status_update_witness :
    (testWorld testDPA GoMap.empty).r.Client.GetDPA (testWorld testDPA GoMap.empty).cluster
        testRequest.NamespacedName = .ok testDPA ∧
    ∃ obj statusErr,
      (Reconcile "Reconcile complete" [passingStep, failingStep] 7 ⟨"ctx"⟩ testRequest
        (testWorld testDPA GoMap.empty)).statusUpdates = [(obj, statusErr)] ∧
      (Reconcile "Reconcile complete" [passingStep, failingStep] 7 ⟨"ctx"⟩ testRequest
        (testWorld testDPA GoMap.empty)).statusUpdates.length = 1 ∧
      (Reconcile "Reconcile complete" [passingStep, failingStep] 7 ⟨"ctx"⟩ testRequest
        (testWorld testDPA GoMap.empty)).world.calls =
        (ReconcileBatch ⟨some ⟨"ctx"⟩, []⟩ [passingStep, failingStep]
          (fetchedWorld (testWorld testDPA GoMap.empty) ⟨"ctx"⟩ testRequest testDPA)).2.calls
          ++ [APICall.statusUpdate obj] :=
  ⟨rfl, Reconcile_attempts_one_status_update "Reconcile complete" [passingStep, failingStep]
    7 ⟨"ctx"⟩ testRequest (testWorld testDPA GoMap.empty) testDPA rfl⟩

/-! ### Maps and stored secrets -/

theorem find_setEntries_self (l : List (String × String)) (k v : String) :
    (GoMap.setEntries l k v).find? (fun p => p.1 == k) = some (k, v) := by
  induction l with
  | nil => simp [GoMap.setEntries]
  | cons p rest ih =>
    by_cases h : p.1 = k
    · simp [GoMap.setEntries, h]
    · simp [GoMap.setEntries, h, ih]

theorem find_setEntries_other (l : List (String × String)) (k v k2 : String) (h : k2 ≠ k) :
    (GoMap.setEntries l k v).find? (fun p => p.1 == k2) = l.find? (fun p => p.1 == k2) := by
  induction l with
  | nil => simp [GoMap.setEntries, Ne.symm h]
  | cons p rest ih =>
    by_cases hp : p.1 = k
    · have hp2 : ¬ p.1 = k2 := fun e => h (e.symm.trans hp)
      simp [GoMap.setEntries, hp, hp2, Ne.symm h]
    · by_cases hp2 : p.1 = k2
      · simp [GoMap.setEntries, hp2, h]
      · simp [GoMap.setEntries, hp, hp2, ih]

theorem GoMap.get?_set_self (m : GoMap) (k v : String) : (m.set k v).get? k = some v := by
  simp [GoMap.get?, GoMap.set, find_setEntries_self]

theorem GoMap.get?_set_other (m : GoMap) (k v k2 : String) (h : k2 ≠ k) :
    (m.set k v).get? k2 = m.get? k2 := by
  simp [GoMap.get?, GoMap.set, find_setEntries_other _ _ _ _ h]

theorem GoMap.get?_eq_none_of_not_mem (m : GoMap) (k : String) (h : k ∉ m.keys) :
    m.get? k = none := by
  have hfind : m.entries.find? (fun p => p.1 == k) = none := by
    rw [List.find?_eq_none]
    intro p hp hk
    apply h
    have hk2 : p.1 = k := by simpa using hk
    rw [← hk2]
    exact List.mem_map_of_mem (fun p => p.1) hp
  simp [GoMap.get?, hfind]

theorem GoMap.get?_eq_of_deepEqual (a b : GoMap) (h : a.deepEqual b = true) (k : String) :
    a.get? k = b.get? k := by
  by_cases hk : k ∈ a.keys ++ b.keys
  · have hall := List.all_eq_true.1 h k hk
    simpa using hall
  · rw [List.mem_append, not_or] at hk
    rw [GoMap.get?_eq_none_of_not_mem a k hk.1, GoMap.get?_eq_none_of_not_mem b k hk.2]

theorem find_append_new (l : List Secret) (obj : Secret) (key : NamespacedName)
    (hnone : l.find? (fun x => x.key == key) = none) (hkey : obj.key = key) :
    (l ++ [obj]).find? (fun x => x.key == key) = some obj := by
  simp [List.find?_append, hnone, hkey]

theorem find_replaceSecret (l : List Secret) (obj old : Secret)
    (hsome : l.find? (fun x => x.key == obj.key) = some old) :
    (replaceSecret obj l).find? (fun x => x.key == obj.key) = some obj := by
  induction l with
  | nil => simp at hsome
  | cons x rest ih =>
    by_cases hx : x.key = obj.key
    · simp [replaceSecret, hx]
    · have hb : (x.key == obj.key) = false := by simp [hx]
      simp only [List.find?_cons, hb] at hsome
      simp [replaceSecret, hx, ih hsome]

theorem GetSecret_ok {ω : Type} (c : Client ω) (cl : Cluster ω) (key : NamespacedName)
    (x : Secret) (h : c.GetSecret cl key = .ok x) : cl.findSecret key = some x := by
  unfold Client.GetSecret at h
  cases hf : c.failGetSecret cl key with
  | some e => simp [hf] at h
  | none =>
    cases hs : cl.findSecret key with
    | none => simp [hf, hs] at h
    | some y =>
      simp only [hf, hs, Except.ok.injEq] at h
      rw [h]

theorem CreateSecret_ok {ω : Type} (c : Client ω) (cl : Cluster ω) (obj : Secret)
    (h : (c.CreateSecret cl obj).1 = none) :
    (c.CreateSecret cl obj).2.findSecret obj.key = some obj := by
  unfold Client.CreateSecret at h ⊢
  cases hf : c.failCreateSecret cl obj with
  | some e => simp [hf] at h
  | none =>
    cases hs : cl.findSecret obj.key with
    | some y => simp [hf, hs] at h
    | none =>
      simp only [hf, hs]
      exact find_append_new cl.secrets obj obj.key hs rfl

theorem UpdateSecret_ok {ω : Type} (c : Client ω) (cl : Cluster ω) (obj : Secret)
    (h : (c.UpdateSecret cl obj).1 = none) :
    (c.UpdateSecret cl obj).2.findSecret obj.key = some obj := by
  unfold Client.UpdateSecret at h ⊢
  cases hf : c.failUpdateSecret cl obj with
  | some e => simp [hf] at h
  | none =>
    cases hs : cl.findSecret obj.key with
    | none => simp [hf, hs] at h
    | some y =>
      simp only [hf, hs]
      exact find_replaceSecret cl.secrets obj y hs

theorem mutate_ok (f : Secret → Except GoError Secret) (key : NamespacedName)
    (obj obj2 : Secret) (h : mutate f key obj = .ok obj2) : f obj = .ok obj2 ∧ obj2.key = key := by
  unfold mutate at h
  cases hf : f obj with
  | error e => simp [hf] at h
  | ok y =>
    simp only [hf] at h
    by_cases hk : y.key = key
    · simp only [hk, ne_eq, not_true_eq_false, ↓reduceIte, Except.ok.injEq] at h
      subst h
      exact ⟨rfl, hk⟩
    · simp [hk] at h

/-- What a `CreateOrUpdate` that returned no error did: it created the mutated object,
or found the stored object deeply equal to its mutation and wrote nothing, or updated
the stored object to its mutation. -/
theorem CreateOrUpdate_ok {ω : Type} (w : World ω) (obj : Secret)
    (f : Secret → Except GoError Secret) (h : (CreateOrUpdate w obj f).err = none) :
    ∃ base obj2, f base = .ok obj2 ∧ obj2.key = obj.key ∧ (CreateOrUpdate w obj f).obj = obj2 ∧
      ((base = obj ∧ (CreateOrUpdate w obj f).op = .OperationResultCreated ∧
          (CreateOrUpdate w obj f).world.cluster.findSecret obj.key = some obj2) ∨
       (w.cluster.findSecret obj.key = some base ∧ base.deepEqual obj2 = true ∧
          (CreateOrUpdate w obj f).op = .OperationResultNone ∧
          (CreateOrUpdate w obj f).world.cluster.findSecret obj.key = some base) ∨
       (w.cluster.findSecret obj.key = some base ∧
          (CreateOrUpdate w obj f).op = .OperationResultUpdated ∧
          (CreateOrUpdate w obj f).world.cluster.findSecret obj.key = some obj2)) := by
  cases hg : w.r.Client.GetSecret w.cluster obj.key with
  | error e =>
    cases hnf : e.IsNotFound with
    | false => simp [CreateOrUpdate, hg, hnf] at h
    | true =>
      cases hm : mutate f obj.key obj with
      | error e2 => simp [CreateOrUpdate, hg, hnf, hm] at h
      | ok obj2 =>
        obtain ⟨hf, hk⟩ := mutate_ok f obj.key obj obj2 hm
        cases hc : (w.r.Client.CreateSecret w.cluster obj2).1 with
        | some e3 => simp [CreateOrUpdate, hg, hnf, hm, hc] at h
        | none =>
          have hstored := CreateSecret_ok _ _ _ hc
          rw [hk] at hstored
          refine ⟨obj, obj2, hf, hk, ?_, Or.inl ⟨rfl, ?_, ?_⟩⟩
          · simp [CreateOrUpdate, hg, hnf, hm, hc]
          · simp [CreateOrUpdate, hg, hnf, hm, hc]
          · simp only [CreateOrUpdate, hg, hnf, hm, hc]
            exact hstored
  | ok existing =>
    have hfound := GetSecret_ok _ _ _ _ hg
    cases hm : mutate f obj.key existing with
    | error e2 => simp [CreateOrUpdate, hg, hm] at h
    | ok obj2 =>
      obtain ⟨hf, hk⟩ := mutate_ok f obj.key existing obj2 hm
      cases heq : existing.deepEqual obj2 with
      | true =>
        refine ⟨existing, obj2, hf, hk, ?_, Or.inr (Or.inl ⟨hfound, heq, ?_, ?_⟩)⟩
        · simp [CreateOrUpdate, hg, hm, heq]
        · simp [CreateOrUpdate, hg, hm, heq]
        · simp only [CreateOrUpdate, hg, hm, heq]
          exact hfound
      | false =>
        cases hc : (w.r.Client.UpdateSecret w.cluster obj2).1 with
        | some e3 => simp [CreateOrUpdate, hg, hm, heq, hc] at h
        | none =>
          have hstored := UpdateSecret_ok _ _ _ hc
          rw [hk] at hstored
          refine ⟨existing, obj2, hf, hk, ?_, Or.inr (Or.inr ⟨hfound, ?_, ?_⟩)⟩
          · simp [CreateOrUpdate, hg, hm, heq, hc]
          · simp [CreateOrUpdate, hg, hm, heq, hc]
          · simp only [CreateOrUpdate, hg, hm, heq, hc]
            exact hstored

/-! ### The scoped identity secret reconciler -/

theorem SetControllerReference_ok (owner : DataProtectionApplication) (controlled : Secret)
    (scheme : Option (GroupVersion × String)) (out : Secret)
    (h : SetControllerReference owner controlled scheme = .ok out) :
    out.Name = controlled.Name ∧ out.Namespace = controlled.Namespace ∧
      out.Labels = controlled.Labels ∧ out.Data = controlled.Data := by
  unfold SetControllerReference at h
  split at h
  · cases h
  · split at h
    · cases h
    · cases scheme with
      | none => cases h
      | some gvk =>
        simp only at h
        split at h
        · split at h
          · cases h
          · cases h
            exact ⟨rfl, rfl, rfl, rfl⟩
        · cases h
          exact ⟨rfl, rfl, rfl, rfl⟩

theorem azureSecretMutateFn_ok (D : Declarations) (dpa : DataProtectionApplication)
    (scheme : Option (GroupVersion × String)) (azureClientID azureTenantID : String)
    (base out : Secret)
    (h : azureSecretMutateFn D dpa scheme azureClientID azureTenantID base = .ok out) :
    out.Name = base.Name ∧ out.Namespace = base.Namespace ∧
      out.Labels = D.getDpaAppLabels dpa ∧
      out.Data = ((base.Data.set "AZURE_CLIENT_ID" azureClientID).set
        "AZURE_TENANT_ID" azureTenantID).set "AZURE_FEDERATED_TOKEN_FILE"
          D.WebIdentityTokenPath := by
  unfold azureSecretMutateFn at h
  obtain ⟨h1, h2, h3, h4⟩ := SetControllerReference_ok _ _ _ _ h
  exact ⟨h1, h2, h3, h4⟩

theorem azure_data_keys (m : GoMap) (c t p : String) :
    (((m.set "AZURE_CLIENT_ID" c).set "AZURE_TENANT_ID" t).set
        "AZURE_FEDERATED_TOKEN_FILE" p).get? "AZURE_CLIENT_ID" = some c ∧
    (((m.set "AZURE_CLIENT_ID" c).set "AZURE_TENANT_ID" t).set
        "AZURE_FEDERATED_TOKEN_FILE" p).get? "AZURE_TENANT_ID" = some t ∧
    (((m.set "AZURE_CLIENT_ID" c).set "AZURE_TENANT_ID" t).set
        "AZURE_FEDERATED_TOKEN_FILE" p).get? "AZURE_FEDERATED_TOKEN_FILE" = some p := by
  refine ⟨?_, ?_, ?_⟩
  · rw [GoMap.get?_set_other _ _ _ _ (by decide), GoMap.get?_set_other _ _ _ _ (by decide),
      GoMap.get?_set_self]
  · rw [GoMap.get?_set_other _ _ _ _ (by decide), GoMap.get?_set_self]
  · rw [GoMap.get?_set_self]

/-- C9: when the client id, the tenant id or the subscription id is empty in the
environment, ReconcileAzureWorkloadIdentitySecret returns (true, nil) and leaves the
whole state as it was: no call on the client (no get, create or update of a secret),
the stored secrets unchanged, and no event. -/
theorem ReconcileAzureWorkloadIdentitySecret_noop_when_incomplete {ω : Type}
    (D : Declarations) (log : Logger) (w : World ω)
    (h : w.Getenv D.ClientIDEnvKey = "" ∨ w.Getenv D.TenantIDEnvKey = "" ∨
      w.Getenv D.SubscriptionIDEnvKey = "") :
    ReconcileAzureWorkloadIdentitySecret D log w = ((true, none), w) ∧
    (ReconcileAzureWorkloadIdentitySecret D log w).2.calls = w.calls ∧
    (ReconcileAzureWorkloadIdentitySecret D log w).2.cluster.secrets = w.cluster.secrets ∧
    (ReconcileAzureWorkloadIdentitySecret D log w).2.events = w.events := by
  have e : ReconcileAzureWorkloadIdentitySecret D log w = ((true, none), w) := by
    unfold ReconcileAzureWorkloadIdentitySecret
    simp only [h, if_true]
  rw [e]
  exact ⟨rfl, rfl, rfl, rfl⟩

/-- C9 at the test case "Partial Azure credentials (missing tenant)". -/
theorem ReconcileAzureWorkloadIdentitySecret_noop_when_incomplete_witness :
    ((stepWorld missingTenantEnv).Getenv testDeclarations.ClientIDEnvKey = "" ∨
      (stepWorld missingTenantEnv).Getenv testDeclarations.TenantIDEnvKey = "" ∨
      (stepWorld missingTenantEnv).Getenv testDeclarations.SubscriptionIDEnvKey = "") ∧
    (ReconcileAzureWorkloadIdentitySecret testDeclarations ⟨none, []⟩
        (stepWorld missingTenantEnv) = ((true, none), stepWorld missingTenantEnv) ∧
      (ReconcileAzureWorkloadIdentitySecret testDeclarations ⟨none, []⟩
        (stepWorld missingTenantEnv)).2.calls = (stepWorld missingTenantEnv).calls ∧
      (ReconcileAzureWorkloadIdentitySecret testDeclarations ⟨none, []⟩
        (stepWorld missingTenantEnv)).2.cluster.secrets
          = (stepWorld missingTenantEnv).cluster.secrets ∧
      (ReconcileAzureWorkloadIdentitySecret testDeclarations ⟨none, []⟩
        (stepWorld missingTenantEnv)).2.events = (stepWorld missingTenantEnv).events) :=
  ⟨Or.inr (Or.inl rfl),
    ReconcileAzureWorkloadIdentitySecret_noop_when_incomplete testDeclarations ⟨none, []⟩
      (stepWorld missingTenantEnv) (Or.inr (Or.inl rfl))⟩

/-- C10: with non-empty client id, tenant id and subscription id and a create-or-update
that returns no error, ReconcileAzureWorkloadIdentitySecret returns (true, nil) and the
cluster then stores, in the primary resource's namespace, a secret named
AzureWorkloadIdentitySecretName whose data maps AZURE_CLIENT_ID to the client id,
AZURE_TENANT_ID to the tenant id and AZURE_FEDERATED_TOKEN_FILE to WebIdentityTokenPath. -/
theorem ReconcileAzureWorkloadIdentitySecret_writes_secret {ω : Type}
    (D : Declarations) (log : Logger) (w : World ω)
    (hc : w.Getenv D.ClientIDEnvKey ≠ "") (ht : w.Getenv D.TenantIDEnvKey ≠ "")
    (hs : w.Getenv D.SubscriptionIDEnvKey ≠ "")
    (hok : (CreateOrUpdate w
        { Name := D.AzureWorkloadIdentitySecretName, Namespace := w.r.dpa.Namespace }
        (azureSecretMutateFn D w.r.dpa w.r.Scheme (w.Getenv D.ClientIDEnvKey)
          (w.Getenv D.TenantIDEnvKey))).err = none) :
    (ReconcileAzureWorkloadIdentitySecret D log w).1 = (true, none) ∧
    ∃ secret,
      (ReconcileAzureWorkloadIdentitySecret D log w).2.cluster.findSecret
        ⟨w.r.dpa.Namespace, D.AzureWorkloadIdentitySecretName⟩ = some secret ∧
      secret.Name = D.AzureWorkloadIdentitySecretName ∧
      secret.Namespace = w.r.dpa.Namespace ∧
      secret.Data.get? "AZURE_CLIENT_ID" = some (w.Getenv D.ClientIDEnvKey) ∧
      secret.Data.get? "AZURE_TENANT_ID" = some (w.Getenv D.TenantIDEnvKey) ∧
      secret.Data.get? "AZURE_FEDERATED_TOKEN_FILE" = some D.WebIdentityTokenPath := by
  have hcond : ¬ (w.Getenv D.ClientIDEnvKey = "" ∨ w.Getenv D.TenantIDEnvKey = "" ∨
      w.Getenv D.SubscriptionIDEnvKey = "") := by
    simp [hc, ht, hs]
  have hstep : (ReconcileAzureWorkloadIdentitySecret D log w).1 = (true, none) ∧
      (ReconcileAzureWorkloadIdentitySecret D log w).2.cluster =
        (CreateOrUpdate w
          { Name := D.AzureWorkloadIdentitySecretName, Namespace := w.r.dpa.Namespace }
          (azureSecretMutateFn D w.r.dpa w.r.Scheme (w.Getenv D.ClientIDEnvKey)
            (w.Getenv D.TenantIDEnvKey))).world.cluster := by
    unfold ReconcileAzureWorkloadIdentitySecret
    simp only [hcond, if_false, hok]
    split <;> exact ⟨rfl, rfl⟩
  obtain ⟨base, obj2, hf, hk, -, hcases⟩ := CreateOrUpdate_ok w _ _ hok
  obtain ⟨hname, hns, -, hdata⟩ := azureSecretMutateFn_ok _ _ _ _ _ _ _ hf
  obtain ⟨hd1, hd2, hd3⟩ := azure_data_keys base.Data (w.Getenv D.ClientIDEnvKey)
    (w.Getenv D.TenantIDEnvKey) D.WebIdentityTokenPath
  rw [← hdata] at hd1 hd2 hd3
  have hkey2 : obj2.Name = D.AzureWorkloadIdentitySecretName ∧
      obj2.Namespace = w.r.dpa.Namespace := by
    have := hk
    simp only [Secret.key, NamespacedName.mk.injEq] at this
    exact ⟨this.2, this.1⟩
  refine ⟨hstep.1, ?_⟩
  rw [hstep.2]
  rcases hcases with ⟨-, -, hstored⟩ | ⟨hfound, heq, -, hstored⟩ | ⟨-, -, hstored⟩
  · exact ⟨obj2, hstored, hkey2.1, hkey2.2, hd1, hd2, hd3⟩
  · have hbk : base.key = (⟨w.r.dpa.Namespace, D.AzureWorkloadIdentitySecretName⟩ : NamespacedName) := by
      have := List.find?_some hfound
      simpa using this
    have hbname : base.Name = D.AzureWorkloadIdentitySecretName ∧
        base.Namespace = w.r.dpa.Namespace := by
      simp only [Secret.key, NamespacedName.mk.injEq] at hbk
      exact ⟨hbk.2, hbk.1⟩
    have hdeq : base.Data.deepEqual obj2.Data = true := by
      simp only [Secret.deepEqual, Bool.and_eq_true] at heq
      exact heq.2
    refine ⟨base, hstored, hbname.1, hbname.2, ?_, ?_, ?_⟩
    · rw [GoMap.get?_eq_of_deepEqual _ _ hdeq]; exact hd1
    · rw [GoMap.get?_eq_of_deepEqual _ _ hdeq]; exact hd2
    · rw [GoMap.get?_eq_of_deepEqual _ _ hdeq]; exact hd3
  · exact ⟨obj2, hstored, hkey2.1, hkey2.2, hd1, hd2, hd3⟩

/-- C10 at the test case "Azure STS credentials present - should create secret". -/
theorem ReconcileAzureWorkloadIdentitySecret_writes_secret_witness :
    (stepWorld azureEnv).Getenv testDeclarations.ClientIDEnvKey ≠ "" ∧
    (stepWorld azureEnv).Getenv testDeclarations.TenantIDEnvKey ≠ "" ∧
    (stepWorld azureEnv).Getenv testDeclarations.SubscriptionIDEnvKey ≠ "" ∧
    (CreateOrUpdate (stepWorld azureEnv)
        { Name := testDeclarations.AzureWorkloadIdentitySecretName,
          Namespace := (stepWorld azureEnv).r.dpa.Namespace }
        (azureSecretMutateFn testDeclarations (stepWorld azureEnv).r.dpa
          (stepWorld azureEnv).r.Scheme
          ((stepWorld azureEnv).Getenv testDeclarations.ClientIDEnvKey)
          ((stepWorld azureEnv).Getenv testDeclarations.TenantIDEnvKey))).err = none ∧
    (ReconcileAzureWorkloadIdentitySecret testDeclarations ⟨none, []⟩
      (stepWorld azureEnv)).1 = (true, none) ∧
    ∃ secret,
      (ReconcileAzureWorkloadIdentitySecret testDeclarations ⟨none, []⟩
        (stepWorld azureEnv)).2.cluster.findSecret
        ⟨(stepWorld azureEnv).r.dpa.Namespace,
          testDeclarations.AzureWorkloadIdentitySecretName⟩ = some secret ∧
      secret.Name = testDeclarations.AzureWorkloadIdentitySecretName ∧
      secret.Namespace = (stepWorld azureEnv).r.dpa.Namespace ∧
      secret.Data.get? "AZURE_CLIENT_ID"
        = some ((stepWorld azureEnv).Getenv testDeclarations.ClientIDEnvKey) ∧
      secret.Data.get? "AZURE_TENANT_ID"
        = some ((stepWorld azureEnv).Getenv testDeclarations.TenantIDEnvKey) ∧
      secret.Data.get? "AZURE_FEDERATED_TOKEN_FILE"
        = some testDeclarations.WebIdentityTokenPath :=
  ⟨by decide, by decide, by decide, rfl,
    ReconcileAzureWorkloadIdentitySecret_writes_secret testDeclarations ⟨none, []⟩
      (stepWorld azureEnv) (by decide) (by decide) (by decide) rfl⟩

/-! ### Idempotence of Reconcile -/

theorem mergeCondition_status (x c : Condition) (n : Nat) :
    (mergeCondition x c n).Status = c.Status := by
  unfold mergeCondition
  split
  · rfl
  · rename_i h
    simpa using h

theorem mergeCondition_type (x c : Condition) (n : Nat) :
    (mergeCondition x c n).Type_ = x.Type_ := by
  unfold mergeCondition
  split <;> rfl

theorem mergeCondition_fixed (m c : Condition) (n : Nat) (hs : m.Status = c.Status)
    (hr : m.Reason = c.Reason) (hg : m.Message = c.Message)
    (ho : m.ObservedGeneration = c.ObservedGeneration) : mergeCondition m c n = m := by
  cases m
  cases c
  simp only at hs hr hg ho
  subst hs hr hg ho
  simp [mergeCondition]

theorem mergeCondition_idem (x c : Condition) (n1 n2 : Nat) :
    mergeCondition (mergeCondition x c n1) c n2 = mergeCondition x c n1 := by
  apply mergeCondition_fixed
  · exact mergeCondition_status x c n1
  · simp [mergeCondition]
  · simp [mergeCondition]
  · simp [mergeCondition]

theorem SetStatusCondition_idem (conditions : List Condition) (c : Condition) (n1 n2 : Nat) :
    SetStatusCondition (SetStatusCondition conditions c n1) c n2
      = SetStatusCondition conditions c n1 := by
  induction conditions with
  | nil =>
    have key : ∀ x : Condition, x.Type_ = c.Type_ → x.Status = c.Status → x.Reason = c.Reason →
        x.Message = c.Message → x.ObservedGeneration = c.ObservedGeneration →
        SetStatusCondition [x] c n2 = [x] := by
      intro x h1 h2 h3 h4 h5
      simp only [SetStatusCondition, h1, beq_self_eq_true, ↓reduceIte,
        mergeCondition_fixed x c n2 h2 h3 h4 h5]
    by_cases h : c.LastTransitionTime = 0
    · have e : SetStatusCondition [] c n1 = [{ c with LastTransitionTime := n1 }] := by
        simp [SetStatusCondition, h]
      rw [e]
      exact key _ rfl rfl rfl rfl rfl
    · have e : SetStatusCondition [] c n1 = [c] := by
        simp [SetStatusCondition, h]
      rw [e]
      exact key _ rfl rfl rfl rfl rfl
  | cons x rest ih =>
    by_cases hx : x.Type_ = c.Type_
    · simp [SetStatusCondition, hx, mergeCondition_type, mergeCondition_idem]
    · simp [SetStatusCondition, hx, ih]

theorem replaceStatus_self (d : DataProtectionApplication)
    (l : List DataProtectionApplication)
    (h : l.find? (fun x => x.key == d.key) = some d) : replaceStatus d l = l := by
  induction l with
  | nil => rfl
  | cons x rest ih =>
    by_cases hx : x.key = d.key
    · simp only [List.find?_cons, hx, beq_self_eq_true, Option.some.injEq] at h
      subst h
      simp [replaceStatus]
    · have hb : (x.key == d.key) = false := by simp [hx]
      simp only [List.find?_cons, hb] at h
      simp [replaceStatus, hx, ih h]

/-- C8, refuted: two deterministic steps, each idempotent on its own; the first
invocation of Reconcile succeeds (nil error, condition True/Complete), the second, run
on the state the first left, returns an error and stores condition False/Error. -/
theorem Reconcile_twice_differs_for_idempotent_steps :
    IdempotentStep refuseWhenDeployed ∧ IdempotentStep deploy ∧
    (firstReconcile [refuseWhenDeployed, deploy] GoMap.empty).err = none ∧
    (secondReconcile [refuseWhenDeployed, deploy] GoMap.empty).err
      = some ⟨"already deployed"⟩ ∧
    ((firstReconcile [refuseWhenDeployed, deploy] GoMap.empty).world.cluster.findDPA
        testRequest.NamespacedName).map (fun d => d.Status.Conditions)
      = some [{ Type_ := "Reconciled", Status := ConditionStatus.ConditionTrue,
                LastTransitionTime := 7, Reason := "Complete",
                Message := "Reconcile complete" }] ∧
    ((secondReconcile [refuseWhenDeployed, deploy] GoMap.empty).world.cluster.findDPA
        testRequest.NamespacedName).map (fun d => d.Status.Conditions)
      = some [{ Type_ := "Reconciled", Status := ConditionStatus.ConditionFalse,
                LastTransitionTime := 8, Reason := "Error",
                Message := "already deployed" }] ∧
    (secondReconcile [refuseWhenDeployed, deploy] GoMap.empty).world.cluster.dpas
      ≠ (firstReconcile [refuseWhenDeployed, deploy] GoMap.empty).world.cluster.dpas := by
  refine ⟨?_, ?_, rfl, rfl, rfl, rfl, ?_⟩
  · intro l w
    unfold refuseWhenDeployed
    cases h : w.cluster.other <;> simp [h]
  · intro l w
    rfl
  · decide

theorem StatusUpdate_eq {ω : Type} (c : Client ω) (cl : Cluster ω)
    (obj stored : DataProtectionApplication) (hfail : c.failStatusUpdate cl obj = none)
    (hfound : cl.findDPA obj.key = some stored) :
    c.StatusUpdate cl obj =
      (none, { cl with dpas := replaceStatus obj cl.dpas }, { stored with Status := obj.Status }) := by
  simp [Client.StatusUpdate, hfail, hfound]

theorem GetDPA_eq {ω : Type} (c : Client ω) (cl : Cluster ω) (key : NamespacedName)
    (d : DataProtectionApplication) (hfail : c.failGetDPA cl key = none)
    (hfound : cl.findDPA key = some d) : c.GetDPA cl key = .ok d := by
  simp [Client.GetDPA, hfail, hfound]

/-- C8, amended: Reconcile adds no non-idempotence of its own.  When the API fails no
get or status update, the pipeline keeps `r.dpa` naming the primary resource and keeps
that resource stored, and the step pipeline, re-run on the state the first invocation
left, returns what it returned before and leaves the cluster, `r.dpa` and the client as
they are, then a second invocation (at any later clock reading) leaves the cluster
state of the first, hands the same status to the status update (the same Reconciled
condition, transition time included) and returns the same error. -/
theorem Reconcile_twice_same_when_pipeline_settled {ω : Type} (completeMessage : String)
    (steps : List (ReconcileFunc (World ω))) (now1 now2 : Nat) (ctx : Context) (req : Request)
    (w : World ω) (d : DataProtectionApplication)
    (hfetch : w.r.Client.GetDPA w.cluster req.NamespacedName = .ok d)
    (hkey : (pipelineRun steps ctx req w d).2.r.dpa.key = req.NamespacedName)
    (hkept : (pipelineRun steps ctx req w d).2.cluster.findDPA req.NamespacedName ≠ none)
    (hget : ∀ cl key, (pipelineRun steps ctx req w d).2.r.Client.failGetDPA cl key = none)
    (hupd : ∀ cl obj, (pipelineRun steps ctx req w d).2.r.Client.failStatusUpdate cl obj = none)
    (hpipe : ∀ d2,
      (Reconcile completeMessage steps now1 ctx req w).world.r.Client.GetDPA
        (Reconcile completeMessage steps now1 ctx req w).world.cluster req.NamespacedName
          = .ok d2 →
      (pipelineRun steps ctx req (Reconcile completeMessage steps now1 ctx req w).world d2).1
          = (pipelineRun steps ctx req w d).1 ∧
      (pipelineRun steps ctx req (Reconcile completeMessage steps now1 ctx req w).world d2).2.cluster
          = (Reconcile completeMessage steps now1 ctx req w).world.cluster ∧
      (pipelineRun steps ctx req (Reconcile completeMessage steps now1 ctx req w).world d2).2.r.dpa
          = d2 ∧
      (pipelineRun steps ctx req (Reconcile completeMessage steps now1 ctx req w).world d2).2.r.Client
          = (Reconcile completeMessage steps now1 ctx req w).world.r.Client) :
    (Reconcile completeMessage steps now2 ctx req
        (Reconcile completeMessage steps now1 ctx req w).world).world.cluster
      = (Reconcile completeMessage steps now1 ctx req w).world.cluster ∧
    (Reconcile completeMessage steps now2 ctx req
        (Reconcile completeMessage steps now1 ctx req w).world).err
      = (Reconcile completeMessage steps now1 ctx req w).err ∧
    (Reconcile completeMessage steps now2 ctx req
        (Reconcile completeMessage steps now1 ctx req w).world).statusUpdates.map
          (fun u => (u.1.Status, u.2))
      = (Reconcile completeMessage steps now1 ctx req w).statusUpdates.map
          (fun u => (u.1.Status, u.2)) ∧
    (Reconcile completeMessage steps now2 ctx req
        (Reconcile completeMessage steps now1 ctx req w).world).pipeline
      = (Reconcile completeMessage steps now1 ctx req w).pipeline := by
  have hR1 := Reconcile_fetched completeMessage steps now1 ctx req w d hfetch
  simp only at hR1
  change Reconcile completeMessage steps now1 ctx req w = _ at hR1
  unfold pipelineRun at hkey hkept hget hupd hpipe
  generalize hb1 : ReconcileBatch ⟨some ctx, []⟩ steps (fetchedWorld w ctx req d) = batch1
    at hR1 hkey hkept hget hupd hpipe
  obtain ⟨stored, hstored⟩ := Option.ne_none_iff_exists'.1 hkept
  generalize hobj1 : ({ batch1.2.r.dpa with Status := { batch1.2.r.dpa.Status with
      Conditions := SetStatusCondition batch1.2.r.dpa.Status.Conditions
        (reconciledCondition completeMessage batch1.1.2) now1 } } : DataProtectionApplication)
      = obj1 at hR1
  have hk1 : obj1.key = req.NamespacedName := by rw [← hobj1]; exact hkey
  have hU1 := StatusUpdate_eq batch1.2.r.Client batch1.2.cluster obj1 stored (hupd _ _)
    (by rw [hk1]; exact hstored)
  rw [hU1] at hR1
  simp only at hR1
  have hc1 : obj1.Status.Conditions = SetStatusCondition batch1.2.r.dpa.Status.Conditions
      (reconciledCondition completeMessage batch1.1.2) now1 := by rw [← hobj1]
  have hsk : stored.key = req.NamespacedName := by
    have := List.find?_some hstored
    simpa using this
  generalize hd2 : ({ stored with Status := obj1.Status } : DataProtectionApplication) = d2
    at hR1
  have hd2k : d2.key = req.NamespacedName := by rw [← hd2]; exact hsk
  have hd2c : d2.Status.Conditions = SetStatusCondition batch1.2.r.dpa.Status.Conditions
      (reconciledCondition completeMessage batch1.1.2) now1 := by rw [← hd2]; exact hc1
  have hfind2 : ({ batch1.2.cluster with dpas := replaceStatus obj1 batch1.2.cluster.dpas }
      : Cluster ω).findDPA req.NamespacedName = some d2 := by
    rw [← hd2, ← hk1]
    exact find_replaceStatus obj1 _ stored (by rw [hk1]; exact hstored)
  have hF_cluster : (Reconcile completeMessage steps now1 ctx req w).world.cluster
      = { batch1.2.cluster with dpas := replaceStatus obj1 batch1.2.cluster.dpas } := by
    rw [hR1]
  have hF_client : (Reconcile completeMessage steps now1 ctx req w).world.r.Client
      = batch1.2.r.Client := by rw [hR1]
  have hF_err : (Reconcile completeMessage steps now1 ctx req w).err
      = if batch1.1.2 = none then none else batch1.1.2 := by rw [hR1]
  have hF_su : (Reconcile completeMessage steps now1 ctx req w).statusUpdates
      = [(obj1, none)] := by rw [hR1]
  have hF_pipe : (Reconcile completeMessage steps now1 ctx req w).pipeline
      = some batch1.1 := by rw [hR1]
  clear hR1
  generalize Reconcile completeMessage steps now1 ctx req w = first at *
  have hG2 : first.world.r.Client.GetDPA first.world.cluster req.NamespacedName = .ok d2 := by
    rw [hF_client, hF_cluster]
    exact GetDPA_eq batch1.2.r.Client _ req.NamespacedName d2 (hget _ _) hfind2
  obtain ⟨hp1, hp2, hp3, hp4⟩ := hpipe d2 hG2
  have hR2 := Reconcile_fetched completeMessage steps now2 ctx req first.world d2 hG2
  simp only at hR2
  generalize ReconcileBatch ⟨some ctx, []⟩ steps (fetchedWorld first.world ctx req d2) = batch2
    at hR2 hp1 hp2 hp3 hp4
  have hobj2 : ({ batch2.2.r.dpa with Status := { batch2.2.r.dpa.Status with
      Conditions := SetStatusCondition batch2.2.r.dpa.Status.Conditions
        (reconciledCondition completeMessage batch2.1.2) now2 } } : DataProtectionApplication)
      = d2 := by
    rw [hp3, hp1, hd2c, SetStatusCondition_idem, ← hd2c]
  rw [hobj2, hp2, hp4, hp1, hF_client, hF_cluster] at hR2
  have hU2 := StatusUpdate_eq batch1.2.r.Client
    ({ batch1.2.cluster with dpas := replaceStatus obj1 batch1.2.cluster.dpas } : Cluster ω)
    d2 d2 (hupd _ _) (by rw [hd2k]; exact hfind2)
  rw [replaceStatus_self d2 _ (by rw [hd2k]; exact hfind2)] at hU2
  rw [hU2] at hR2
  rw [hR2, hF_cluster, hF_err, hF_su, hF_pipe]
  refine ⟨rfl, rfl, ?_, rfl⟩
  simp [← hd2]

/-- C8 amended, at the test fixture with the Azure environment set: the first
invocation creates the identity secret and sets the flag, the second changes nothing. -/
theorem Reconcile_twice_same_when_pipeline_settled_witness :
    (testWorld testDPA azureEnv).r.Client.GetDPA (testWorld testDPA azureEnv).cluster
        testRequest.NamespacedName = .ok testDPA ∧
    (pipelineRun settledSteps ⟨"ctx"⟩ testRequest (testWorld testDPA azureEnv) testDPA).2.r.dpa.key
        = testRequest.NamespacedName ∧
    (pipelineRun settledSteps ⟨"ctx"⟩ testRequest (testWorld testDPA azureEnv)
        testDPA).2.cluster.findDPA testRequest.NamespacedName ≠ none ∧
    (∀ cl key, (pipelineRun settledSteps ⟨"ctx"⟩ testRequest (testWorld testDPA azureEnv)
        testDPA).2.r.Client.failGetDPA cl key = none) ∧
    (∀ cl obj, (pipelineRun settledSteps ⟨"ctx"⟩ testRequest (testWorld testDPA azureEnv)
        testDPA).2.r.Client.failStatusUpdate cl obj = none) ∧
    (∀ d2,
      (firstReconcile settledSteps azureEnv).world.r.Client.GetDPA
        (firstReconcile settledSteps azureEnv).world.cluster testRequest.NamespacedName
          = .ok d2 →
      (pipelineRun settledSteps ⟨"ctx"⟩ testRequest
          (firstReconcile settledSteps azureEnv).world d2).1
          = (pipelineRun settledSteps ⟨"ctx"⟩ testRequest (testWorld testDPA azureEnv) testDPA).1 ∧
      (pipelineRun settledSteps ⟨"ctx"⟩ testRequest
          (firstReconcile settledSteps azureEnv).world d2).2.cluster
          = (firstReconcile settledSteps azureEnv).world.cluster ∧
      (pipelineRun settledSteps ⟨"ctx"⟩ testRequest
          (firstReconcile settledSteps azureEnv).world d2).2.r.dpa = d2 ∧
      (pipelineRun settledSteps ⟨"ctx"⟩ testRequest
          (firstReconcile settledSteps azureEnv).world d2).2.r.Client
          = (firstReconcile settledSteps azureEnv).world.r.Client) ∧
    (secondReconcile settledSteps azureEnv).world.cluster
      = (firstReconcile settledSteps azureEnv).world.cluster ∧
    (secondReconcile settledSteps azureEnv).err = (firstReconcile settledSteps azureEnv).err ∧
    (secondReconcile settledSteps azureEnv).statusUpdates.map (fun u => (u.1.Status, u.2))
      = (firstReconcile settledSteps azureEnv).statusUpdates.map (fun u => (u.1.Status, u.2)) ∧
    (secondReconcile settledSteps azureEnv).pipeline
      = (firstReconcile settledSteps azureEnv).pipeline :=
  have hpipe : ∀ d2,
      (firstReconcile settledSteps azureEnv).world.r.Client.GetDPA
        (firstReconcile settledSteps azureEnv).world.cluster testRequest.NamespacedName
          = .ok d2 →
      (pipelineRun settledSteps ⟨"ctx"⟩ testRequest
          (firstReconcile settledSteps azureEnv).world d2).1
          = (pipelineRun settledSteps ⟨"ctx"⟩ testRequest (testWorld testDPA azureEnv) testDPA).1 ∧
      (pipelineRun settledSteps ⟨"ctx"⟩ testRequest
          (firstReconcile settledSteps azureEnv).world d2).2.cluster
          = (firstReconcile settledSteps azureEnv).world.cluster ∧
      (pipelineRun settledSteps ⟨"ctx"⟩ testRequest
          (firstReconcile settledSteps azureEnv).world d2).2.r.dpa = d2 ∧
      (pipelineRun settledSteps ⟨"ctx"⟩ testRequest
          (firstReconcile settledSteps azureEnv).world d2).2.r.Client
          = (firstReconcile settledSteps azureEnv).world.r.Client := by
    intro d2 h
    have h2 : (firstReconcile settledSteps azureEnv).world.r.Client.GetDPA
        (firstReconcile settledSteps azureEnv).world.cluster testRequest.NamespacedName
          = .ok completedDPA := rfl
    rw [h2] at h
    obtain rfl : completedDPA = d2 := Except.ok.inj h
    exact ⟨rfl, rfl, rfl, rfl⟩
  ⟨rfl, rfl, by decide, fun _ _ => rfl, fun _ _ => rfl, hpipe,
    Reconcile_twice_same_when_pipeline_settled "Reconcile complete" settledSteps 7 8 ⟨"ctx"⟩
      testRequest (testWorld testDPA azureEnv) testDPA rfl rfl (by decide) (fun _ _ => rfl)
      (fun _ _ => rfl) hpipe⟩

/-! ### The stored identity secret: data keys, owner references, events -/

theorem CreateOrUpdate_created_absent {ω : Type} (w : World ω) (obj : Secret)
    (f : Secret → Except GoError Secret) (h : (CreateOrUpdate w obj f).err = none)
    (hop : (CreateOrUpdate w obj f).op = .OperationResultCreated) :
    w.cluster.findSecret obj.key = none := by
  cases hg : w.r.Client.GetSecret w.cluster obj.key with
  | error e =>
    cases hnf : e.IsNotFound with
    | false => simp [CreateOrUpdate, hg, hnf] at h
    | true =>
      cases hm : mutate f obj.key obj with
      | error e2 => simp [CreateOrUpdate, hg, hnf, hm] at h
      | ok obj2 =>
        obtain ⟨-, hk⟩ := mutate_ok f obj.key obj obj2 hm
        cases hc : (w.r.Client.CreateSecret w.cluster obj2).1 with
        | some e3 => simp [CreateOrUpdate, hg, hnf, hm, hc] at h
        | none =>
          unfold Client.CreateSecret at hc
          cases hf : w.r.Client.failCreateSecret w.cluster obj2 with
          | some e4 => simp [hf] at hc
          | none =>
            cases hs : w.cluster.findSecret obj2.key with
            | some y => simp [hf, hs] at hc
            | none => rw [← hk]; exact hs
  | ok existing =>
    cases hm : mutate f obj.key existing with
    | error e2 => simp [CreateOrUpdate, hg, hm] at h
    | ok obj2 =>
      cases heq : existing.deepEqual obj2 with
      | true => simp [CreateOrUpdate, hg, hm, heq] at hop
      | false =>
        cases hc : (w.r.Client.UpdateSecret w.cluster obj2).1 with
        | some e3 => simp [CreateOrUpdate, hg, hm, heq, hc] at h
        | none => simp [CreateOrUpdate, hg, hm, heq, hc] at hop

theorem CreateOrUpdate_events {ω : Type} (w : World ω) (obj : Secret)
    (f : Secret → Except GoError Secret) : (CreateOrUpdate w obj f).world.events = w.events := by
  unfold CreateOrUpdate
  simp only
  split
  · split
    · rfl
    · split
      · rfl
      · split <;> rfl
  · split
    · rfl
    · split
      · rfl
      · split <;> rfl

/-- What a successful run of the identity secret step leaves stored under its key: the
mutation `obj2` of a base object, which is the empty named secret when none was stored
(created) and the stored secret otherwise (updated, or left as it was when deeply equal
to its mutation). -/
theorem azure_step_stored {ω : Type} (D : Declarations) (log : Logger) (w : World ω)
    (hc : w.Getenv D.ClientIDEnvKey ≠ "") (ht : w.Getenv D.TenantIDEnvKey ≠ "")
    (hs : w.Getenv D.SubscriptionIDEnvKey ≠ "")
    (hok : (azureCreateOrUpdate D w).err = none) :
    (ReconcileAzureWorkloadIdentitySecret D log w).1 = (true, none) ∧
    ∃ base obj2 secret,
      azureSecretMutateFn D w.r.dpa w.r.Scheme (w.Getenv D.ClientIDEnvKey)
        (w.Getenv D.TenantIDEnvKey) base = .ok obj2 ∧
      (ReconcileAzureWorkloadIdentitySecret D log w).2.cluster.findSecret (azureSecretKey D w)
        = some secret ∧
      ((w.cluster.findSecret (azureSecretKey D w) = none ∧
          base = { Name := D.AzureWorkloadIdentitySecretName, Namespace := w.r.dpa.Namespace } ∧
          secret = obj2) ∨
       (w.cluster.findSecret (azureSecretKey D w) = some base ∧
          (secret = obj2 ∨ (secret = base ∧ base.deepEqual obj2 = true)))) := by
  unfold azureCreateOrUpdate at hok
  have hcond : ¬ (w.Getenv D.ClientIDEnvKey = "" ∨ w.Getenv D.TenantIDEnvKey = "" ∨
      w.Getenv D.SubscriptionIDEnvKey = "") := by
    simp [hc, ht, hs]
  have hstep : (ReconcileAzureWorkloadIdentitySecret D log w).1 = (true, none) ∧
      (ReconcileAzureWorkloadIdentitySecret D log w).2.cluster =
        (CreateOrUpdate w
          { Name := D.AzureWorkloadIdentitySecretName, Namespace := w.r.dpa.Namespace }
          (azureSecretMutateFn D w.r.dpa w.r.Scheme (w.Getenv D.ClientIDEnvKey)
            (w.Getenv D.TenantIDEnvKey))).world.cluster := by
    unfold ReconcileAzureWorkloadIdentitySecret
    simp only [hcond, if_false, hok]
    split <;> exact ⟨rfl, rfl⟩
  obtain ⟨base, obj2, hf, -, -, hcases⟩ := CreateOrUpdate_ok w _ _ hok
  refine ⟨hstep.1, base, obj2, ?_⟩
  rw [hstep.2]
  rcases hcases with ⟨hbase, hop, hstored⟩ | ⟨hfound, heq, -, hstored⟩ | ⟨hfound, -, hstored⟩
  · exact ⟨obj2, hf, hstored,
      Or.inl ⟨CreateOrUpdate_created_absent w _ _ hok hop, hbase, rfl⟩⟩
  · exact ⟨base, hf, hstored, Or.inr ⟨hfound, Or.inr ⟨rfl, heq⟩⟩⟩
  · exact ⟨obj2, hf, hstored, Or.inr ⟨hfound, Or.inl rfl⟩⟩

/-- C11, refuted: with complete configuration and a stored secret of the same name that
carries the data key EXTRA_KEY, the step succeeds and the stored secret then has four
data keys, EXTRA_KEY with its old value among them. -/
theorem ReconcileAzureWorkloadIdentitySecret_keeps_foreign_key :
    (ReconcileAzureWorkloadIdentitySecret testDeclarations ⟨none, []⟩ foreignSecretWorld).1
      = (true, none) ∧
    (((ReconcileAzureWorkloadIdentitySecret testDeclarations ⟨none, []⟩
        foreignSecretWorld).2.cluster.findSecret
          (azureSecretKey testDeclarations foreignSecretWorld)).map (fun s => s.Data.keys))
      = some ["EXTRA_KEY", "AZURE_CLIENT_ID", "AZURE_TENANT_ID", "AZURE_FEDERATED_TOKEN_FILE"] ∧
    (((ReconcileAzureWorkloadIdentitySecret testDeclarations ⟨none, []⟩
        foreignSecretWorld).2.cluster.findSecret
          (azureSecretKey testDeclarations foreignSecretWorld)).bind
            (fun s => s.Data.get? "EXTRA_KEY"))
      = some "x" := by
  refine ⟨rfl, rfl, rfl⟩

/-- C11, amended: after a successful run with complete configuration the stored
secret's data maps the three keys AZURE_CLIENT_ID, AZURE_TENANT_ID and
AZURE_FEDERATED_TOKEN_FILE to their values, and at every other key it holds exactly
what the secret stored under that name before the run held there: nothing when no
such secret was stored, so that a created secret has the three keys and no others. -/
theorem ReconcileAzureWorkloadIdentitySecret_data_keys {ω : Type}
    (D : Declarations) (log : Logger) (w : World ω)
    (hc : w.Getenv D.ClientIDEnvKey ≠ "") (ht : w.Getenv D.TenantIDEnvKey ≠ "")
    (hs : w.Getenv D.SubscriptionIDEnvKey ≠ "")
    (hok : (azureCreateOrUpdate D w).err = none) :
    ∃ secret,
      (ReconcileAzureWorkloadIdentitySecret D log w).2.cluster.findSecret (azureSecretKey D w)
        = some secret ∧
      secret.Data.get? "AZURE_CLIENT_ID" = some (w.Getenv D.ClientIDEnvKey) ∧
      secret.Data.get? "AZURE_TENANT_ID" = some (w.Getenv D.TenantIDEnvKey) ∧
      secret.Data.get? "AZURE_FEDERATED_TOKEN_FILE" = some D.WebIdentityTokenPath ∧
      (∀ k, k ≠ "AZURE_CLIENT_ID" → k ≠ "AZURE_TENANT_ID" → k ≠ "AZURE_FEDERATED_TOKEN_FILE" →
        secret.Data.get? k = storedData w.cluster (azureSecretKey D w) k) ∧
      (w.cluster.findSecret (azureSecretKey D w) = none →
        ∀ k, secret.Data.get? k ≠ none ↔
          (k = "AZURE_CLIENT_ID" ∨ k = "AZURE_TENANT_ID" ∨ k = "AZURE_FEDERATED_TOKEN_FILE")) := by
  obtain ⟨-, base, obj2, secret, hf, hstored, hcases⟩ := azure_step_stored D log w hc ht hs hok
  obtain ⟨-, -, -, hdata⟩ := azureSecretMutateFn_ok _ _ _ _ _ _ _ hf
  obtain ⟨hd1, hd2, hd3⟩ := azure_data_keys base.Data (w.Getenv D.ClientIDEnvKey)
    (w.Getenv D.TenantIDEnvKey) D.WebIdentityTokenPath
  rw [← hdata] at hd1 hd2 hd3
  have hother : ∀ k, k ≠ "AZURE_CLIENT_ID" → k ≠ "AZURE_TENANT_ID" →
      k ≠ "AZURE_FEDERATED_TOKEN_FILE" → obj2.Data.get? k = base.Data.get? k := by
    intro k h1 h2 h3
    rw [hdata, GoMap.get?_set_other _ _ _ _ h3, GoMap.get?_set_other _ _ _ _ h2,
      GoMap.get?_set_other _ _ _ _ h1]
  have hsec : ∀ k, secret.Data.get? k = obj2.Data.get? k := by
    intro k
    rcases hcases with ⟨-, -, hso⟩ | ⟨-, hso | ⟨hsb, heq⟩⟩
    · rw [hso]
    · rw [hso]
    · rw [hsb]
      simp only [Secret.deepEqual, Bool.and_eq_true] at heq
      exact GoMap.get?_eq_of_deepEqual _ _ heq.2 k
  have hprior : ∀ k, base.Data.get? k = storedData w.cluster (azureSecretKey D w) k := by
    intro k
    rcases hcases with ⟨hnone, hb, -⟩ | ⟨hsome, -⟩
    · simp [storedData, hnone, hb, GoMap.get?, GoMap.empty]
    · simp [storedData, hsome]
  refine ⟨secret, hstored, ?_, ?_, ?_, ?_, ?_⟩
  · rw [hsec]; exact hd1
  · rw [hsec]; exact hd2
  · rw [hsec]; exact hd3
  · intro k h1 h2 h3
    rw [hsec, hother k h1 h2 h3, hprior]
  · intro hnone k
    constructor
    · intro hk
      by_contra hne
      rw [not_or, not_or] at hne
      apply hk
      rw [hsec, hother k hne.1 hne.2.1 hne.2.2, hprior]
      simp [storedData, hnone]
    · rintro (rfl | rfl | rfl)
      · rw [hsec, hd1]; simp
      · rw [hsec, hd2]; simp
      · rw [hsec, hd3]; simp

/-- C11 amended, at the world that already stores a secret with the key EXTRA_KEY. -/
theorem ReconcileAzureWorkloadIdentitySecret_data_keys_witness :
    foreignSecretWorld.Getenv testDeclarations.ClientIDEnvKey ≠ "" ∧
    foreignSecretWorld.Getenv testDeclarations.TenantIDEnvKey ≠ "" ∧
    foreignSecretWorld.Getenv testDeclarations.SubscriptionIDEnvKey ≠ "" ∧
    (azureCreateOrUpdate testDeclarations foreignSecretWorld).err = none ∧
    ∃ secret,
      (ReconcileAzureWorkloadIdentitySecret testDeclarations ⟨none, []⟩
        foreignSecretWorld).2.cluster.findSecret
          (azureSecretKey testDeclarations foreignSecretWorld) = some secret ∧
      secret.Data.get? "AZURE_CLIENT_ID"
        = some (foreignSecretWorld.Getenv testDeclarations.ClientIDEnvKey) ∧
      secret.Data.get? "AZURE_TENANT_ID"
        = some (foreignSecretWorld.Getenv testDeclarations.TenantIDEnvKey) ∧
      secret.Data.get? "AZURE_FEDERATED_TOKEN_FILE"
        = some testDeclarations.WebIdentityTokenPath ∧
      (∀ k, k ≠ "AZURE_CLIENT_ID" → k ≠ "AZURE_TENANT_ID" → k ≠ "AZURE_FEDERATED_TOKEN_FILE" →
        secret.Data.get? k
          = storedData foreignSecretWorld.cluster
              (azureSecretKey testDeclarations foreignSecretWorld) k) ∧
      (foreignSecretWorld.cluster.findSecret
          (azureSecretKey testDeclarations foreignSecretWorld) = none →
        ∀ k, secret.Data.get? k ≠ none ↔
          (k = "AZURE_CLIENT_ID" ∨ k = "AZURE_TENANT_ID" ∨ k = "AZURE_FEDERATED_TOKEN_FILE")) :=
  ⟨by decide, by decide, by decide, rfl,
    ReconcileAzureWorkloadIdentitySecret_data_keys testDeclarations ⟨none, []⟩
      foreignSecretWorld (by decide) (by decide) (by decide) rfl⟩

theorem mem_upsertOwnerRef (ref : OwnerReference) (l : List OwnerReference) :
    ref ∈ upsertOwnerRef ref l := by
  induction l with
  | nil => simp [upsertOwnerRef]
  | cons x rest ih =>
    unfold upsertOwnerRef
    split
    · simp
    · exact List.mem_cons_of_mem _ ih

theorem SetControllerReference_owners (owner : DataProtectionApplication) (controlled : Secret)
    (scheme : Option (GroupVersion × String)) (out : Secret)
    (h : SetControllerReference owner controlled scheme = .ok out) :
    ∃ gvk, scheme = some gvk ∧
      out.OwnerReferences = upsertOwnerRef (controllerRef owner gvk) controlled.OwnerReferences := by
  unfold SetControllerReference at h
  split at h
  · cases h
  · split at h
    · cases h
    · cases scheme with
      | none => cases h
      | some gvk =>
        refine ⟨gvk, rfl, ?_⟩
        simp only at h
        split at h
        · split at h
          · cases h
          · cases h
            rfl
        · cases h
          rfl

/-- C12, refuted: with complete configuration and a stored secret of the same name that
carries an owner reference to another object (not as its controller), the step succeeds
and the stored secret then carries two owner references. -/
theorem ReconcileAzureWorkloadIdentitySecret_keeps_foreign_owner :
    (ReconcileAzureWorkloadIdentitySecret testDeclarations ⟨none, []⟩ foreignSecretWorld).1
      = (true, none) ∧
    (((ReconcileAzureWorkloadIdentitySecret testDeclarations ⟨none, []⟩
        foreignSecretWorld).2.cluster.findSecret
          (azureSecretKey testDeclarations foreignSecretWorld)).map
            (fun s => s.OwnerReferences.map (fun ref => (ref.Kind, ref.Name))))
      = some [("ConfigMap", "other"), ("DataProtectionApplication", "test-dpa")] ∧
    (((ReconcileAzureWorkloadIdentitySecret testDeclarations ⟨none, []⟩
        foreignSecretWorld).2.cluster.findSecret
          (azureSecretKey testDeclarations foreignSecretWorld)).map
            (fun s => s.OwnerReferences.length))
      = some 2 := by
  refine ⟨rfl, rfl, rfl⟩

/-- C12, amended: after a successful run with complete configuration the stored
secret's owner references are those of the secret stored under that name before the
run with the controller reference to the primary resource upserted (it replaces the
first reference to the same object, else it is appended): that reference, which names
the primary resource and is marked as controller, is among them, and it is the only
one when no such secret, or one without owner references, was stored before. -/
theorem ReconcileAzureWorkloadIdentitySecret_owner_reference {ω : Type}
    (D : Declarations) (log : Logger) (w : World ω)
    (hc : w.Getenv D.ClientIDEnvKey ≠ "") (ht : w.Getenv D.TenantIDEnvKey ≠ "")
    (hs : w.Getenv D.SubscriptionIDEnvKey ≠ "")
    (hok : (azureCreateOrUpdate D w).err = none) :
    ∃ secret gvk,
      (ReconcileAzureWorkloadIdentitySecret D log w).2.cluster.findSecret (azureSecretKey D w)
        = some secret ∧
      w.r.Scheme = some gvk ∧
      secret.OwnerReferences
        = upsertOwnerRef (controllerRef w.r.dpa gvk) (storedOwners w.cluster (azureSecretKey D w)) ∧
      controllerRef w.r.dpa gvk ∈ secret.OwnerReferences ∧
      (controllerRef w.r.dpa gvk).Name = w.r.dpa.Name ∧
      (controllerRef w.r.dpa gvk).UID = w.r.dpa.UID ∧
      (controllerRef w.r.dpa gvk).Controller = some true ∧
      (storedOwners w.cluster (azureSecretKey D w) = [] →
        secret.OwnerReferences = [controllerRef w.r.dpa gvk]) := by
  obtain ⟨-, base, obj2, secret, hf, hstored, hcases⟩ := azure_step_stored D log w hc ht hs hok
  unfold azureSecretMutateFn at hf
  obtain ⟨gvk, hscheme, hown⟩ := SetControllerReference_owners _ _ _ _ hf
  simp only at hown
  have hsec : secret.OwnerReferences = obj2.OwnerReferences := by
    rcases hcases with ⟨-, -, hso⟩ | ⟨-, hso | ⟨hsb, heq⟩⟩
    · rw [hso]
    · rw [hso]
    · rw [hsb]
      simp only [Secret.deepEqual, Bool.and_eq_true, beq_iff_eq] at heq
      exact heq.1.2
  have hprior : base.OwnerReferences = storedOwners w.cluster (azureSecretKey D w) := by
    rcases hcases with ⟨hnone, hb, -⟩ | ⟨hsome, -⟩
    · simp [storedOwners, hnone, hb]
    · simp [storedOwners, hsome]
  have hrefs : secret.OwnerReferences
      = upsertOwnerRef (controllerRef w.r.dpa gvk) (storedOwners w.cluster (azureSecretKey D w)) := by
    rw [hsec, hown, hprior]
  refine ⟨secret, gvk, hstored, hscheme, hrefs, ?_, rfl, rfl, rfl, ?_⟩
  · rw [hrefs]
    exact mem_upsertOwnerRef _ _
  · intro hempty
    rw [hrefs, hempty]
    rfl

/-- C12 amended, at the test case "Azure STS credentials present": no secret stored
before, one owner reference after. -/
theorem ReconcileAzureWorkloadIdentitySecret_owner_reference_witness :
    (stepWorld azureEnv).Getenv testDeclarations.ClientIDEnvKey ≠ "" ∧
    (stepWorld azureEnv).Getenv testDeclarations.TenantIDEnvKey ≠ "" ∧
    (stepWorld azureEnv).Getenv testDeclarations.SubscriptionIDEnvKey ≠ "" ∧
    (azureCreateOrUpdate testDeclarations (stepWorld azureEnv)).err = none ∧
    ∃ secret gvk,
      (ReconcileAzureWorkloadIdentitySecret testDeclarations ⟨none, []⟩
        (stepWorld azureEnv)).2.cluster.findSecret
          (azureSecretKey testDeclarations (stepWorld azureEnv)) = some secret ∧
      (stepWorld azureEnv).r.Scheme = some gvk ∧
      secret.OwnerReferences
        = upsertOwnerRef (controllerRef (stepWorld azureEnv).r.dpa gvk)
            (storedOwners (stepWorld azureEnv).cluster
              (azureSecretKey testDeclarations (stepWorld azureEnv))) ∧
      controllerRef (stepWorld azureEnv).r.dpa gvk ∈ secret.OwnerReferences ∧
      (controllerRef (stepWorld azureEnv).r.dpa gvk).Name = (stepWorld azureEnv).r.dpa.Name ∧
      (controllerRef (stepWorld azureEnv).r.dpa gvk).UID = (stepWorld azureEnv).r.dpa.UID ∧
      (controllerRef (stepWorld azureEnv).r.dpa gvk).Controller = some true ∧
      (storedOwners (stepWorld azureEnv).cluster
          (azureSecretKey testDeclarations (stepWorld azureEnv)) = [] →
        secret.OwnerReferences = [controllerRef (stepWorld azureEnv).r.dpa gvk]) :=
  ⟨by decide, by decide, by decide, rfl,
    ReconcileAzureWorkloadIdentitySecret_owner_reference testDeclarations ⟨none, []⟩
      (stepWorld azureEnv) (by decide) (by decide) (by decide) rfl⟩

/-- C13: ReconcileAzureWorkloadIdentitySecret records exactly one event, for the secret,
when the create-or-update reports created or updated, and none when it reports an
unchanged secret, when it fails, or when the configuration is incomplete; when the
create-or-update fails with err the step returns (false, err). -/
theorem ReconcileAzureWorkloadIdentitySecret_events {ω : Type}
    (D : Declarations) (log : Logger) (w : World ω) :
    ((w.Getenv D.ClientIDEnvKey = "" ∨ w.Getenv D.TenantIDEnvKey = "" ∨
        w.Getenv D.SubscriptionIDEnvKey = "") →
      (ReconcileAzureWorkloadIdentitySecret D log w).2.events = w.events) ∧
    (¬ (w.Getenv D.ClientIDEnvKey = "" ∨ w.Getenv D.TenantIDEnvKey = "" ∨
        w.Getenv D.SubscriptionIDEnvKey = "") →
      (∀ err, (azureCreateOrUpdate D w).err = some err →
        (ReconcileAzureWorkloadIdentitySecret D log w).1 = (false, some err) ∧
        (ReconcileAzureWorkloadIdentitySecret D log w).2.events = w.events) ∧
      ((azureCreateOrUpdate D w).err = none →
        (azureCreateOrUpdate D w).op = .OperationResultNone →
        (ReconcileAzureWorkloadIdentitySecret D log w).1 = (true, none) ∧
        (ReconcileAzureWorkloadIdentitySecret D log w).2.events = w.events) ∧
      ((azureCreateOrUpdate D w).err = none →
        ((azureCreateOrUpdate D w).op = .OperationResultCreated ∨
          (azureCreateOrUpdate D w).op = .OperationResultUpdated) →
        (ReconcileAzureWorkloadIdentitySecret D log w).1 = (true, none) ∧
        ∃ ev, (ReconcileAzureWorkloadIdentitySecret D log w).2.events = w.events ++ [ev] ∧
          ev.object = (azureCreateOrUpdate D w).obj.key ∧
          ev.reason = "AzureWorkloadIdentitySecretReconciled")) := by
  have hev := CreateOrUpdate_events w
    { Name := D.AzureWorkloadIdentitySecretName, Namespace := w.r.dpa.Namespace }
    (azureSecretMutateFn D w.r.dpa w.r.Scheme (w.Getenv D.ClientIDEnvKey)
      (w.Getenv D.TenantIDEnvKey))
  unfold azureCreateOrUpdate
  refine ⟨?_, ?_⟩
  · intro h
    unfold ReconcileAzureWorkloadIdentitySecret
    simp only [h, if_true]
  · intro hcond
    refine ⟨?_, ?_, ?_⟩
    · intro err herr
      unfold ReconcileAzureWorkloadIdentitySecret
      simp only [hcond, if_false, herr]
      exact ⟨trivial, hev⟩
    · intro hok hop
      unfold ReconcileAzureWorkloadIdentitySecret
      simp only [hcond, if_false, hok, hop]
      simp [hev]
    · intro hok hop
      unfold ReconcileAzureWorkloadIdentitySecret
      simp only [hcond, if_false, hok, hop, if_true]
      exact ⟨trivial, _, by rw [hev], rfl, rfl⟩

/-! ### The label-correlated watch handler -/

/-- C14: each of the four labelHandler event kinds, reading the event object (the new
object on Update), leaves the queue unchanged when the operator marker label or the
dataprotectionapplication.name label is absent or empty, and otherwise adds exactly one
request with the object's namespace and the name-label value as name; on Update the old
object never affects the outcome. -/
theorem labelHandler_enqueues_by_labels (OadpOperatorLabel : String) (obj old : ClientObject)
    (q : WorkQueue) :
    labelHandler.Create OadpOperatorLabel ⟨obj⟩ q = enqueueFor OadpOperatorLabel obj q ∧
    (∀ unknown, labelHandler.Delete OadpOperatorLabel ⟨obj, unknown⟩ q
      = enqueueFor OadpOperatorLabel obj q) ∧
    labelHandler.Update OadpOperatorLabel ⟨old, obj⟩ q = enqueueFor OadpOperatorLabel obj q ∧
    labelHandler.Generic OadpOperatorLabel ⟨obj⟩ q = enqueueFor OadpOperatorLabel obj q ∧
    ((obj.Labels.get? OadpOperatorLabel = none ∨ obj.Labels.get? OadpOperatorLabel = some "" ∨
        obj.Labels.get? "dataprotectionapplication.name" = none ∨
        obj.Labels.get? "dataprotectionapplication.name" = some "") →
      enqueueFor OadpOperatorLabel obj q = q) ∧
    (∀ marker name, obj.Labels.get? OadpOperatorLabel = some marker → marker ≠ "" →
        obj.Labels.get? "dataprotectionapplication.name" = some name → name ≠ "" →
      enqueueFor OadpOperatorLabel obj q = q ++ [⟨⟨obj.Namespace, name⟩⟩]) := by
  refine ⟨rfl, fun _ => rfl, rfl, rfl, ?_, ?_⟩
  · intro h
    have : obj.Labels.index OadpOperatorLabel = "" ∨
        obj.Labels.index "dataprotectionapplication.name" = "" := by
      rcases h with h | h | h | h
      · left; simp [GoMap.index, h]
      · left; simp [GoMap.index, h]
      · right; simp [GoMap.index, h]
      · right; simp [GoMap.index, h]
    simp [enqueueFor, this]
  · intro marker name hm hmne hn hnne
    have h1 : obj.Labels.index OadpOperatorLabel = marker := by simp [GoMap.index, hm]
    have h2 : obj.Labels.index "dataprotectionapplication.name" = name := by
      simp [GoMap.index, hn]
    simp [enqueueFor, h1, h2, hmne, hnne]

/-! ### The credential provisioner -/

theorem GoMap.get?_erase_self (m : GoMap) (k : String) : (m.erase k).get? k = none := by
  have h : (m.entries.filter (fun p => !(p.1 == k))).find? (fun p => p.1 == k) = none := by
    rw [List.find?_eq_none]
    intro p hp
    have := (List.mem_filter.1 hp).2
    simpa using this
  simp [GoMap.get?, GoMap.erase, h]

theorem find_filter_other (l : List (String × String)) (k k2 : String) (h : k2 ≠ k) :
    (l.filter (fun p => !(p.1 == k))).find? (fun p => p.1 == k2)
      = l.find? (fun p => p.1 == k2) := by
  induction l with
  | nil => rfl
  | cons p rest ih =>
    by_cases hp : p.1 = k
    · have hp2 : ¬ p.1 = k2 := fun e => h (e.symm.trans hp)
      simp [List.filter_cons, List.find?_cons, hp, hp2, ih, Ne.symm h]
    · by_cases hp2 : p.1 = k2
      · simp [List.filter_cons, hp2, h]
      · simp [List.filter_cons, hp, hp2, ih]

theorem GoMap.get?_erase_other (m : GoMap) (k k2 : String) (h : k2 ≠ k) :
    (m.erase k).get? k2 = m.get? k2 := by
  simp [GoMap.get?, GoMap.erase, find_filter_other _ _ _ h]

theorem GoMap.deepEqual_of_get? (a b : GoMap) (h : ∀ k, a.get? k = b.get? k) :
    a.deepEqual b = true := by
  simp [GoMap.deepEqual, h]

theorem applyStringData_get? (P : List (String × Option String)) (m : GoMap) (k : String)
    (v : Option String) (hv : ∀ e ∈ P, e.1 = k → e.2 = v) :
    (k ∈ P.map (fun e => e.1) → (applyStringData m P).get? k = v) ∧
    (k ∉ P.map (fun e => e.1) → (applyStringData m P).get? k = m.get? k) := by
  induction P generalizing m with
  | nil => simp [applyStringData]
  | cons e rest ih =>
    obtain ⟨k1, ov⟩ := e
    have hrest : ∀ e ∈ rest, e.1 = k → e.2 = v := fun e he => hv e (List.mem_cons_of_mem _ he)
    have hstep : ∀ m2 : GoMap, (k1 = k → m2.get? k = v) → (k1 ≠ k → m2.get? k = m.get? k) →
        (k ∈ ((k1, ov) :: rest).map (fun e => e.1) → (applyStringData m2 rest).get? k = v) ∧
        (k ∉ ((k1, ov) :: rest).map (fun e => e.1) →
          (applyStringData m2 rest).get? k = m.get? k) := by
      intro m2 hsame hother
      obtain ⟨ih1, ih2⟩ := ih m2 hrest
      constructor
      · intro hmem
        by_cases hin : k ∈ rest.map (fun e => e.1)
        · exact ih1 hin
        · rw [ih2 hin]
          simp only [List.map_cons, List.mem_cons] at hmem
          rcases hmem with hk | hk
          · exact hsame hk.symm
          · exact absurd hk hin
      · intro hmem
        simp only [List.map_cons, List.mem_cons, not_or] at hmem
        rw [ih2 hmem.2]
        exact hother (fun e => hmem.1 e.symm)
    cases ov with
    | some x =>
      have hx : k1 = k → some x = v := fun hk => hv (k1, some x) (List.mem_cons_self _ _) hk
      simp only [applyStringData]
      apply hstep
      · intro hk
        rw [← hk, GoMap.get?_set_self]
        exact hx hk
      · intro hk
        exact GoMap.get?_set_other _ _ _ _ (fun e => hk e.symm)
    | none =>
      have hx : k1 = k → none = v := fun hk => hv (k1, none) (List.mem_cons_self _ _) hk
      simp only [applyStringData]
      apply hstep
      · intro hk
        rw [← hk, GoMap.get?_erase_self]
        exact hx hk
      · intro hk
        exact GoMap.get?_erase_other _ _ _ (fun e => hk e.symm)

/-- Applying the changed entries to the current map gives the desired map, key by key. -/
theorem patched_get? (current desired : GoMap) (k : String) :
    (applyStringData current (changedStringData current desired)).get? k = desired.get? k := by
  have hv : ∀ e ∈ changedStringData current desired, e.1 = k → e.2 = desired.get? k := by
    intro e he hk
    simp only [changedStringData, List.mem_map, List.mem_filter] at he
    obtain ⟨k2, -, rfl⟩ := he
    simp only at hk
    rw [hk]
  obtain ⟨h1, h2⟩ := applyStringData_get? _ current k _ hv
  by_cases hin : k ∈ (changedStringData current desired).map (fun e => e.1)
  · exact h1 hin
  · rw [h2 hin]
    by_contra hne
    apply hin
    simp only [changedStringData, List.map_map, List.mem_map, List.mem_filter]
    refine ⟨k, ⟨?_, ?_⟩, rfl⟩
    · by_contra hmem
      rw [List.mem_append, not_or] at hmem
      have hd : desired.get? k = none := GoMap.get?_eq_none_of_not_mem _ _ hmem.1
      have hc : k ∉ current.keys := by
        intro hk
        exact hmem.2 (List.mem_filter.2 ⟨hk, by simp [hd]⟩)
      exact hne (by rw [hd, GoMap.get?_eq_none_of_not_mem _ _ hc])
    · simpa using hne

theorem find_patchSecret (key : NamespacedName) (p : MergePatch) (l : List ProvisionedSecret)
    (x : ProvisionedSecret) (h : l.find? (fun y => y.key == key) = some x) :
    (patchSecret key p l).find? (fun y => y.key == key)
      = some { x with StringData := applyStringData x.StringData p.stringData
                      Labels := applyLabels x.Labels p.labels } := by
  induction l with
  | nil => simp at h
  | cons y rest ih =>
    by_cases hy : y.key = key
    · have hk : ({ y with StringData := applyStringData y.StringData p.stringData
                          Labels := applyLabels y.Labels p.labels } : ProvisionedSecret).key
          = key := hy
      simp only [List.find?_cons, hy, beq_self_eq_true, Option.some.injEq] at h
      subst h
      simp [patchSecret, hy, hk]
    · have hb : (y.key == key) = false := by simp [hy]
      simp only [List.find?_cons, hb] at h
      simp [patchSecret, hy, ih h]

theorem sts_created (secretName : String) (desired : GoMap) (secretNS : String)
    (c : STSClient) (cs : Clientset) (wait : Bool) (st : STSState)
    (hg : c.failGet st.store ⟨secretNS, secretName⟩ = none)
    (hf : st.store.findSecret ⟨secretNS, secretName⟩ = none)
    (hc : c.failCreate st.store
      { Name := secretName, Namespace := secretNS, Labels := ⟨[secretTypeLabel]⟩,
        StringData := desired } = none) :
    CreateOrUpdateSTSSecretWithClientsAndWait secretName desired secretNS c cs wait st =
      (if wait then WaitForSecret cs ⟨secretNS, secretName⟩ else none,
        { store := { st.store with secrets := st.store.secrets ++
              [{ Name := secretName, Namespace := secretNS, Labels := ⟨[secretTypeLabel]⟩,
                 StringData := desired }] }
          calls := st.calls ++ [STSCall.get ⟨secretNS, secretName⟩] ++
            [STSCall.create { Name := secretName, Namespace := secretNS,
                              Labels := ⟨[secretTypeLabel]⟩, StringData := desired }] }) := by
  unfold CreateOrUpdateSTSSecretWithClientsAndWait
  simp only [hg, hf, hc]
  split <;> rfl

theorem sts_patched (secretName : String) (desired : GoMap) (secretNS : String)
    (c : STSClient) (cs : Clientset) (wait : Bool) (st : STSState) (current : ProvisionedSecret)
    (p : MergePatch)
    (hpdef : p = ⟨changedStringData current.StringData desired, [secretTypeLabel]⟩)
    (hg : c.failGet st.store ⟨secretNS, secretName⟩ = none)
    (hf : st.store.findSecret ⟨secretNS, secretName⟩ = some current)
    (heq : desired.deepEqual current.StringData = false)
    (hp : c.failPatch st.store ⟨secretNS, secretName⟩ p = none) :
    CreateOrUpdateSTSSecretWithClientsAndWait secretName desired secretNS c cs wait st =
      (if wait then WaitForSecret cs ⟨secretNS, secretName⟩ else none,
        { store := ⟨patchSecret ⟨secretNS, secretName⟩ p st.store.secrets,
                    st.store.serviceAccounts⟩
          calls := st.calls ++ [STSCall.get ⟨secretNS, secretName⟩] ++
            [STSCall.patch ⟨secretNS, secretName⟩ p] }) := by
  subst hpdef
  unfold CreateOrUpdateSTSSecretWithClientsAndWait
  simp only [hg, hf, heq, hp, Bool.false_eq_true, if_false]
  split <;> rfl

theorem sts_unchanged (secretName : String) (desired : GoMap) (secretNS : String)
    (c : STSClient) (cs : Clientset) (wait : Bool) (st : STSState) (current : ProvisionedSecret)
    (hg : c.failGet st.store ⟨secretNS, secretName⟩ = none)
    (hf : st.store.findSecret ⟨secretNS, secretName⟩ = some current)
    (heq : desired.deepEqual current.StringData = true) :
    CreateOrUpdateSTSSecretWithClientsAndWait secretName desired secretNS c cs wait st =
      (if wait then WaitForSecret cs ⟨secretNS, secretName⟩ else none,
        { st with calls := st.calls ++ [STSCall.get ⟨secretNS, secretName⟩] }) := by
  unfold CreateOrUpdateSTSSecretWithClientsAndWait
  simp only [hg, hf, heq, if_true]
  split <;> rfl

theorem sts_ok (secretName : String) (desired : GoMap) (secretNS : String)
    (c : STSClient) (cs : Clientset) (wait : Bool) (st : STSState)
    (h : (CreateOrUpdateSTSSecretWithClientsAndWait secretName desired secretNS c cs wait st).1
      = none) :
    ∃ stored,
      (CreateOrUpdateSTSSecretWithClientsAndWait secretName desired secretNS c cs wait
        st).2.store.findSecret ⟨secretNS, secretName⟩ = some stored ∧
      ∀ k, stored.StringData.get? k = desired.get? k := by
  cases hg : c.failGet st.store ⟨secretNS, secretName⟩ with
  | some e => simp [CreateOrUpdateSTSSecretWithClientsAndWait, hg] at h
  | none =>
    cases hf : st.store.findSecret ⟨secretNS, secretName⟩ with
    | none =>
      cases hc : c.failCreate st.store
          { Name := secretName, Namespace := secretNS, Labels := ⟨[secretTypeLabel]⟩,
            StringData := desired } with
      | some e => simp [CreateOrUpdateSTSSecretWithClientsAndWait, hg, hf, hc] at h
      | none =>
        rw [sts_created secretName desired secretNS c cs wait st hg hf hc]
        have hfound : (st.store.secrets ++
            [({ Name := secretName, Namespace := secretNS, Labels := ⟨[secretTypeLabel]⟩,
                StringData := desired } : ProvisionedSecret)]).find?
            (fun x => x.key == ⟨secretNS, secretName⟩)
            = some { Name := secretName, Namespace := secretNS,
                     Labels := ⟨[secretTypeLabel]⟩, StringData := desired } := by
          unfold STSStore.findSecret at hf
          rw [List.find?_append, hf]
          simp [ProvisionedSecret.key]
        exact ⟨_, hfound, fun k => rfl⟩
    | some current =>
      cases heq : desired.deepEqual current.StringData with
      | true =>
        rw [sts_unchanged secretName desired secretNS c cs wait st current hg hf heq]
        exact ⟨current, hf, fun k => (GoMap.get?_eq_of_deepEqual _ _ heq k).symm⟩
      | false =>
        cases hp : c.failPatch st.store ⟨secretNS, secretName⟩
            ⟨changedStringData current.StringData desired, [secretTypeLabel]⟩ with
        | some e => simp [CreateOrUpdateSTSSecretWithClientsAndWait, hg, hf, heq, hp] at h
        | none =>
          rw [sts_patched secretName desired secretNS c cs wait st current _ rfl hg hf heq hp]
          have hfound := find_patchSecret ⟨secretNS, secretName⟩
            ⟨changedStringData current.StringData desired, [secretTypeLabel]⟩
            st.store.secrets current hf
          exact ⟨_, hfound, fun k => patched_get? current.StringData desired k⟩

theorem sts_noop (secretName : String) (desired : GoMap) (secretNS : String)
    (c : STSClient) (cs : Clientset) (wait : Bool) (st : STSState) (stored : ProvisionedSecret)
    (hfound : st.store.findSecret ⟨secretNS, secretName⟩ = some stored)
    (hsame : ∀ k, stored.StringData.get? k = desired.get? k)
    (hget : c.failGet st.store ⟨secretNS, secretName⟩ = none) :
    CreateOrUpdateSTSSecretWithClientsAndWait secretName desired secretNS c cs wait st =
      (if wait then WaitForSecret cs ⟨secretNS, secretName⟩ else none,
        { st with calls := st.calls ++ [STSCall.get ⟨secretNS, secretName⟩] }) := by
  have heq : desired.deepEqual stored.StringData = true :=
    GoMap.deepEqual_of_get? _ _ (fun k => (hsame k).symm)
  unfold CreateOrUpdateSTSSecretWithClientsAndWait
  simp only [hget, hfound, heq, if_true]
  split <;> rfl

/-- C16: after a call of CreateOrUpdateSTSSecretWithClientsAndWait that returned no
error, a second call with the same name, namespace and desired map whose get the API
does not fail makes no create and no patch call (its only client call is the get),
leaves the store as it is, and returns no error, or, when asked to wait, what the wait
for visibility returns. -/
theorem CreateOrUpdateSTSSecret_second_call_writes_nothing (secretName : String)
    (desired : GoMap) (secretNS : String) (c : STSClient) (cs : Clientset)
    (wait1 wait2 : Bool) (st : STSState)
    (hfirst : (CreateOrUpdateSTSSecretWithClientsAndWait secretName desired secretNS c cs
      wait1 st).1 = none)
    (hget : c.failGet (CreateOrUpdateSTSSecretWithClientsAndWait secretName desired secretNS
      c cs wait1 st).2.store ⟨secretNS, secretName⟩ = none) :
    (CreateOrUpdateSTSSecretWithClientsAndWait secretName desired secretNS c cs wait2
        (CreateOrUpdateSTSSecretWithClientsAndWait secretName desired secretNS c cs wait1
          st).2).2.store
      = (CreateOrUpdateSTSSecretWithClientsAndWait secretName desired secretNS c cs wait1
          st).2.store ∧
    (CreateOrUpdateSTSSecretWithClientsAndWait secretName desired secretNS c cs wait2
        (CreateOrUpdateSTSSecretWithClientsAndWait secretName desired secretNS c cs wait1
          st).2).2.calls
      = (CreateOrUpdateSTSSecretWithClientsAndWait secretName desired secretNS c cs wait1
          st).2.calls ++ [STSCall.get ⟨secretNS, secretName⟩] ∧
    (((CreateOrUpdateSTSSecretWithClientsAndWait secretName desired secretNS c cs wait2
        (CreateOrUpdateSTSSecretWithClientsAndWait secretName desired secretNS c cs wait1
          st).2).2.calls.drop
        (CreateOrUpdateSTSSecretWithClientsAndWait secretName desired secretNS c cs wait1
          st).2.calls.length).filter STSCall.isWrite) = [] ∧
    (CreateOrUpdateSTSSecretWithClientsAndWait secretName desired secretNS c cs wait2
        (CreateOrUpdateSTSSecretWithClientsAndWait secretName desired secretNS c cs wait1
          st).2).1
      = (if wait2 then WaitForSecret cs ⟨secretNS, secretName⟩ else none) ∧
    (wait2 = false →
      (CreateOrUpdateSTSSecretWithClientsAndWait secretName desired secretNS c cs wait2
        (CreateOrUpdateSTSSecretWithClientsAndWait secretName desired secretNS c cs wait1
          st).2).1 = none) := by
  obtain ⟨stored, hfound, hsame⟩ := sts_ok secretName desired secretNS c cs wait1 st hfirst
  generalize (CreateOrUpdateSTSSecretWithClientsAndWait secretName desired secretNS c cs
    wait1 st).2 = st1 at hfound hget ⊢
  rw [sts_noop secretName desired secretNS c cs wait2 st1 stored hfound hsame hget]
  refine ⟨rfl, rfl, ?_, rfl, ?_⟩
  · simp [STSCall.isWrite]
  · intro hw
    simp [hw]

/-- C16 at the test case "Create new secret successfully", called twice. -/
theorem CreateOrUpdateSTSSecret_second_call_writes_nothing_witness :
    (CreateOrUpdateSTSSecretWithClientsAndWait "test-secret" scenarioDesired "test-namespace"
      fakeSTSClient fakeClientset false emptySTSState).1 = none ∧
    fakeSTSClient.failGet (CreateOrUpdateSTSSecretWithClientsAndWait "test-secret"
      scenarioDesired "test-namespace" fakeSTSClient fakeClientset false
      emptySTSState).2.store ⟨"test-namespace", "test-secret"⟩ = none ∧
    (CreateOrUpdateSTSSecretWithClientsAndWait "test-secret" scenarioDesired "test-namespace"
        fakeSTSClient fakeClientset false
        (CreateOrUpdateSTSSecretWithClientsAndWait "test-secret" scenarioDesired
          "test-namespace" fakeSTSClient fakeClientset false emptySTSState).2).2.store
      = (CreateOrUpdateSTSSecretWithClientsAndWait "test-secret" scenarioDesired
          "test-namespace" fakeSTSClient fakeClientset false emptySTSState).2.store ∧
    (CreateOrUpdateSTSSecretWithClientsAndWait "test-secret" scenarioDesired "test-namespace"
        fakeSTSClient fakeClientset false
        (CreateOrUpdateSTSSecretWithClientsAndWait "test-secret" scenarioDesired
          "test-namespace" fakeSTSClient fakeClientset false emptySTSState).2).2.calls
      = (CreateOrUpdateSTSSecretWithClientsAndWait "test-secret" scenarioDesired
          "test-namespace" fakeSTSClient fakeClientset false emptySTSState).2.calls
          ++ [STSCall.get ⟨"test-namespace", "test-secret"⟩] ∧
    (((CreateOrUpdateSTSSecretWithClientsAndWait "test-secret" scenarioDesired
        "test-namespace" fakeSTSClient fakeClientset false
        (CreateOrUpdateSTSSecretWithClientsAndWait "test-secret" scenarioDesired
          "test-namespace" fakeSTSClient fakeClientset false emptySTSState).2).2.calls.drop
        (CreateOrUpdateSTSSecretWithClientsAndWait "test-secret" scenarioDesired
          "test-namespace" fakeSTSClient fakeClientset false
          emptySTSState).2.calls.length).filter STSCall.isWrite) = [] ∧
    (CreateOrUpdateSTSSecretWithClientsAndWait "test-secret" scenarioDesired "test-namespace"
        fakeSTSClient fakeClientset false
        (CreateOrUpdateSTSSecretWithClientsAndWait "test-secret" scenarioDesired
          "test-namespace" fakeSTSClient fakeClientset false emptySTSState).2).1
      = (if false then WaitForSecret fakeClientset ⟨"test-namespace", "test-secret"⟩
          else none) ∧
    (false = false →
      (CreateOrUpdateSTSSecretWithClientsAndWait "test-secret" scenarioDesired
        "test-namespace" fakeSTSClient fakeClientset false
        (CreateOrUpdateSTSSecretWithClientsAndWait "test-secret" scenarioDesired
          "test-namespace" fakeSTSClient fakeClientset false emptySTSState).2).1 = none) :=
  ⟨rfl, rfl,
    CreateOrUpdateSTSSecret_second_call_writes_nothing "test-secret" scenarioDesired
      "test-namespace" fakeSTSClient fakeClientset false false emptySTSState rfl rfl⟩

/-- C17: for a stored secret and a desired map that differs from its stringData, with
an API that fails neither the get nor the patch, CreateOrUpdateSTSSecretWithClientsAndWait
makes exactly one patch call and no create call; afterwards the stored stringData
equals the desired map key by key and the secret carries the label
oadp.openshift.io/secret-type = sts-credentials. -/
theorem CreateOrUpdateSTSSecret_patches_once (secretName : String) (desired : GoMap)
    (secretNS : String) (c : STSClient) (cs : Clientset) (wait : Bool) (st : STSState)
    (current : ProvisionedSecret)
    (hfound : st.store.findSecret ⟨secretNS, secretName⟩ = some current)
    (hdiff : desired.deepEqual current.StringData = false)
    (hget : c.failGet st.store ⟨secretNS, secretName⟩ = none)
    (hpatch : ∀ p, c.failPatch st.store ⟨secretNS, secretName⟩ p = none) :
    (CreateOrUpdateSTSSecretWithClientsAndWait secretName desired secretNS c cs wait st).1
      = (if wait then WaitForSecret cs ⟨secretNS, secretName⟩ else none) ∧
    (((CreateOrUpdateSTSSecretWithClientsAndWait secretName desired secretNS c cs wait
        st).2.calls.drop st.calls.length).filter STSCall.isPatch).length = 1 ∧
    (((CreateOrUpdateSTSSecretWithClientsAndWait secretName desired secretNS c cs wait
        st).2.calls.drop st.calls.length).filter STSCall.isWrite).length = 1 ∧
    ∃ stored,
      (CreateOrUpdateSTSSecretWithClientsAndWait secretName desired secretNS c cs wait
        st).2.store.findSecret ⟨secretNS, secretName⟩ = some stored ∧
      (∀ k, stored.StringData.get? k = desired.get? k) ∧
      desired.deepEqual stored.StringData = true ∧
      stored.Labels.get? "oadp.openshift.io/secret-type" = some "sts-credentials" := by
  rw [sts_patched secretName desired secretNS c cs wait st current _ rfl hget hfound hdiff
    (hpatch _)]
  have hstored := find_patchSecret ⟨secretNS, secretName⟩
    ⟨changedStringData current.StringData desired, [secretTypeLabel]⟩
    st.store.secrets current hfound
  refine ⟨rfl, ?_, ?_, _, hstored, ?_, ?_, ?_⟩
  · simp [STSCall.isPatch]
  · simp [STSCall.isWrite]
  · intro k
    exact patched_get? current.StringData desired k
  · exact GoMap.deepEqual_of_get? _ _
      (fun k => (patched_get? current.StringData desired k).symm)
  · simp only [applyLabels, secretTypeLabel]
    exact GoMap.get?_set_self _ _ _

/-- C17 at the scenario of the specification: stored k1=old1, k2=old2; desired k1=old1,
k2=new2, k3=v3. -/
theorem CreateOrUpdateSTSSecret_patches_once_witness :
    scenarioState.store.findSecret ⟨"test-namespace", "test-secret"⟩
      = some { Name := "test-secret", Namespace := "test-namespace",
               StringData := ⟨[("k1", "old1"), ("k2", "old2")]⟩ } ∧
    scenarioDesired.deepEqual
      ({ Name := "test-secret", Namespace := "test-namespace",
         StringData := ⟨[("k1", "old1"), ("k2", "old2")]⟩ } : ProvisionedSecret).StringData
      = false ∧
    fakeSTSClient.failGet scenarioState.store ⟨"test-namespace", "test-secret"⟩ = none ∧
    (∀ p, fakeSTSClient.failPatch scenarioState.store ⟨"test-namespace", "test-secret"⟩ p
      = none) ∧
    (CreateOrUpdateSTSSecretWithClientsAndWait "test-secret" scenarioDesired "test-namespace"
        fakeSTSClient fakeClientset false scenarioState).1
      = (if false then WaitForSecret fakeClientset ⟨"test-namespace", "test-secret"⟩
          else none) ∧
    (((CreateOrUpdateSTSSecretWithClientsAndWait "test-secret" scenarioDesired
        "test-namespace" fakeSTSClient fakeClientset false
        scenarioState).2.calls.drop scenarioState.calls.length).filter
          STSCall.isPatch).length = 1 ∧
    (((CreateOrUpdateSTSSecretWithClientsAndWait "test-secret" scenarioDesired
        "test-namespace" fakeSTSClient fakeClientset false
        scenarioState).2.calls.drop scenarioState.calls.length).filter
          STSCall.isWrite).length = 1 ∧
    ∃ stored,
      (CreateOrUpdateSTSSecretWithClientsAndWait "test-secret" scenarioDesired
        "test-namespace" fakeSTSClient fakeClientset false
        scenarioState).2.store.findSecret ⟨"test-namespace", "test-secret"⟩ = some stored ∧
      (∀ k, stored.StringData.get? k = scenarioDesired.get? k) ∧
      scenarioDesired.deepEqual stored.StringData = true ∧
      stored.Labels.get? "oadp.openshift.io/secret-type" = some "sts-credentials" :=
  ⟨rfl, rfl, rfl, fun _ => rfl,
    CreateOrUpdateSTSSecret_patches_once "test-secret" scenarioDesired "test-namespace"
      fakeSTSClient fakeClientset false scenarioState _ rfl rfl rfl (fun _ => rfl)⟩

theorem sts_first_call (secretName : String) (desired : GoMap) (secretNS : String)
    (c : STSClient) (cs : Clientset) (wait : Bool) (st : STSState) :
    ∃ rest, (CreateOrUpdateSTSSecretWithClientsAndWait secretName desired secretNS c cs wait
      st).2.calls = st.calls ++ STSCall.get ⟨secretNS, secretName⟩ :: rest := by
  cases hg : c.failGet st.store ⟨secretNS, secretName⟩ with
  | some e => exact ⟨[], by simp [CreateOrUpdateSTSSecretWithClientsAndWait, hg]⟩
  | none =>
    cases hf : st.store.findSecret ⟨secretNS, secretName⟩ with
    | none =>
      refine ⟨[STSCall.create ⟨secretName, secretNS, ⟨[secretTypeLabel]⟩, desired, none⟩], ?_⟩
      cases hc : c.failCreate st.store
          { Name := secretName, Namespace := secretNS, Labels := ⟨[secretTypeLabel]⟩,
            StringData := desired } with
      | some e => simp [CreateOrUpdateSTSSecretWithClientsAndWait, hg, hf, hc]
      | none =>
        rw [sts_created secretName desired secretNS c cs wait st hg hf hc]
        simp
    | some current =>
      cases heq : desired.deepEqual current.StringData with
      | true =>
        rw [sts_unchanged secretName desired secretNS c cs wait st current hg hf heq]
        exact ⟨[], rfl⟩
      | false =>
        refine ⟨[STSCall.patch ⟨secretNS, secretName⟩
          ⟨changedStringData current.StringData desired, [secretTypeLabel]⟩], ?_⟩
        cases hp : c.failPatch st.store ⟨secretNS, secretName⟩
            ⟨changedStringData current.StringData desired, [secretTypeLabel]⟩ with
        | some e => simp [CreateOrUpdateSTSSecretWithClientsAndWait, hg, hf, heq, hp]
        | none =>
          rw [sts_patched secretName desired secretNS c cs wait st current _ rfl hg hf heq hp]
          simp

theorem annotate_calls_prefix (D : STSDeclarations) (clientID secretNS : String)
    (c : STSClient) (st : STSState) :
    ∃ rest, (AnnotateVeleroServiceAccountForAzureWithClient D clientID secretNS c st).2.calls
      = st.calls ++ rest := by
  unfold AnnotateVeleroServiceAccountForAzureWithClient
  split
  · exact ⟨[], by simp⟩
  · dsimp only
    split
    · exact ⟨_, rfl⟩
    · split
      · exact ⟨_, rfl⟩
      · split
        · exact ⟨_, List.append_assoc _ _ _⟩
        · exact ⟨_, List.append_assoc _ _ _⟩

/-- C15: provider selection follows the fixed priority AWS, GCP, Azure: AWS when the
role ARN is non-empty; else GCP when service-account email, project number, pool id and
provider id are all non-empty; else Azure when client id, tenant id and subscription id
are all non-empty; else none, and then the flow returns no secret name and no error and
leaves store and call record as they were.  A selected provider is the one the flow
materializes: its first client call is the get of that provider's secret. -/
theorem selectProvider_priority (D : STSDeclarations) (cfg : STSConfig) (c : STSClient)
    (cs : Clientset) (wait : Bool) (st : STSState) :
    (cfg.RoleARN ≠ "" → selectProvider cfg = some CloudProvider.AWS) ∧
    (cfg.RoleARN = "" → cfg.gcpComplete → selectProvider cfg = some CloudProvider.GCP) ∧
    (cfg.RoleARN = "" → ¬ cfg.gcpComplete → cfg.azureComplete →
      selectProvider cfg = some CloudProvider.Azure) ∧
    (cfg.RoleARN = "" → ¬ cfg.gcpComplete → ¬ cfg.azureComplete → selectProvider cfg = none) ∧
    (selectProvider cfg = none → STSStandardizedFlow D cfg c cs wait st = (("", none), st)) ∧
    (∀ provider, selectProvider cfg = some provider →
      ∃ rest, (STSStandardizedFlow D cfg c cs wait st).2.calls
        = st.calls ++ STSCall.get ⟨cfg.WatchNamespace, D.secretName provider⟩ :: rest) := by
  refine ⟨?_, ?_, ?_, ?_, ?_, ?_⟩
  · intro h
    simp [selectProvider, h]
  · intro h hg
    simp [selectProvider, h, hg]
  · intro h hg ha
    simp [selectProvider, h, hg, ha]
  · intro h hg ha
    simp [selectProvider, h, hg, ha]
  · intro h
    simp [STSStandardizedFlow, h]
  · intro provider h
    obtain ⟨rest, hrest⟩ := sts_first_call (D.secretName provider)
      (credStringData D cfg provider) cfg.WatchNamespace c cs wait st
    unfold STSStandardizedFlow
    simp only [h]
    split
    · exact ⟨rest, hrest⟩
    · split
      · obtain ⟨rest2, hrest2⟩ := annotate_calls_prefix D cfg.ClientID cfg.WatchNamespace c
          (CreateOrUpdateSTSSecretWithClientsAndWait (D.secretName CloudProvider.Azure)
            (credStringData D cfg CloudProvider.Azure) cfg.WatchNamespace c cs wait st).2
        refine ⟨rest ++ rest2, ?_⟩
        simp only
        rw [hrest2, hrest]
        simp
      · exact ⟨rest, hrest⟩

theorem replaceServiceAccount_self (sa : ServiceAccount) (l : List ServiceAccount)
    (h : l.find? (fun x => x.key == sa.key) = some sa) : replaceServiceAccount sa l = l := by
  induction l with
  | nil => rfl
  | cons x rest ih =>
    by_cases hx : x.key = sa.key
    · simp only [List.find?_cons, hx, beq_self_eq_true, Option.some.injEq] at h
      subst h
      simp [replaceServiceAccount]
    · have hb : (x.key == sa.key) = false := by simp [hx]
      simp only [List.find?_cons, hb] at h
      simp [replaceServiceAccount, hx, ih h]

theorem find_replaceServiceAccount_other (obj : ServiceAccount) (l : List ServiceAccount)
    (key : NamespacedName) (h : key ≠ obj.key) :
    (replaceServiceAccount obj l).find? (fun x => x.key == key)
      = l.find? (fun x => x.key == key) := by
  induction l with
  | nil => rfl
  | cons x rest ih =>
    by_cases hx : x.key = obj.key
    · have hb1 : (x.key == key) = false := by
        rw [hx]
        simpa using fun h2 => h h2.symm
      have hb2 : (obj.key == key) = false := by simpa using fun h2 => h h2.symm
      simp only [replaceServiceAccount, hx, beq_self_eq_true, if_true, List.find?_cons, hb1, hb2]
    · have hb : (x.key == obj.key) = false := by simp [hx]
      simp only [replaceServiceAccount, hb, Bool.false_eq_true, if_false, List.find?_cons, ih]

theorem find_replaceServiceAccount_self (obj old : ServiceAccount) (l : List ServiceAccount)
    (h : l.find? (fun x => x.key == obj.key) = some old) :
    (replaceServiceAccount obj l).find? (fun x => x.key == obj.key) = some obj := by
  induction l with
  | nil => simp at h
  | cons x rest ih =>
    by_cases hx : x.key = obj.key
    · simp only [replaceServiceAccount, hx, beq_self_eq_true, if_true, List.find?_cons]
    · have hb : (x.key == obj.key) = false := by simp [hx]
      simp only [List.find?_cons, hb] at h
      simp only [replaceServiceAccount, hb, Bool.false_eq_true, if_false, List.find?_cons, ih h]

/-- What the annotation leaves behind for a non-empty client id: either the store as it
was (the get failed, the account was not found, or the update failed), or the store in
which the fetched account `sa` is replaced by `sa` with the client-id annotation set. -/
theorem annotate_store (D : STSDeclarations) (clientID secretNS : String) (c : STSClient)
    (st : STSState) (hid : clientID ≠ "") :
    (AnnotateVeleroServiceAccountForAzureWithClient D clientID secretNS c st).1 = none ∧
    ((AnnotateVeleroServiceAccountForAzureWithClient D clientID secretNS c st).2.store = st.store ∨
      ∃ sa, st.store.findServiceAccount ⟨secretNS, "velero"⟩ = some sa ∧
        c.failGetServiceAccount st.store ⟨secretNS, "velero"⟩ = none ∧
        c.failUpdateServiceAccount st.store (sa.withClientID D clientID) = none ∧
        (AnnotateVeleroServiceAccountForAzureWithClient D clientID secretNS c st).2.store
          = ⟨st.store.secrets,
              replaceServiceAccount (sa.withClientID D clientID) st.store.serviceAccounts⟩) := by
  cases hg : c.failGetServiceAccount st.store ⟨secretNS, "velero"⟩ with
  | some e =>
    have hrun : (AnnotateVeleroServiceAccountForAzureWithClient D clientID secretNS c st).1
          = none ∧
        (AnnotateVeleroServiceAccountForAzureWithClient D clientID secretNS c st).2.store
          = st.store := by
      simp [AnnotateVeleroServiceAccountForAzureWithClient, hid, hg]
    exact ⟨hrun.1, Or.inl hrun.2⟩
  | none =>
    cases hf : st.store.findServiceAccount ⟨secretNS, "velero"⟩ with
    | none =>
      have hrun : (AnnotateVeleroServiceAccountForAzureWithClient D clientID secretNS c st).1
            = none ∧
          (AnnotateVeleroServiceAccountForAzureWithClient D clientID secretNS c st).2.store
            = st.store := by
        simp [AnnotateVeleroServiceAccountForAzureWithClient, hid, hg, hf]
      exact ⟨hrun.1, Or.inl hrun.2⟩
    | some sa =>
      cases hu : c.failUpdateServiceAccount st.store (sa.withClientID D clientID) with
      | some e =>
        have hrun : (AnnotateVeleroServiceAccountForAzureWithClient D clientID secretNS c
              st).1 = none ∧
            (AnnotateVeleroServiceAccountForAzureWithClient D clientID secretNS c st).2.store
              = st.store := by
          simp [AnnotateVeleroServiceAccountForAzureWithClient, hid, hg, hf, hu]
        exact ⟨hrun.1, Or.inl hrun.2⟩
      | none =>
        have hrun : (AnnotateVeleroServiceAccountForAzureWithClient D clientID secretNS c
              st).1 = none ∧
            (AnnotateVeleroServiceAccountForAzureWithClient D clientID secretNS c st).2.store
              = ⟨st.store.secrets,
                  replaceServiceAccount (sa.withClientID D clientID)
                    st.store.serviceAccounts⟩ := by
          simp [AnnotateVeleroServiceAccountForAzureWithClient, hid, hg, hf, hu]
        exact ⟨hrun.1, Or.inr ⟨sa, rfl, rfl, hu, hrun.2⟩⟩

/-- The account stored under the key of `velero` once the annotated account has
replaced the fetched one, and the accounts under every other key. -/
theorem find_annotated (D : STSDeclarations) (clientID secretNS : String) (store : STSStore)
    (sa : ServiceAccount) (hsa : store.findServiceAccount ⟨secretNS, "velero"⟩ = some sa) :
    (⟨store.secrets, replaceServiceAccount (sa.withClientID D clientID)
        store.serviceAccounts⟩ : STSStore).findServiceAccount ⟨secretNS, "velero"⟩
      = some (sa.withClientID D clientID) ∧
    ∀ key, key ≠ ⟨secretNS, "velero"⟩ →
      (⟨store.secrets, replaceServiceAccount (sa.withClientID D clientID)
          store.serviceAccounts⟩ : STSStore).findServiceAccount key
        = store.findServiceAccount key := by
  have hk : (sa.withClientID D clientID).key = ⟨secretNS, "velero"⟩ := by
    have := List.find?_some hsa
    simpa [ServiceAccount.withClientID, ServiceAccount.key] using this
  constructor
  · have h := find_replaceServiceAccount_self (sa.withClientID D clientID) sa
      store.serviceAccounts (by rw [hk]; exact hsa)
    rw [hk] at h
    exact h
  · intro key hne
    have h := find_replaceServiceAccount_other (sa.withClientID D clientID)
      store.serviceAccounts key (by rw [hk]; exact hne)
    exact h

/-- C18, refuted: on a service account that already carries a client-id annotation
with another value, the call with a non-empty client id returns no error and replaces
that pre-existing annotation; the other annotation stays. -/
theorem AnnotateVeleroServiceAccount_replaces_client_id :
    (staleClientIDState.store.findServiceAccount ⟨"test-namespace", "velero"⟩).bind
        (fun sa => sa.Annotations.get? testSTSDeclarations.ClientIDAnnotationKey)
      = some "old-client-id" ∧
    (AnnotateVeleroServiceAccountForAzureWithClient testSTSDeclarations "test-client-id"
      "test-namespace" fakeSTSClient staleClientIDState).1 = none ∧
    ((AnnotateVeleroServiceAccountForAzureWithClient testSTSDeclarations "test-client-id"
      "test-namespace" fakeSTSClient staleClientIDState).2.store.findServiceAccount
        ⟨"test-namespace", "velero"⟩).bind
        (fun sa => sa.Annotations.get? testSTSDeclarations.ClientIDAnnotationKey)
      = some "test-client-id" ∧
    ((AnnotateVeleroServiceAccountForAzureWithClient testSTSDeclarations "test-client-id"
      "test-namespace" fakeSTSClient staleClientIDState).2.store.findServiceAccount
        ⟨"test-namespace", "velero"⟩).bind
        (fun sa => sa.Annotations.get? "existing-annotation")
      = some "existing-value" := by
  refine ⟨rfl, rfl, rfl, rfl⟩

/-- C18, amended: AnnotateVeleroServiceAccountForAzureWithClient returns an error for
an empty client id without any client call, so before any write.  For every non-empty
client id it returns no error, whatever the client does: also when the service account
velero does not exist (then its only call is the get and the store is as it was), when
the get fails and when the update fails.  It never touches a secret, and it leaves every
annotation under a key other than the client-id annotation key, and every annotation of
every other service account, unchanged; the client-id annotation of velero is either
left as it was or, when get and update succeed, set to the client id, replacing a value
it had. -/
theorem AnnotateVeleroServiceAccount_contract (D : STSDeclarations)
    (clientID secretNS : String) (c : STSClient) (st : STSState) :
    (clientID = "" →
      (AnnotateVeleroServiceAccountForAzureWithClient D clientID secretNS c st).1 ≠ none ∧
      (AnnotateVeleroServiceAccountForAzureWithClient D clientID secretNS c st).2 = st) ∧
    (clientID ≠ "" →
      (AnnotateVeleroServiceAccountForAzureWithClient D clientID secretNS c st).1 = none) ∧
    (clientID ≠ "" → st.store.findServiceAccount ⟨secretNS, "velero"⟩ = none →
      (AnnotateVeleroServiceAccountForAzureWithClient D clientID secretNS c st).2
        = ⟨st.store, st.calls ++ [STSCall.getServiceAccount ⟨secretNS, "velero"⟩]⟩) ∧
    (AnnotateVeleroServiceAccountForAzureWithClient D clientID secretNS c st).2.store.secrets
      = st.store.secrets ∧
    (∀ key k, key ≠ ⟨secretNS, "velero"⟩ ∨ k ≠ D.ClientIDAnnotationKey →
      ((AnnotateVeleroServiceAccountForAzureWithClient D clientID secretNS c
          st).2.store.findServiceAccount key).map (fun sa => sa.Annotations.get? k)
        = (st.store.findServiceAccount key).map (fun sa => sa.Annotations.get? k)) ∧
    (((AnnotateVeleroServiceAccountForAzureWithClient D clientID secretNS c
          st).2.store.findServiceAccount ⟨secretNS, "velero"⟩).map
          (fun sa => sa.Annotations.get? D.ClientIDAnnotationKey)
        = (st.store.findServiceAccount ⟨secretNS, "velero"⟩).map
          (fun sa => sa.Annotations.get? D.ClientIDAnnotationKey) ∨
      ((AnnotateVeleroServiceAccountForAzureWithClient D clientID secretNS c
          st).2.store.findServiceAccount ⟨secretNS, "velero"⟩).map
          (fun sa => sa.Annotations.get? D.ClientIDAnnotationKey)
        = some (some clientID)) ∧
    (∀ sa, clientID ≠ "" → st.store.findServiceAccount ⟨secretNS, "velero"⟩ = some sa →
      c.failGetServiceAccount st.store ⟨secretNS, "velero"⟩ = none →
      c.failUpdateServiceAccount st.store (sa.withClientID D clientID) = none →
      ((AnnotateVeleroServiceAccountForAzureWithClient D clientID secretNS c
          st).2.store.findServiceAccount ⟨secretNS, "velero"⟩).map
          (fun sa => sa.Annotations.get? D.ClientIDAnnotationKey)
        = some (some clientID)) := by
  have hempty : clientID = "" →
      AnnotateVeleroServiceAccountForAzureWithClient D clientID secretNS c st
        = (some ⟨"client ID is required for Azure workload identity annotation"⟩, st) := by
    intro h
    simp [AnnotateVeleroServiceAccountForAzureWithClient, h]
  have hset : ∀ sa : ServiceAccount,
      (sa.withClientID D clientID).Annotations.get? D.ClientIDAnnotationKey
        = some clientID := by
    intro sa
    exact GoMap.get?_set_self _ _ _
  have hkeep : ∀ (sa : ServiceAccount) (k : String), k ≠ D.ClientIDAnnotationKey →
      (sa.withClientID D clientID).Annotations.get? k = sa.Annotations.get? k := by
    intro sa k hk
    exact GoMap.get?_set_other _ _ _ _ hk
  have hstore : clientID ≠ "" →
      (AnnotateVeleroServiceAccountForAzureWithClient D clientID secretNS c st).2.store.secrets
        = st.store.secrets ∧
      (∀ key k, key ≠ ⟨secretNS, "velero"⟩ ∨ k ≠ D.ClientIDAnnotationKey →
        ((AnnotateVeleroServiceAccountForAzureWithClient D clientID secretNS c
            st).2.store.findServiceAccount key).map (fun sa => sa.Annotations.get? k)
          = (st.store.findServiceAccount key).map (fun sa => sa.Annotations.get? k)) ∧
      (((AnnotateVeleroServiceAccountForAzureWithClient D clientID secretNS c
            st).2.store.findServiceAccount ⟨secretNS, "velero"⟩).map
            (fun sa => sa.Annotations.get? D.ClientIDAnnotationKey)
          = (st.store.findServiceAccount ⟨secretNS, "velero"⟩).map
            (fun sa => sa.Annotations.get? D.ClientIDAnnotationKey) ∨
        ((AnnotateVeleroServiceAccountForAzureWithClient D clientID secretNS c
            st).2.store.findServiceAccount ⟨secretNS, "velero"⟩).map
            (fun sa => sa.Annotations.get? D.ClientIDAnnotationKey)
          = some (some clientID)) := by
    intro hid
    rcases (annotate_store D clientID secretNS c st hid).2 with hsame | ⟨sa, hsa, -, -, hnew⟩
    · rw [hsame]
      exact ⟨rfl, fun _ _ _ => rfl, Or.inl rfl⟩
    · rw [hnew]
      obtain ⟨hself, hothers⟩ := find_annotated D clientID secretNS st.store sa hsa
      refine ⟨rfl, ?_, ?_⟩
      · intro key k hor
        by_cases hkeq : key = ⟨secretNS, "velero"⟩
        · have hkne : k ≠ D.ClientIDAnnotationKey := by
            rcases hor with h | h
            · exact absurd hkeq h
            · exact h
          rw [hkeq, hself, hsa]
          simp only [Option.map_some']
          rw [hkeep sa k hkne]
        · rw [hothers key hkeq]
      · right
        rw [hself]
        simp only [Option.map_some']
        rw [hset]
  refine ⟨?_, ?_, ?_, ?_, ?_, ?_, ?_⟩
  · intro h
    rw [hempty h]
    exact ⟨by simp, rfl⟩
  · intro h
    exact (annotate_store D clientID secretNS c st h).1
  · intro h hnone
    unfold AnnotateVeleroServiceAccountForAzureWithClient
    simp only [h, if_false, hnone]
    split <;> rfl
  · by_cases h : clientID = ""
    · rw [hempty h]
    · exact (hstore h).1
  · by_cases h : clientID = ""
    · intro key k _
      rw [hempty h]
    · exact (hstore h).2.1
  · by_cases h : clientID = ""
    · left
      rw [hempty h]
    · exact (hstore h).2.2
  · intro sa hid hsa hg hu
    have hres : (AnnotateVeleroServiceAccountForAzureWithClient D clientID secretNS c
        st).2.store = ⟨st.store.secrets,
          replaceServiceAccount (sa.withClientID D clientID) st.store.serviceAccounts⟩ := by
      simp [AnnotateVeleroServiceAccountForAzureWithClient, hid, hg, hsa, hu]
    rw [hres, (find_annotated D clientID secretNS st.store sa hsa).1]
    simp only [Option.map_some']
    rw [hset]

/-- C18 amended, at the test's service account with one existing annotation: the call
succeeds, sets the client-id annotation and keeps the existing one; and through a client
whose service-account calls all fail it still returns no error and changes nothing. -/
theorem AnnotateVeleroServiceAccount_contract_witness :
    ("test-client-id" : String) ≠ "" ∧
    annotatedState.store.findServiceAccount ⟨"test-namespace", "velero"⟩
      = some ⟨"velero", "test-namespace", ⟨[("existing-annotation", "existing-value")]⟩⟩ ∧
    ((AnnotateVeleroServiceAccountForAzureWithClient testSTSDeclarations "test-client-id"
        "test-namespace" fakeSTSClient annotatedState).2.store.findServiceAccount
          ⟨"test-namespace", "velero"⟩).map
          (fun sa => sa.Annotations.get? testSTSDeclarations.ClientIDAnnotationKey)
      = some (some "test-client-id") ∧
    ((AnnotateVeleroServiceAccountForAzureWithClient testSTSDeclarations "test-client-id"
        "test-namespace" fakeSTSClient annotatedState).2.store.findServiceAccount
          ⟨"test-namespace", "velero"⟩).map
          (fun sa => sa.Annotations.get? "existing-annotation")
      = some (some "existing-value") ∧
    (AnnotateVeleroServiceAccountForAzureWithClient testSTSDeclarations "test-client-id"
        "test-namespace" failingServiceAccountClient annotatedState).1 = none ∧
    (AnnotateVeleroServiceAccountForAzureWithClient testSTSDeclarations "test-client-id"
        "test-namespace" failingServiceAccountClient annotatedState).2.store
      = annotatedState.store ∧
    (AnnotateVeleroServiceAccountForAzureWithClient testSTSDeclarations ""
        "test-namespace" fakeSTSClient annotatedState).1 ≠ none :=
  ⟨by decide, rfl,
    (AnnotateVeleroServiceAccount_contract testSTSDeclarations "test-client-id"
      "test-namespace" fakeSTSClient annotatedState).2.2.2.2.2.2 _ (by decide) rfl rfl rfl,
    rfl,
    (AnnotateVeleroServiceAccount_contract testSTSDeclarations "test-client-id"
      "test-namespace" failingServiceAccountClient annotatedState).2.1 (by decide),
    rfl, by decide⟩

/-! ### Cloud storage adapters -/

/-- C19: for AzureProvider.UploadTest and GCPProvider.UploadTest and a config whose file
size parses to n bytes: when n > 200*1024*1024 = 209715200 the call returns speed 0,
duration 0 and a non-nil error with no effect at all (no payload allocated, no upload
call); when n <= 209715200 the size check lets the request through: for n >= 0 the
payload of n bytes is allocated and the upload call is made, and a negative n reaches
the allocation, which panics. -/
theorem UploadTest_size_cap (envA : AzureUploadEnv) (envG : GCPUploadEnv) (ctx : Context)
    (config : UploadSpeedTestConfig) (bucket : String) (n : Int)
    (hA : envA.ParseFileSize config.FileSize = .ok n)
    (hG : envG.ParseFileSize config.FileSize = .ok n) :
    maxTestSizeBytesAzure = 209715200 ∧
    (n > 209715200 →
      (∃ e, AzureProvider.UploadTest envA ctx config bucket
        = (UploadOutcome.returned 0 0 (some e), [])) ∧
      (∃ e, GCPProvider.UploadTest envG ctx config bucket
        = (UploadOutcome.returned 0 0 (some e), []))) ∧
    (n ≤ 209715200 → 0 ≤ n →
      (∃ timeout key, (AzureProvider.UploadTest envA ctx config bucket).2
        = [UploadEffect.allocate n, UploadEffect.uploadBuffer timeout bucket key n]) ∧
      (∃ timeout object, (GCPProvider.UploadTest envG ctx config bucket).2
        = [UploadEffect.allocate n, UploadEffect.write timeout bucket object n,
            UploadEffect.close])) ∧
    (n < 0 →
      (∃ reason, AzureProvider.UploadTest envA ctx config bucket
        = (UploadOutcome.panicked reason, [])) ∧
      (∃ reason, GCPProvider.UploadTest envG ctx config bucket
        = (UploadOutcome.panicked reason, []))) := by
  have hmax : maxTestSizeBytesAzure = 209715200 := by decide
  refine ⟨hmax, ?_, ?_, ?_⟩
  · intro hn
    have hn2 : n > 200 * 1024 * 1024 := by omega
    constructor
    · unfold AzureProvider.UploadTest
      simp only [hA, hmax, hn, if_true]
      exact ⟨_, rfl⟩
    · unfold GCPProvider.UploadTest
      simp only [hG, hn2, if_true]
      exact ⟨_, rfl⟩
  · intro hn h0
    have hn1 : ¬ n > 209715200 := by omega
    have hn2 : ¬ n > 200 * 1024 * 1024 := by omega
    have h0' : ¬ n < 0 := by omega
    constructor
    · unfold AzureProvider.UploadTest
      simp only [hA, hmax, hn1, if_false, h0']
      split <;> exact ⟨_, _, rfl⟩
    · unfold GCPProvider.UploadTest
      simp only [hG, hn2, if_false, h0']
      split
      · exact ⟨_, _, rfl⟩
      · split <;> exact ⟨_, _, rfl⟩
  · intro h0
    have hn1 : ¬ n > 209715200 := by omega
    have hn2 : ¬ n > 200 * 1024 * 1024 := by omega
    constructor
    · unfold AzureProvider.UploadTest
      simp only [hA, hmax, hn1, if_false, h0, if_true]
      exact ⟨_, rfl⟩
    · unfold GCPProvider.UploadTest
      simp only [hG, hn2, if_false, h0, if_true]
      exact ⟨_, rfl⟩

/-- C19 at a config whose file size parses to 300 MiB, above the cap. -/
theorem UploadTest_size_cap_witness :
    testAzureUploadEnv.ParseFileSize ({ FileSize := "300MB" } : UploadSpeedTestConfig).FileSize
      = .ok 314572800 ∧
    testGCPUploadEnv.ParseFileSize ({ FileSize := "300MB" } : UploadSpeedTestConfig).FileSize
      = .ok 314572800 ∧
    maxTestSizeBytesAzure = 209715200 ∧
    ((314572800 : Int) > 209715200 →
      (∃ e, AzureProvider.UploadTest testAzureUploadEnv ⟨"ctx"⟩ { FileSize := "300MB" } "bucket"
        = (UploadOutcome.returned 0 0 (some e), [])) ∧
      (∃ e, GCPProvider.UploadTest testGCPUploadEnv ⟨"ctx"⟩ { FileSize := "300MB" } "bucket"
        = (UploadOutcome.returned 0 0 (some e), []))) ∧
    ((314572800 : Int) ≤ 209715200 → (0 : Int) ≤ 314572800 →
      (∃ timeout key,
        (AzureProvider.UploadTest testAzureUploadEnv ⟨"ctx"⟩ { FileSize := "300MB" } "bucket").2
        = [UploadEffect.allocate 314572800,
            UploadEffect.uploadBuffer timeout "bucket" key 314572800]) ∧
      (∃ timeout object,
        (GCPProvider.UploadTest testGCPUploadEnv ⟨"ctx"⟩ { FileSize := "300MB" } "bucket").2
        = [UploadEffect.allocate 314572800, UploadEffect.write timeout "bucket" object 314572800,
            UploadEffect.close])) ∧
    ((314572800 : Int) < 0 →
      (∃ reason, AzureProvider.UploadTest testAzureUploadEnv ⟨"ctx"⟩ { FileSize := "300MB" } "bucket"
        = (UploadOutcome.panicked reason, [])) ∧
      (∃ reason, GCPProvider.UploadTest testGCPUploadEnv ⟨"ctx"⟩ { FileSize := "300MB" } "bucket"
        = (UploadOutcome.panicked reason, []))) :=
  ⟨rfl, rfl,
    UploadTest_size_cap testAzureUploadEnv testGCPUploadEnv ⟨"ctx"⟩ { FileSize := "300MB" }
      "bucket"
      314572800 rfl rfl⟩

/-- C21: whenever UploadTest (Azure and GCP) gets as far as the upload (the file size
parses to n with 0 <= n <= 209715200), the upload call runs under the context
context.WithTimeout(ctx, t) derived from the caller's ctx, where t is config.Timeout when
that is non-zero and 30 seconds when it is zero. -/
theorem UploadTest_timeout (envA : AzureUploadEnv) (envG : GCPUploadEnv) (ctx : Context)
    (config : UploadSpeedTestConfig) (bucket : String) (n : Int)
    (hA : envA.ParseFileSize config.FileSize = .ok n)
    (hG : envG.ParseFileSize config.FileSize = .ok n)
    (hn : n ≤ 209715200) (h0 : 0 ≤ n) :
    ∃ uploadCtx key object,
      (AzureProvider.UploadTest envA ctx config bucket).2
        = [UploadEffect.allocate n, UploadEffect.uploadBuffer uploadCtx bucket key n] ∧
      (GCPProvider.UploadTest envG ctx config bucket).2
        = [UploadEffect.allocate n, UploadEffect.write uploadCtx bucket object n,
            UploadEffect.close] ∧
      uploadCtx.parent = ctx ∧
      (config.Timeout ≠ 0 → uploadCtx.timeout = config.Timeout) ∧
      (config.Timeout = 0 → uploadCtx.timeout = 30 * Second) ∧
      30 * Second = (30000000000 : Int) := by
  have hmax : maxTestSizeBytesAzure = 209715200 := by decide
  have hn1 : ¬ n > 209715200 := by omega
  have hn2 : ¬ n > 200 * 1024 * 1024 := by omega
  have h0' : ¬ n < 0 := by omega
  refine ⟨⟨ctx, if config.Timeout ≠ 0 then config.Timeout else 30 * Second⟩,
    "dpt-upload-test-" ++ toString envA.UnixNano,
    "dpt-upload-test-" ++ toString envG.UnixNano, ?_, ?_, rfl, ?_, ?_, by decide⟩
  · unfold AzureProvider.UploadTest
    simp only [hA, hmax, hn1, if_false, h0']
    split <;> rfl
  · unfold GCPProvider.UploadTest
    simp only [hG, hn2, if_false, h0']
    split
    · rfl
    · split <;> rfl
  · intro h
    simp [h]
  · intro h
    simp [h]

/-- C21 at a config of 100 MiB with no timeout set: the upload runs under 30 seconds. -/
theorem UploadTest_timeout_witness :
    testAzureUploadEnv.ParseFileSize ({ FileSize := "100MB" } : UploadSpeedTestConfig).FileSize
      = .ok 104857600 ∧
    testGCPUploadEnv.ParseFileSize ({ FileSize := "100MB" } : UploadSpeedTestConfig).FileSize
      = .ok 104857600 ∧
    (104857600 : Int) ≤ 209715200 ∧ (0 : Int) ≤ 104857600 ∧
    ∃ uploadCtx key object,
      (AzureProvider.UploadTest testAzureUploadEnv ⟨"ctx"⟩ { FileSize := "100MB" } "bucket").2
        = [UploadEffect.allocate 104857600,
            UploadEffect.uploadBuffer uploadCtx "bucket" key 104857600] ∧
      (GCPProvider.UploadTest testGCPUploadEnv ⟨"ctx"⟩ { FileSize := "100MB" } "bucket").2
        = [UploadEffect.allocate 104857600, UploadEffect.write uploadCtx "bucket" object 104857600,
            UploadEffect.close] ∧
      uploadCtx.parent = ⟨"ctx"⟩ ∧
      (({ FileSize := "100MB" } : UploadSpeedTestConfig).Timeout ≠ 0 →
        uploadCtx.timeout = ({ FileSize := "100MB" } : UploadSpeedTestConfig).Timeout) ∧
      (({ FileSize := "100MB" } : UploadSpeedTestConfig).Timeout = 0 →
        uploadCtx.timeout = 30 * Second) ∧
      30 * Second = (30000000000 : Int) :=
  ⟨rfl, rfl, by decide, by decide,
    UploadTest_timeout testAzureUploadEnv testGCPUploadEnv ⟨"ctx"⟩ { FileSize := "100MB" }
      "bucket" 104857600 rfl rfl (by decide) (by decide)⟩

/-! ### Reconcile: failed fetch, and the fields of the shared reconciler -/

/-- C27: when fetching the primary resource fails, with any error, Reconcile returns
the empty result and a nil error, calls no step (ReconcileBatch is not called: the
outcome is the same for every step list, and cluster and events are untouched) and
attempts no status update; its only client call is the get. -/
theorem Reconcile_fetch_failure {ω : Type} (completeMessage : String)
    (steps : List (ReconcileFunc (World ω))) (now : Nat) (ctx : Context) (req : Request)
    (w : World ω) (e : APIError)
    (hfail : w.r.Client.GetDPA w.cluster req.NamespacedName = .error e) :
    (Reconcile completeMessage steps now ctx req w).result = {} ∧
    (Reconcile completeMessage steps now ctx req w).err = none ∧
    (Reconcile completeMessage steps now ctx req w).pipeline = none ∧
    (Reconcile completeMessage steps now ctx req w).statusUpdates = [] ∧
    (Reconcile completeMessage steps now ctx req w).world.calls
      = w.calls ++ [APICall.getDPA req.NamespacedName] ∧
    (Reconcile completeMessage steps now ctx req w).world.cluster = w.cluster ∧
    (Reconcile completeMessage steps now ctx req w).world.events = w.events ∧
    (∀ steps2, Reconcile completeMessage steps2 now ctx req w
      = Reconcile completeMessage steps now ctx req w) := by
  have hR : ∀ steps2, Reconcile completeMessage steps2 now ctx req w =
      { result := {}, err := none,
        world := { w with
          r := { w.r with
            Log := ⟨some ctx, []⟩, Context := ctx, NamespacedName := req.NamespacedName,
            dpa := {} }
          calls := w.calls ++ [APICall.getDPA req.NamespacedName] }
        pipeline := none, statusUpdates := [] } := by
    intro steps2
    simp only [Reconcile, hfail]
  refine ⟨?_, ?_, ?_, ?_, ?_, ?_, ?_, ?_⟩
  · rw [hR]
  · rw [hR]
  · rw [hR]
  · rw [hR]
  · rw [hR]
  · rw [hR]
  · rw [hR]
  · intro steps2
    rw [hR, hR]

/-- C27 at a client whose get times out, with a step list that would fail if run. -/
theorem Reconcile_fetch_failure_witness :
    timeoutWorld.r.Client.GetDPA timeoutWorld.cluster testRequest.NamespacedName
      = .error ⟨⟨"context deadline exceeded"⟩, false⟩ ∧
    (Reconcile "Reconcile complete" [failingStep] 7 ⟨"ctx"⟩ testRequest timeoutWorld).result
      = {} ∧
    (Reconcile "Reconcile complete" [failingStep] 7 ⟨"ctx"⟩ testRequest timeoutWorld).err
      = none ∧
    (Reconcile "Reconcile complete" [failingStep] 7 ⟨"ctx"⟩ testRequest timeoutWorld).pipeline
      = none ∧
    (Reconcile "Reconcile complete" [failingStep] 7 ⟨"ctx"⟩ testRequest
      timeoutWorld).statusUpdates = [] ∧
    (Reconcile "Reconcile complete" [failingStep] 7 ⟨"ctx"⟩ testRequest
      timeoutWorld).world.calls
      = timeoutWorld.calls ++ [APICall.getDPA testRequest.NamespacedName] ∧
    (Reconcile "Reconcile complete" [failingStep] 7 ⟨"ctx"⟩ testRequest
      timeoutWorld).world.cluster = timeoutWorld.cluster ∧
    (Reconcile "Reconcile complete" [failingStep] 7 ⟨"ctx"⟩ testRequest
      timeoutWorld).world.events = timeoutWorld.events ∧
    (∀ steps2, Reconcile "Reconcile complete" steps2 7 ⟨"ctx"⟩ testRequest timeoutWorld
      = Reconcile "Reconcile complete" [failingStep] 7 ⟨"ctx"⟩ testRequest timeoutWorld) :=
  ⟨rfl, Reconcile_fetch_failure "Reconcile complete" [failingStep] 7 ⟨"ctx"⟩ testRequest
    timeoutWorld ⟨⟨"context deadline exceeded"⟩, false⟩ rfl⟩

/-- C23, refuted: one invocation of Reconcile on the test fixture changes the fields
Log, Context, NamespacedName and dpa of the reconciler value and the package-level
client. -/
theorem Reconcile_writes_shared_fields :
    (testWorld testDPA GoMap.empty).r.Log = ⟨none, []⟩ ∧
    (firstReconcile [] GoMap.empty).world.r.Log = ⟨some ⟨"ctx"⟩, []⟩ ∧
    (testWorld testDPA GoMap.empty).r.Context = ⟨""⟩ ∧
    (firstReconcile [] GoMap.empty).world.r.Context = ⟨"ctx"⟩ ∧
    (testWorld testDPA GoMap.empty).r.NamespacedName = ⟨"", ""⟩ ∧
    (firstReconcile [] GoMap.empty).world.r.NamespacedName = ⟨"test-ns", "test-dpa"⟩ ∧
    (testWorld testDPA GoMap.empty).r.dpa = {} ∧
    (firstReconcile [] GoMap.empty).world.r.dpa = completedDPA ∧
    (testWorld testDPA GoMap.empty).pkgClient.isSome = false ∧
    (firstReconcile [] GoMap.empty).world.pkgClient.isSome = true ∧
    (firstReconcile [] GoMap.empty).world.r.NamespacedName
      ≠ (testWorld testDPA GoMap.empty).r.NamespacedName := by
  refine ⟨rfl, rfl, rfl, rfl, rfl, rfl, rfl, rfl, rfl, rfl, ?_⟩
  decide

/-- C23, amended: Reconcile does write the fields Log, Context, NamespacedName and dpa
of the shared reconciler value and, once the resource is fetched, the package-level
client; but every invocation assigns them before anything reads them, from its own
parameters (the logger of ctx, ctx, req.NamespacedName, the fetched resource, r.Client),
so what an earlier invocation left there is never observed: started with any other
values in these fields, an invocation that fetches its resource returns the same and
leaves the same state, and one whose fetch fails differs only in the package-level
client, which it does not touch. -/
theorem Reconcile_ignores_stale_fields {ω : Type} (completeMessage : String)
    (steps : List (ReconcileFunc (World ω))) (now : Nat) (ctx : Context) (req : Request)
    (w : World ω) (log0 : Logger) (ctx0 : Context) (name0 : NamespacedName)
    (dpa0 : DataProtectionApplication) (client0 : Option (Client ω)) :
    (∀ d, w.r.Client.GetDPA w.cluster req.NamespacedName = .ok d →
      Reconcile completeMessage steps now ctx req (staleFields w log0 ctx0 name0 dpa0 client0)
        = Reconcile completeMessage steps now ctx req w ∧
      (fetchedWorld (staleFields w log0 ctx0 name0 dpa0 client0) ctx req d).r.Log
        = ⟨some ctx, []⟩ ∧
      (fetchedWorld (staleFields w log0 ctx0 name0 dpa0 client0) ctx req d).r.Context = ctx ∧
      (fetchedWorld (staleFields w log0 ctx0 name0 dpa0 client0) ctx req d).r.NamespacedName
        = req.NamespacedName ∧
      (fetchedWorld (staleFields w log0 ctx0 name0 dpa0 client0) ctx req d).r.dpa = d ∧
      (fetchedWorld (staleFields w log0 ctx0 name0 dpa0 client0) ctx req d).pkgClient
        = some w.r.Client) ∧
    (∀ e, w.r.Client.GetDPA w.cluster req.NamespacedName = .error e →
      (Reconcile completeMessage steps now ctx req
          (staleFields w log0 ctx0 name0 dpa0 client0)).world
        = { (Reconcile completeMessage steps now ctx req w).world with pkgClient := client0 } ∧
      (Reconcile completeMessage steps now ctx req
          (staleFields w log0 ctx0 name0 dpa0 client0)).err = none ∧
      (Reconcile completeMessage steps now ctx req w).world.pkgClient = w.pkgClient) := by
  constructor
  · intro d hfetch
    have hfetch2 : (staleFields w log0 ctx0 name0 dpa0 client0).r.Client.GetDPA
        (staleFields w log0 ctx0 name0 dpa0 client0).cluster req.NamespacedName = .ok d := hfetch
    have h1 := Reconcile_fetched completeMessage steps now ctx req _ d hfetch2
    have h2 := Reconcile_fetched completeMessage steps now ctx req w d hfetch
    simp only at h1 h2
    have hw : fetchedWorld (staleFields w log0 ctx0 name0 dpa0 client0) ctx req d
        = fetchedWorld w ctx req d := rfl
    rw [hw] at h1
    exact ⟨h1.trans h2.symm, rfl, rfl, rfl, rfl, rfl⟩
  · intro e hfail
    have hfail2 : (staleFields w log0 ctx0 name0 dpa0 client0).r.Client.GetDPA
        (staleFields w log0 ctx0 name0 dpa0 client0).cluster req.NamespacedName
          = .error e := hfail
    refine ⟨?_, ?_, ?_⟩
    · simp only [Reconcile, hfail, hfail2]
      rfl
    · simp only [Reconcile, hfail2]
    · simp only [Reconcile, hfail]

/-- C23 amended, at the test fixture: started with the fields left by a reconcile of
another resource, the invocation returns the same and leaves the same state. -/
theorem Reconcile_ignores_stale_fields_witness :
    (testWorld testDPA GoMap.empty).r.Client.GetDPA (testWorld testDPA GoMap.empty).cluster
      testRequest.NamespacedName = .ok testDPA ∧
    Reconcile "Reconcile complete" [passingStep] 7 ⟨"ctx"⟩ testRequest
        (staleFields (testWorld testDPA GoMap.empty) ⟨some ⟨"earlier"⟩, []⟩ ⟨"earlier"⟩
          ⟨"other-ns", "other-dpa"⟩ failedDPA (some timeoutClient))
      = Reconcile "Reconcile complete" [passingStep] 7 ⟨"ctx"⟩ testRequest
          (testWorld testDPA GoMap.empty) ∧
    (staleFields (testWorld testDPA GoMap.empty) ⟨some ⟨"earlier"⟩, []⟩ ⟨"earlier"⟩
        ⟨"other-ns", "other-dpa"⟩ failedDPA (some timeoutClient)).r.NamespacedName
      ≠ (testWorld testDPA GoMap.empty).r.NamespacedName :=
  ⟨rfl,
    ((Reconcile_ignores_stale_fields "Reconcile complete" [passingStep] 7 ⟨"ctx"⟩ testRequest
      (testWorld testDPA GoMap.empty) ⟨some ⟨"earlier"⟩, []⟩ ⟨"earlier"⟩
      ⟨"other-ns", "other-dpa"⟩ failedDPA (some timeoutClient)).1 testDPA rfl).1,
    by decide⟩

/-! ### The subscription id and the identity secret -/

theorem CreateOrUpdate_env {ω : Type} (w : World ω) (env2 : GoMap) (obj : Secret)
    (f : Secret → Except GoError Secret) :
    CreateOrUpdate { w with env := env2 } obj f =
      { op := (CreateOrUpdate w obj f).op
        err := (CreateOrUpdate w obj f).err
        world := { (CreateOrUpdate w obj f).world with env := env2 }
        obj := (CreateOrUpdate w obj f).obj } := by
  unfold CreateOrUpdate
  dsimp only
  cases hget : w.r.Client.GetSecret w.cluster obj.key with
  | error e =>
    cases hnf : e.IsNotFound with
    | false => simp [hnf]
    | true =>
      cases hm : mutate f obj.key obj with
      | error e2 => simp [hnf, hm]
      | ok obj2 =>
        cases hcr : (w.r.Client.CreateSecret w.cluster obj2).1 <;> simp [hnf, hm, hcr]
  | ok existing =>
    cases hm : mutate f obj.key existing with
    | error e2 => simp [hm]
    | ok obj2 =>
      cases hde : existing.deepEqual obj2 with
      | true => simp [hm, hde]
      | false =>
        cases hup : (w.r.Client.UpdateSecret w.cluster obj2).1 <;> simp [hm, hde, hup]


/-- C28, refuted: with complete configuration and a stored secret of the same name that
already holds the value of the subscription id under a key of its own, the step
succeeds with one update, and the secret it writes and leaves stored has a data value
equal to the subscription id, which is neither the client id, the tenant id nor the
token path. -/
theorem ReconcileAzureWorkloadIdentitySecret_keeps_subscription_value :
    subscriptionSecretWorld.Getenv testDeclarations.SubscriptionIDEnvKey
      = "test-subscription-id" ∧
    (ReconcileAzureWorkloadIdentitySecret testDeclarations ⟨none, []⟩
      subscriptionSecretWorld).1 = (true, none) ∧
    (∃ written,
      (ReconcileAzureWorkloadIdentitySecret testDeclarations ⟨none, []⟩
        subscriptionSecretWorld).2.calls
        = [APICall.getSecret (azureSecretKey testDeclarations subscriptionSecretWorld),
           APICall.updateSecret written] ∧
      written.Data.get? "AZURE_SUBSCRIPTION_ID" = some "test-subscription-id" ∧
      (ReconcileAzureWorkloadIdentitySecret testDeclarations ⟨none, []⟩
        subscriptionSecretWorld).2.cluster.findSecret
          (azureSecretKey testDeclarations subscriptionSecretWorld) = some written) ∧
    "test-subscription-id" ≠ subscriptionSecretWorld.Getenv testDeclarations.ClientIDEnvKey ∧
    "test-subscription-id" ≠ subscriptionSecretWorld.Getenv testDeclarations.TenantIDEnvKey ∧
    "test-subscription-id" ≠ testDeclarations.WebIdentityTokenPath := by
  refine ⟨rfl, rfl, ⟨_, rfl, rfl, rfl⟩, ?_, ?_, ?_⟩ <;> decide

/-- C28, amended: the subscription id gates ReconcileAzureWorkloadIdentitySecret and is
not read otherwise: for two environments that agree on client id and tenant id and
both have a non-empty subscription id, the step returns the same and leaves the same
state (cluster, hence the secret written, calls, events), the environment apart. After a
successful run with complete configuration every data value of the stored secret is
the client id, the tenant id, the token path, or the value that the secret stored
under that name before the run already held at the same key; so a created secret holds
only the first three, while a value equal to the subscription id that an existing
secret holds under another key stays. -/
theorem ReconcileAzureWorkloadIdentitySecret_subscription_id {ω : Type}
    (D : Declarations) (log : Logger) (w : World ω) (env2 : GoMap)
    (hc : env2.index D.ClientIDEnvKey = w.Getenv D.ClientIDEnvKey)
    (ht : env2.index D.TenantIDEnvKey = w.Getenv D.TenantIDEnvKey)
    (hs : w.Getenv D.SubscriptionIDEnvKey ≠ "")
    (hs2 : env2.index D.SubscriptionIDEnvKey ≠ "") :
    (ReconcileAzureWorkloadIdentitySecret D log { w with env := env2 }).1
      = (ReconcileAzureWorkloadIdentitySecret D log w).1 ∧
    (ReconcileAzureWorkloadIdentitySecret D log { w with env := env2 }).2
      = { (ReconcileAzureWorkloadIdentitySecret D log w).2 with env := env2 } ∧
    (w.Getenv D.ClientIDEnvKey ≠ "" → w.Getenv D.TenantIDEnvKey ≠ "" →
      (azureCreateOrUpdate D w).err = none →
      ∃ secret,
        (ReconcileAzureWorkloadIdentitySecret D log w).2.cluster.findSecret (azureSecretKey D w)
          = some secret ∧
        (∀ k v, secret.Data.get? k = some v →
          v = w.Getenv D.ClientIDEnvKey ∨ v = w.Getenv D.TenantIDEnvKey ∨
          v = D.WebIdentityTokenPath ∨ storedData w.cluster (azureSecretKey D w) k = some v) ∧
        (w.cluster.findSecret (azureSecretKey D w) = none →
          ∀ k v, secret.Data.get? k = some v →
            v = w.Getenv D.ClientIDEnvKey ∨ v = w.Getenv D.TenantIDEnvKey ∨
            v = D.WebIdentityTokenPath)) := by
  have hboth : ReconcileAzureWorkloadIdentitySecret D log { w with env := env2 }
      = ((ReconcileAzureWorkloadIdentitySecret D log w).1,
          { (ReconcileAzureWorkloadIdentitySecret D log w).2 with env := env2 }) := by
    unfold ReconcileAzureWorkloadIdentitySecret
    have e1 : World.Getenv { w with env := env2 } D.ClientIDEnvKey
        = w.Getenv D.ClientIDEnvKey := hc
    have e2 : World.Getenv { w with env := env2 } D.TenantIDEnvKey
        = w.Getenv D.TenantIDEnvKey := ht
    have e3 : World.Getenv { w with env := env2 } D.SubscriptionIDEnvKey ≠ "" := hs2
    simp only [e1, e2, e3, hs, or_false, CreateOrUpdate_env]
    by_cases hgate : w.Getenv D.ClientIDEnvKey = "" ∨ w.Getenv D.TenantIDEnvKey = ""
    · simp only [hgate, if_true]
    · simp only [hgate, if_false]
      cases herr : (CreateOrUpdate w
          { Name := D.AzureWorkloadIdentitySecretName, Namespace := w.r.dpa.Namespace }
          (azureSecretMutateFn D w.r.dpa w.r.Scheme (w.Getenv D.ClientIDEnvKey)
            (w.Getenv D.TenantIDEnvKey))).err with
      | some err => rfl
      | none =>
        dsimp only
        split <;> rfl
  refine ⟨?_, ?_, ?_⟩
  · rw [hboth]
  · rw [hboth]
  · intro hcne htne hok
    obtain ⟨-, base, obj2, secret, hf, hstored, hcases⟩ :=
      azure_step_stored D log w hcne htne hs hok
    obtain ⟨-, -, -, hdata⟩ := azureSecretMutateFn_ok _ _ _ _ _ _ _ hf
    obtain ⟨hd1, hd2, hd3⟩ := azure_data_keys base.Data (w.Getenv D.ClientIDEnvKey)
      (w.Getenv D.TenantIDEnvKey) D.WebIdentityTokenPath
    rw [← hdata] at hd1 hd2 hd3
    have hother : ∀ k, k ≠ "AZURE_CLIENT_ID" → k ≠ "AZURE_TENANT_ID" →
        k ≠ "AZURE_FEDERATED_TOKEN_FILE" → obj2.Data.get? k = base.Data.get? k := by
      intro k h1 h2 h3
      rw [hdata, GoMap.get?_set_other _ _ _ _ h3, GoMap.get?_set_other _ _ _ _ h2,
        GoMap.get?_set_other _ _ _ _ h1]
    have hsec : ∀ k, secret.Data.get? k = obj2.Data.get? k := by
      intro k
      rcases hcases with ⟨-, -, hso⟩ | ⟨-, hso | ⟨hsb, heq⟩⟩
      · rw [hso]
      · rw [hso]
      · rw [hsb]
        simp only [Secret.deepEqual, Bool.and_eq_true] at heq
        exact GoMap.get?_eq_of_deepEqual _ _ heq.2 k
    have hprior : ∀ k, base.Data.get? k = storedData w.cluster (azureSecretKey D w) k := by
      intro k
      rcases hcases with ⟨hnone, hb, -⟩ | ⟨hsome, -⟩
      · simp [storedData, hnone, hb, GoMap.get?, GoMap.empty]
      · simp [storedData, hsome]
    have hvalues : ∀ k v, secret.Data.get? k = some v →
        v = w.Getenv D.ClientIDEnvKey ∨ v = w.Getenv D.TenantIDEnvKey ∨
        v = D.WebIdentityTokenPath ∨ storedData w.cluster (azureSecretKey D w) k = some v := by
      intro k v hkv
      rw [hsec] at hkv
      by_cases h1 : k = "AZURE_CLIENT_ID"
      · rw [h1, hd1] at hkv
        exact Or.inl (Option.some.inj hkv).symm
      · by_cases h2 : k = "AZURE_TENANT_ID"
        · rw [h2, hd2] at hkv
          exact Or.inr (Or.inl (Option.some.inj hkv).symm)
        · by_cases h3 : k = "AZURE_FEDERATED_TOKEN_FILE"
          · rw [h3, hd3] at hkv
            exact Or.inr (Or.inr (Or.inl (Option.some.inj hkv).symm))
          · rw [hother k h1 h2 h3, hprior] at hkv
            exact Or.inr (Or.inr (Or.inr hkv))
    refine ⟨secret, hstored, hvalues, ?_⟩
    intro hnone k v hkv
    rcases hvalues k v hkv with h | h | h | h
    · exact Or.inl h
    · exact Or.inr (Or.inl h)
    · exact Or.inr (Or.inr h)
    · simp [storedData, hnone] at h

/-- C28 amended, at the world that already stores the subscription id in the secret,
against an environment with another subscription id. -/
theorem ReconcileAzureWorkloadIdentitySecret_subscription_id_witness :
    otherSubscriptionEnv.index testDeclarations.ClientIDEnvKey
      = subscriptionSecretWorld.Getenv testDeclarations.ClientIDEnvKey ∧
    otherSubscriptionEnv.index testDeclarations.TenantIDEnvKey
      = subscriptionSecretWorld.Getenv testDeclarations.TenantIDEnvKey ∧
    subscriptionSecretWorld.Getenv testDeclarations.SubscriptionIDEnvKey ≠ "" ∧
    otherSubscriptionEnv.index testDeclarations.SubscriptionIDEnvKey ≠ "" ∧
    otherSubscriptionEnv.index testDeclarations.SubscriptionIDEnvKey
      ≠ subscriptionSecretWorld.Getenv testDeclarations.SubscriptionIDEnvKey ∧
    (ReconcileAzureWorkloadIdentitySecret testDeclarations ⟨none, []⟩
        { subscriptionSecretWorld with env := otherSubscriptionEnv }).1
      = (ReconcileAzureWorkloadIdentitySecret testDeclarations ⟨none, []⟩
          subscriptionSecretWorld).1 ∧
    (ReconcileAzureWorkloadIdentitySecret testDeclarations ⟨none, []⟩
        { subscriptionSecretWorld with env := otherSubscriptionEnv }).2
      = { (ReconcileAzureWorkloadIdentitySecret testDeclarations ⟨none, []⟩
            subscriptionSecretWorld).2 with env := otherSubscriptionEnv } ∧
    (subscriptionSecretWorld.Getenv testDeclarations.ClientIDEnvKey ≠ "" →
      subscriptionSecretWorld.Getenv testDeclarations.TenantIDEnvKey ≠ "" →
      (azureCreateOrUpdate testDeclarations subscriptionSecretWorld).err = none →
      ∃ secret,
        (ReconcileAzureWorkloadIdentitySecret testDeclarations ⟨none, []⟩
          subscriptionSecretWorld).2.cluster.findSecret
            (azureSecretKey testDeclarations subscriptionSecretWorld) = some secret ∧
        (∀ k v, secret.Data.get? k = some v →
          v = subscriptionSecretWorld.Getenv testDeclarations.ClientIDEnvKey ∨
          v = subscriptionSecretWorld.Getenv testDeclarations.TenantIDEnvKey ∨
          v = testDeclarations.WebIdentityTokenPath ∨
          storedData subscriptionSecretWorld.cluster
            (azureSecretKey testDeclarations subscriptionSecretWorld) k = some v) ∧
        (subscriptionSecretWorld.cluster.findSecret
            (azureSecretKey testDeclarations subscriptionSecretWorld) = none →
          ∀ k v, secret.Data.get? k = some v →
            v = subscriptionSecretWorld.Getenv testDeclarations.ClientIDEnvKey ∨
            v = subscriptionSecretWorld.Getenv testDeclarations.TenantIDEnvKey ∨
            v = testDeclarations.WebIdentityTokenPath)) :=
  ⟨by decide, by decide, by decide, by decide, by decide,
    ReconcileAzureWorkloadIdentitySecret_subscription_id testDeclarations ⟨none, []⟩
      subscriptionSecretWorld otherSubscriptionEnv (by decide) (by decide) (by decide)
      (by decide)⟩


/-! ### Bucket metadata and the Azure authentication chain -/

/-- C22: the claim does not hold of the code: whenever retrieving the bucket
attributes fails, GCPProvider.GetBucketMetadata returns a nil metadata value together
with the wrapped error. -/
theorem GCP_GetBucketMetadata_nil_on_error (env : GCPMetadataEnv) (ctx : Context)
    (bucket : String) (err : GoError) (h : env.Attrs ctx bucket = .error err) :
    GCPProvider.GetBucketMetadata env ctx bucket
      = (none, some ⟨"failed to get bucket attributes: " ++ err.Error⟩) := by
  simp only [GCPProvider.GetBucketMetadata, h]

/-- C22 at a bucket that does not exist. -/
theorem GCP_GetBucketMetadata_nil_on_error_witness :
    testGCPMetadataEnv.Attrs ⟨"ctx"⟩ "missing" = .error ⟨"storage: bucket doesn't exist"⟩ ∧
    GCPProvider.GetBucketMetadata testGCPMetadataEnv ⟨"ctx"⟩ "missing"
      = (none, some ⟨"failed to get bucket attributes: "
          ++ (⟨"storage: bucket doesn't exist"⟩ : GoError).Error⟩) :=
  ⟨rfl, GCP_GetBucketMetadata_nil_on_error testGCPMetadataEnv ⟨"ctx"⟩ "missing"
    ⟨"storage: bucket doesn't exist"⟩ rfl⟩

/-- C25: for every successfully fetched bucket attribute record,
GCPProvider.GetBucketMetadata returns metadata and no error, with EncryptionAlgorithm
"google-kms" exactly when the encryption config is present with a non-empty default KMS
key name and "google-managed" otherwise, and VersioningStatus "Enabled" exactly when
versioning is enabled and "Suspended" otherwise; never "Unknown" or "Disabled". -/
theorem GCP_GetBucketMetadata_values (env : GCPMetadataEnv) (ctx : Context)
    (bucket : String) (attrs : BucketAttrs) (h : env.Attrs ctx bucket = .ok attrs) :
    ∃ m, GCPProvider.GetBucketMetadata env ctx bucket = (some m, none) ∧
      (m.EncryptionAlgorithm = "google-kms" ↔
        ∃ enc, attrs.Encryption = some enc ∧ enc.DefaultKMSKeyName ≠ "") ∧
      (m.EncryptionAlgorithm = "google-managed" ↔
        ¬ ∃ enc, attrs.Encryption = some enc ∧ enc.DefaultKMSKeyName ≠ "") ∧
      (m.VersioningStatus = "Enabled" ↔ attrs.VersioningEnabled = true) ∧
      (m.VersioningStatus = "Suspended" ↔ attrs.VersioningEnabled = false) ∧
      m.EncryptionAlgorithm ≠ "Unknown" ∧ m.VersioningStatus ≠ "Disabled" := by
  simp only [GCPProvider.GetBucketMetadata, h]
  refine ⟨_, rfl, ?_⟩
  obtain ⟨encryption, versioning⟩ := attrs
  cases versioning <;> cases encryption with
  | none => simp; try decide
  | some enc =>
    by_cases hk : enc.DefaultKMSKeyName = ""
    · simp [hk]; try decide
    · simp [hk]; try decide

/-- C25 at a bucket with a default KMS key and versioning enabled. -/
theorem GCP_GetBucketMetadata_values_witness :
    testGCPMetadataEnv.Attrs ⟨"ctx"⟩ "kms-bucket"
      = .ok { Encryption := some ⟨"projects/p/locations/l/keyRings/r/cryptoKeys/k"⟩,
              VersioningEnabled := true } ∧
    ∃ m, GCPProvider.GetBucketMetadata testGCPMetadataEnv ⟨"ctx"⟩ "kms-bucket" = (some m, none) ∧
      (m.EncryptionAlgorithm = "google-kms" ↔
        ∃ enc, (some ⟨"projects/p/locations/l/keyRings/r/cryptoKeys/k"⟩ : Option BucketEncryption)
          = some enc ∧ enc.DefaultKMSKeyName ≠ "") ∧
      (m.EncryptionAlgorithm = "google-managed" ↔
        ¬ ∃ enc, (some ⟨"projects/p/locations/l/keyRings/r/cryptoKeys/k"⟩ : Option BucketEncryption)
          = some enc ∧ enc.DefaultKMSKeyName ≠ "") ∧
      (m.VersioningStatus = "Enabled" ↔ true = true) ∧
      (m.VersioningStatus = "Suspended" ↔ true = false) ∧
      m.EncryptionAlgorithm ≠ "Unknown" ∧ m.VersioningStatus ≠ "Disabled" :=
  ⟨rfl, GCP_GetBucketMetadata_values testGCPMetadataEnv ⟨"ctx"⟩ "kms-bucket"
    { Encryption := some ⟨"projects/p/locations/l/keyRings/r/cryptoKeys/k"⟩,
      VersioningEnabled := true } rfl⟩


/-- C24: NewAzureProvider picks its authentication mode by the first populated field
in the order StorageAccountKey, ClientSecret, CertificatePath, else the platform
default credential.  In each case the first SDK call is that mode's, the calls made
are an initial part of that mode's call sequence (so no constructor of another mode is
called, whatever the later fields hold), and a provider that is returned holds the
client built from that mode's credential; IsStorageAccountKeyAuth of a returned
provider is true exactly when its client was built with the shared key. -/
theorem NewAzureProvider_auth_mode (sdk : AzureSDK) (creds : AzureCredentials) :
    (creds.StorageAccountKey ≠ "" →
      (NewAzureProvider sdk creds).2.head? = some (AzureSDKCall.NewSharedKeyCredential
        creds.StorageAccountName creds.StorageAccountKey) ∧
      (∃ rest, (NewAzureProvider sdk creds).2 ++ rest =
        [AzureSDKCall.NewSharedKeyCredential creds.StorageAccountName creds.StorageAccountKey,
         AzureSDKCall.NewClientWithSharedKeyCredential
          ("https://" ++ creds.StorageAccountName ++ ".blob.core.windows.net/")
          ⟨creds.StorageAccountName, creds.StorageAccountKey⟩]) ∧
      (∀ p, (NewAzureProvider sdk creds).1 = .ok p →
        p.client = BlobClient.withSharedKey
          ("https://" ++ creds.StorageAccountName ++ ".blob.core.windows.net/")
          ⟨creds.StorageAccountName, creds.StorageAccountKey⟩)) ∧
    (creds.StorageAccountKey = "" → creds.ClientSecret ≠ "" →
      (NewAzureProvider sdk creds).2.head? = some (AzureSDKCall.NewClientSecretCredential
        creds.TenantID creds.ClientID creds.ClientSecret) ∧
      (∃ rest, (NewAzureProvider sdk creds).2 ++ rest =
        [AzureSDKCall.NewClientSecretCredential creds.TenantID creds.ClientID
          creds.ClientSecret,
         AzureSDKCall.NewClient
          ("https://" ++ creds.StorageAccountName ++ ".blob.core.windows.net/")
          (some (TokenCredential.clientSecret creds.TenantID creds.ClientID
            creds.ClientSecret))]) ∧
      (∀ p, (NewAzureProvider sdk creds).1 = .ok p →
        p.client = BlobClient.withToken
          ("https://" ++ creds.StorageAccountName ++ ".blob.core.windows.net/")
          (some (TokenCredential.clientSecret creds.TenantID creds.ClientID
            creds.ClientSecret)))) ∧
    (creds.StorageAccountKey = "" → creds.ClientSecret = "" → creds.CertificatePath ≠ "" →
      (NewAzureProvider sdk creds).2.head?
        = some (AzureSDKCall.ReadFile creds.CertificatePath) ∧
      (∃ certData certs key rest, (NewAzureProvider sdk creds).2 ++ rest =
        [AzureSDKCall.ReadFile creds.CertificatePath,
         AzureSDKCall.ParseCertificates certData,
         AzureSDKCall.NewClientCertificateCredential creds.TenantID creds.ClientID certs key,
         AzureSDKCall.NewClient
          ("https://" ++ creds.StorageAccountName ++ ".blob.core.windows.net/")
          (some (TokenCredential.clientCertificate creds.TenantID creds.ClientID
            certs key))]) ∧
      (∀ p, (NewAzureProvider sdk creds).1 = .ok p →
        ∃ certs key, p.client = BlobClient.withToken
          ("https://" ++ creds.StorageAccountName ++ ".blob.core.windows.net/")
          (some (TokenCredential.clientCertificate creds.TenantID creds.ClientID
            certs key)))) ∧
    (creds.StorageAccountKey = "" → creds.ClientSecret = "" → creds.CertificatePath = "" →
      (NewAzureProvider sdk creds).2.head? = some AzureSDKCall.NewDefaultAzureCredential ∧
      (∃ rest, (NewAzureProvider sdk creds).2 ++ rest =
        [AzureSDKCall.NewDefaultAzureCredential,
         AzureSDKCall.NewClient
          ("https://" ++ creds.StorageAccountName ++ ".blob.core.windows.net/")
          (some TokenCredential.defaultAzure)]) ∧
      (∀ p, (NewAzureProvider sdk creds).1 = .ok p →
        p.client = BlobClient.withToken
          ("https://" ++ creds.StorageAccountName ++ ".blob.core.windows.net/")
          (some TokenCredential.defaultAzure))) ∧
    (∀ p, (NewAzureProvider sdk creds).1 = .ok p →
      p.creds = creds ∧
      (p.IsStorageAccountKeyAuth = true ↔ creds.StorageAccountKey ≠ "") ∧
      (p.IsStorageAccountKeyAuth = true ↔ ∃ url cred, p.client = BlobClient.withSharedKey url cred)) := by
  have hsk : creds.StorageAccountKey ≠ "" →
      (NewAzureProvider sdk creds).2.head? = some (AzureSDKCall.NewSharedKeyCredential
        creds.StorageAccountName creds.StorageAccountKey) ∧
      (∃ rest, (NewAzureProvider sdk creds).2 ++ rest =
        [AzureSDKCall.NewSharedKeyCredential creds.StorageAccountName creds.StorageAccountKey,
         AzureSDKCall.NewClientWithSharedKeyCredential
          ("https://" ++ creds.StorageAccountName ++ ".blob.core.windows.net/")
          ⟨creds.StorageAccountName, creds.StorageAccountKey⟩]) ∧
      (∀ p, (NewAzureProvider sdk creds).1 = .ok p →
        p.creds = creds ∧ p.client = BlobClient.withSharedKey
          ("https://" ++ creds.StorageAccountName ++ ".blob.core.windows.net/")
          ⟨creds.StorageAccountName, creds.StorageAccountKey⟩) := by
    intro hkey
    unfold NewAzureProvider
    simp only [hkey, ne_eq, not_false_eq_true, if_true]
    cases h1 : sdk.failNewSharedKeyCredential creds.StorageAccountName creds.StorageAccountKey with
    | some err => simp
    | none =>
      cases h2 : sdk.failNewClientWithSharedKeyCredential
          ("https://" ++ creds.StorageAccountName ++ ".blob.core.windows.net/")
          ⟨creds.StorageAccountName, creds.StorageAccountKey⟩ with
      | some err => simp [h2]
      | none =>
        simp only [h2]
        refine ⟨rfl, ⟨[], rfl⟩, ?_⟩
        intro p hp
        cases hp
        exact ⟨rfl, rfl⟩
  have hcs : creds.StorageAccountKey = "" → creds.ClientSecret ≠ "" →
      (NewAzureProvider sdk creds).2.head? = some (AzureSDKCall.NewClientSecretCredential
        creds.TenantID creds.ClientID creds.ClientSecret) ∧
      (∃ rest, (NewAzureProvider sdk creds).2 ++ rest =
        [AzureSDKCall.NewClientSecretCredential creds.TenantID creds.ClientID
          creds.ClientSecret,
         AzureSDKCall.NewClient
          ("https://" ++ creds.StorageAccountName ++ ".blob.core.windows.net/")
          (some (TokenCredential.clientSecret creds.TenantID creds.ClientID
            creds.ClientSecret))]) ∧
      (∀ p, (NewAzureProvider sdk creds).1 = .ok p →
        p.creds = creds ∧ p.client = BlobClient.withToken
          ("https://" ++ creds.StorageAccountName ++ ".blob.core.windows.net/")
          (some (TokenCredential.clientSecret creds.TenantID creds.ClientID
            creds.ClientSecret))) := by
    intro hkey hsec
    unfold NewAzureProvider
    simp only [hkey, hsec, ne_eq, not_true_eq_false, not_false_eq_true, if_true, if_false]
    cases h1 : sdk.failNewClientSecretCredential creds.TenantID creds.ClientID
        creds.ClientSecret with
    | some err => simp
    | none =>
      cases h2 : sdk.failNewClient
          ("https://" ++ creds.StorageAccountName ++ ".blob.core.windows.net/")
          (some (TokenCredential.clientSecret creds.TenantID creds.ClientID
            creds.ClientSecret)) with
      | some err => simp [h2]
      | none =>
        simp only [h2]
        refine ⟨rfl, ⟨[], rfl⟩, ?_⟩
        intro p hp
        cases hp
        exact ⟨rfl, rfl⟩
  have hcert : creds.StorageAccountKey = "" → creds.ClientSecret = "" →
      creds.CertificatePath ≠ "" →
      (NewAzureProvider sdk creds).2.head?
        = some (AzureSDKCall.ReadFile creds.CertificatePath) ∧
      (∃ certData certs key rest, (NewAzureProvider sdk creds).2 ++ rest =
        [AzureSDKCall.ReadFile creds.CertificatePath,
         AzureSDKCall.ParseCertificates certData,
         AzureSDKCall.NewClientCertificateCredential creds.TenantID creds.ClientID certs key,
         AzureSDKCall.NewClient
          ("https://" ++ creds.StorageAccountName ++ ".blob.core.windows.net/")
          (some (TokenCredential.clientCertificate creds.TenantID creds.ClientID
            certs key))]) ∧
      (∀ p, (NewAzureProvider sdk creds).1 = .ok p →
        p.creds = creds ∧ ∃ certs key, p.client = BlobClient.withToken
          ("https://" ++ creds.StorageAccountName ++ ".blob.core.windows.net/")
          (some (TokenCredential.clientCertificate creds.TenantID creds.ClientID
            certs key))) := by
    intro hkey hsec hpath
    unfold NewAzureProvider
    simp only [hkey, hsec, hpath, ne_eq, not_true_eq_false, not_false_eq_true, if_true,
      if_false]
    cases h1 : sdk.ReadFile creds.CertificatePath with
    | error err =>
      refine ⟨rfl, ⟨"", "", "", _, rfl⟩, ?_⟩
      intro p hp
      cases hp
    | ok certData =>
      cases h2 : sdk.ParseCertificates certData with
      | error err =>
        simp only [h2]
        refine ⟨rfl, ⟨certData, "", "", _, rfl⟩, ?_⟩
        intro p hp
        cases hp
      | ok parsed =>
        obtain ⟨certs, key⟩ := parsed
        simp only [h2]
        cases h3 : sdk.failNewClientCertificateCredential creds.TenantID creds.ClientID
            certs key with
        | some err =>
          simp only [h3]
          refine ⟨rfl, ⟨certData, certs, key, _, rfl⟩, ?_⟩
          intro p hp
          cases hp
        | none =>
          simp only [h3]
          cases h4 : sdk.failNewClient
              ("https://" ++ creds.StorageAccountName ++ ".blob.core.windows.net/")
              (some (TokenCredential.clientCertificate creds.TenantID creds.ClientID
                certs key)) with
          | some err =>
            simp only [h4]
            refine ⟨rfl, ⟨certData, certs, key, [], rfl⟩, ?_⟩
            intro p hp
            cases hp
          | none =>
            simp only [h4]
            refine ⟨rfl, ⟨certData, certs, key, [], rfl⟩, ?_⟩
            intro p hp
            cases hp
            exact ⟨rfl, certs, key, rfl⟩
  have hdef : creds.StorageAccountKey = "" → creds.ClientSecret = "" →
      creds.CertificatePath = "" →
      (NewAzureProvider sdk creds).2.head? = some AzureSDKCall.NewDefaultAzureCredential ∧
      (∃ rest, (NewAzureProvider sdk creds).2 ++ rest =
        [AzureSDKCall.NewDefaultAzureCredential,
         AzureSDKCall.NewClient
          ("https://" ++ creds.StorageAccountName ++ ".blob.core.windows.net/")
          (some TokenCredential.defaultAzure)]) ∧
      (∀ p, (NewAzureProvider sdk creds).1 = .ok p →
        p.creds = creds ∧ p.client = BlobClient.withToken
          ("https://" ++ creds.StorageAccountName ++ ".blob.core.windows.net/")
          (some TokenCredential.defaultAzure)) := by
    intro hkey hsec hpath
    unfold NewAzureProvider
    simp only [hkey, hsec, hpath, ne_eq, not_true_eq_false, if_false]
    cases h1 : sdk.failNewDefaultAzureCredential with
    | some err => simp
    | none =>
      cases h2 : sdk.failNewClient
          ("https://" ++ creds.StorageAccountName ++ ".blob.core.windows.net/")
          (some TokenCredential.defaultAzure) with
      | some err => simp [h2]
      | none =>
        simp only [h2]
        refine ⟨rfl, ⟨[], rfl⟩, ?_⟩
        intro p hp
        cases hp
        exact ⟨rfl, rfl⟩
  refine ⟨?_, ?_, ?_, ?_, ?_⟩
  · intro hkey
    exact ⟨(hsk hkey).1, (hsk hkey).2.1, fun p hp => ((hsk hkey).2.2 p hp).2⟩
  · intro hkey hsec
    exact ⟨(hcs hkey hsec).1, (hcs hkey hsec).2.1, fun p hp => ((hcs hkey hsec).2.2 p hp).2⟩
  · intro hkey hsec hpath
    exact ⟨(hcert hkey hsec hpath).1, (hcert hkey hsec hpath).2.1,
      fun p hp => ((hcert hkey hsec hpath).2.2 p hp).2⟩
  · intro hkey hsec hpath
    exact ⟨(hdef hkey hsec hpath).1, (hdef hkey hsec hpath).2.1,
      fun p hp => ((hdef hkey hsec hpath).2.2 p hp).2⟩
  · intro p hp
    have hcreds : p.creds = creds := by
      by_cases hkey : creds.StorageAccountKey = ""
      · by_cases hsec : creds.ClientSecret = ""
        · by_cases hpath : creds.CertificatePath = ""
          · exact ((hdef hkey hsec hpath).2.2 p hp).1
          · exact ((hcert hkey hsec hpath).2.2 p hp).1
        · exact ((hcs hkey hsec).2.2 p hp).1
      · exact ((hsk hkey).2.2 p hp).1
    have hauth : p.IsStorageAccountKeyAuth = true ↔ creds.StorageAccountKey ≠ "" := by
      simp [AzureProvider.IsStorageAccountKeyAuth, hcreds]
    refine ⟨hcreds, hauth, ?_⟩
    rw [hauth]
    constructor
    · intro hkey
      exact ⟨_, _, ((hsk hkey).2.2 p hp).2⟩
    · rintro ⟨url, cred, hclient⟩ hkey
      by_cases hsec : creds.ClientSecret = ""
      · by_cases hpath : creds.CertificatePath = ""
        · rw [((hdef hkey hsec hpath).2.2 p hp).2] at hclient
          cases hclient
        · obtain ⟨certs, key, hc⟩ := ((hcert hkey hsec hpath).2.2 p hp).2
          rw [hc] at hclient
          cases hclient
      · rw [((hcs hkey hsec).2.2 p hp).2] at hclient
        cases hclient

/-- C24 at credentials with every field populated: the shared key is picked, the
client secret and the certificate path are not used. -/
theorem NewAzureProvider_auth_mode_witness :
    allFieldsCreds.StorageAccountKey ≠ "" ∧ allFieldsCreds.ClientSecret ≠ "" ∧
    allFieldsCreds.CertificatePath ≠ "" ∧
    (NewAzureProvider testAzureSDK allFieldsCreds).2
      = [AzureSDKCall.NewSharedKeyCredential "acct" "key",
         AzureSDKCall.NewClientWithSharedKeyCredential "https://acct.blob.core.windows.net/"
          ⟨"acct", "key"⟩] ∧
    (NewAzureProvider testAzureSDK allFieldsCreds).1
      = .ok { creds := allFieldsCreds
              client := BlobClient.withSharedKey "https://acct.blob.core.windows.net/"
                ⟨"acct", "key"⟩ } ∧
    (∀ p, (NewAzureProvider testAzureSDK allFieldsCreds).1 = .ok p →
      p.creds = allFieldsCreds ∧
      (p.IsStorageAccountKeyAuth = true ↔ allFieldsCreds.StorageAccountKey ≠ "") ∧
      (p.IsStorageAccountKeyAuth = true ↔
        ∃ url cred, p.client = BlobClient.withSharedKey url cred)) :=
  ⟨by decide, by decide, by decide, rfl, rfl,
    (NewAzureProvider_auth_mode testAzureSDK allFieldsCreds).2.2.2.2⟩


/-- C26: when the control-plane credential and both control-plane clients are built
and both reads succeed, AzureProvider.GetBucketMetadata returns metadata and no error,
with VersioningStatus "Enabled" exactly when the blob service properties and their
IsVersioningEnabled flag are both present and the flag is true, and "Disabled"
otherwise; EncryptionAlgorithm is the account's encryption key-source string when
properties, encryption and key source are all present, and "Unknown" otherwise; and
whatever the SDK answers, the result is the same for every bucket argument. -/
theorem Azure_GetBucketMetadata_values (sdk : AzureSDK) (a : AzureProvider) (ctx : Context)
    (bucket : String) (tokenCred : Option TokenCredential)
    (blobSvcResp : GetServicePropertiesResponse) (accountProps : GetPropertiesResponse)
    (hcred : a.armTokenCredential sdk = .ok tokenCred)
    (hblob : sdk.failNewBlobServicesClient a.creds.SubscriptionID tokenCred = none)
    (hservice : sdk.GetServiceProperties a.creds.SubscriptionID tokenCred ctx
      a.creds.ResourceGroupName a.creds.StorageAccountName = .ok blobSvcResp)
    (haccounts : sdk.failNewAccountsClient a.creds.SubscriptionID tokenCred = none)
    (hprops : sdk.GetProperties a.creds.SubscriptionID tokenCred ctx
      a.creds.ResourceGroupName a.creds.StorageAccountName = .ok accountProps) :
    (∃ m, a.GetBucketMetadata sdk ctx bucket = (some m, none) ∧
      (m.VersioningStatus = "Enabled" ↔
        ∃ p, blobSvcResp.BlobServiceProperties = some p ∧ p.IsVersioningEnabled = some true) ∧
      (m.VersioningStatus = "Disabled" ↔
        ¬ ∃ p, blobSvcResp.BlobServiceProperties = some p ∧ p.IsVersioningEnabled = some true) ∧
      (∀ properties encryption keySource, accountProps.Properties = some properties →
        properties.Encryption = some encryption → encryption.KeySource = some keySource →
        m.EncryptionAlgorithm = keySource) ∧
      ((¬ ∃ properties encryption keySource, accountProps.Properties = some properties ∧
          properties.Encryption = some encryption ∧ encryption.KeySource = some keySource) →
        m.EncryptionAlgorithm = "Unknown")) ∧
    (∀ bucket2, a.GetBucketMetadata sdk ctx bucket2 = a.GetBucketMetadata sdk ctx bucket) := by
  refine ⟨?_, fun _ => rfl⟩
  simp only [AzureProvider.GetBucketMetadata, hcred, hblob, hservice, haccounts, hprops]
  refine ⟨_, rfl, ?_⟩
  obtain ⟨props⟩ := blobSvcResp
  obtain ⟨properties⟩ := accountProps
  have hversioning :
      ((match props with
        | some p =>
          match p.IsVersioningEnabled with
          | some true => ({ VersioningStatus := "Enabled" } : BucketMetadata)
          | _ => { VersioningStatus := "Disabled" }
        | none => { VersioningStatus := "Disabled" }).VersioningStatus = "Enabled" ↔
        ∃ p, props = some p ∧ p.IsVersioningEnabled = some true) ∧
      ((match props with
        | some p =>
          match p.IsVersioningEnabled with
          | some true => ({ VersioningStatus := "Enabled" } : BucketMetadata)
          | _ => { VersioningStatus := "Disabled" }
        | none => { VersioningStatus := "Disabled" }).VersioningStatus = "Disabled" ↔
        ¬ ∃ p, props = some p ∧ p.IsVersioningEnabled = some true) := by
    cases props with
    | none => simp
    | some p =>
      obtain ⟨flag⟩ := p
      cases flag with
      | none => simp
      | some b => cases b <;> simp
  refine ⟨?_, ?_, ?_, ?_⟩
  · cases properties with
    | none => simpa using hversioning.1
    | some q =>
      obtain ⟨enc⟩ := q
      cases enc with
      | none => simpa using hversioning.1
      | some e =>
        obtain ⟨ks⟩ := e
        cases ks <;> simpa using hversioning.1
  · cases properties with
    | none => simpa using hversioning.2
    | some q =>
      obtain ⟨enc⟩ := q
      cases enc with
      | none => simpa using hversioning.2
      | some e =>
        obtain ⟨ks⟩ := e
        cases ks <;> simpa using hversioning.2
  · intro q e ks hq he hks
    simp only at hq
    subst hq
    simp only [he, hks]
  · intro hnone
    cases properties with
    | none => rfl
    | some q =>
      obtain ⟨enc⟩ := q
      cases enc with
      | none => rfl
      | some e =>
        obtain ⟨ks⟩ := e
        cases ks with
        | none => rfl
        | some k => exact absurd ⟨_, _, k, rfl, rfl, rfl⟩ hnone

/-- C26 at the provider built from the shared key, against an account with versioning
enabled and encryption under Microsoft.Storage. -/
theorem Azure_GetBucketMetadata_values_witness :
    testAzureProvider.armTokenCredential testAzureSDK = .ok (some TokenCredential.defaultAzure) ∧
    AzureProvider.GetBucketMetadata testAzureSDK testAzureProvider ⟨"ctx"⟩ "bucket"
      = (some { EncryptionAlgorithm := "Microsoft.Storage", VersioningStatus := "Enabled" },
          none) ∧
    ((∃ m, AzureProvider.GetBucketMetadata testAzureSDK testAzureProvider ⟨"ctx"⟩ "bucket"
        = (some m, none) ∧
      (m.VersioningStatus = "Enabled" ↔
        ∃ p, (⟨some ⟨some true⟩⟩ : GetServicePropertiesResponse).BlobServiceProperties = some p ∧
          p.IsVersioningEnabled = some true) ∧
      (m.VersioningStatus = "Disabled" ↔
        ¬ ∃ p, (⟨some ⟨some true⟩⟩ : GetServicePropertiesResponse).BlobServiceProperties
          = some p ∧ p.IsVersioningEnabled = some true) ∧
      (∀ properties encryption keySource,
        (⟨some ⟨some ⟨some "Microsoft.Storage"⟩⟩⟩ : GetPropertiesResponse).Properties
          = some properties →
        properties.Encryption = some encryption → encryption.KeySource = some keySource →
        m.EncryptionAlgorithm = keySource) ∧
      ((¬ ∃ properties encryption keySource,
          (⟨some ⟨some ⟨some "Microsoft.Storage"⟩⟩⟩ : GetPropertiesResponse).Properties
            = some properties ∧
          properties.Encryption = some encryption ∧ encryption.KeySource = some keySource) →
        m.EncryptionAlgorithm = "Unknown")) ∧
    (∀ bucket2, AzureProvider.GetBucketMetadata testAzureSDK testAzureProvider ⟨"ctx"⟩ bucket2
      = AzureProvider.GetBucketMetadata testAzureSDK testAzureProvider ⟨"ctx"⟩ "bucket")) :=
  ⟨rfl, rfl, Azure_GetBucketMetadata_values testAzureSDK testAzureProvider ⟨"ctx"⟩ "bucket"
    (some TokenCredential.defaultAzure) ⟨some ⟨some true⟩⟩
    ⟨some ⟨some ⟨some "Microsoft.Storage"⟩⟩⟩ rfl rfl rfl rfl rfl⟩


/-! ### The float64 throughput of UploadTest -/

theorem bitLengthAux_zero (fuel : Nat) : bitLengthAux fuel 0 = 0 := by
  cases fuel <;> simp [bitLengthAux]

theorem bitLengthAux_bounds (fuel : Nat) : ∀ n, n ≤ fuel → n ≠ 0 →
    2 ^ (bitLengthAux fuel n - 1) ≤ n ∧ n < 2 ^ bitLengthAux fuel n := by
  induction fuel with
  | zero =>
    intro n h hn
    omega
  | succ fuel ih =>
    intro n h hn
    simp only [bitLengthAux, hn, if_false]
    by_cases h2 : n / 2 = 0
    · have h1 : n = 1 := by omega
      subst h1
      simp [bitLengthAux_zero]
    · have hle : n / 2 ≤ fuel := by omega
      obtain ⟨hlo, hhi⟩ := ih (n / 2) hle h2
      have hpos : 1 ≤ bitLengthAux fuel (n / 2) := by
        by_contra hc
        have : bitLengthAux fuel (n / 2) = 0 := by omega
        rw [this] at hhi
        simp at hhi
        exact h2 hhi
      have hk : bitLengthAux fuel (n / 2) = (bitLengthAux fuel (n / 2) - 1) + 1 := by omega
      constructor
      · simp only [Nat.add_sub_cancel]
        rw [hk, pow_succ]
        omega
      · rw [pow_succ]
        omega

theorem bitLength_bounds (n : Nat) (hn : n ≠ 0) :
    2 ^ (bitLength n - 1) ≤ n ∧ n < 2 ^ bitLength n :=
  bitLengthAux_bounds n n (le_refl n) hn

/-- The integer facts behind one rounding: with `N = num * 2^k` and `D = 2^extra * den`,
the chosen mantissa `m` has at least 53 binary digits and `m * D` is within `D / 2` of `N`. -/
theorem round_spec (neg : Bool) (num den : Nat) (e : Int) (hnum : num ≠ 0) (hden : den ≠ 0) :
    ∃ m extra : Nat,
      Float64.round neg num den e
        = .finite neg m (e - ((55 + bitLength den : Nat) : Int) + (extra : Int)) ∧
      2 ^ 52 * (2 ^ extra * den) ≤ num * 2 ^ (55 + bitLength den) ∧
      2 * (m * (2 ^ extra * den)) ≤ 2 * (num * 2 ^ (55 + bitLength den)) + 2 ^ extra * den ∧
      2 * (num * 2 ^ (55 + bitLength den)) ≤ 2 * (m * (2 ^ extra * den)) + 2 ^ extra * den := by
  obtain ⟨-, hdenlt⟩ := bitLength_bounds den hden
  generalize hk : 55 + bitLength den = k at *
  generalize hN : num * 2 ^ k = N
  have hNge : 2 ^ 55 * den ≤ N := by
    rw [← hN, ← hk, pow_add]
    have h1 : den ≤ 2 ^ bitLength den := le_of_lt hdenlt
    have h2 : 1 ≤ num := Nat.one_le_iff_ne_zero.mpr hnum
    calc 2 ^ 55 * den ≤ 2 ^ 55 * 2 ^ bitLength den := Nat.mul_le_mul_left _ h1
      _ = 1 * (2 ^ 55 * 2 ^ bitLength den) := by ring
      _ ≤ num * (2 ^ 55 * 2 ^ bitLength den) := Nat.mul_le_mul_right _ h2
  have hdpos : 0 < den := Nat.pos_of_ne_zero hden
  have hq55 : 2 ^ 55 ≤ N / den := (Nat.le_div_iff_mul_le hdpos).mpr hNge
  have hq0 : N / den ≠ 0 := by
    have : 0 < 2 ^ 55 := by positivity
    omega
  obtain ⟨hblo, hbhi⟩ := bitLength_bounds (N / den) hq0
  generalize hb : bitLength (N / den) = b at *
  have hb56 : 56 ≤ b := by
    by_contra hc
    have hle : b ≤ 55 := by omega
    have : 2 ^ b ≤ 2 ^ 55 := Nat.pow_le_pow_right (by norm_num) hle
    omega
  generalize hq : N / den = q at *
  have hNq : N = q * den + N % den := by
    rw [← hq]
    have := Nat.div_add_mod N den
    rw [Nat.mul_comm] at this
    exact this.symm
  have hr : N % den < den := Nat.mod_lt _ hdpos
  generalize hrr : N % den = r at *
  obtain ⟨x, hx⟩ : ∃ x, b - 53 = x + 1 := ⟨b - 54, by omega⟩
  have hP : 2 ^ (b - 53) = 2 * 2 ^ x := by rw [hx, pow_succ]; ring
  have hPpos : 0 < 2 ^ x := by positivity
  have hqm : q = q / 2 ^ (b - 53) * 2 ^ (b - 53) + q % 2 ^ (b - 53) := by
    have := Nat.div_add_mod q (2 ^ (b - 53))
    rw [Nat.mul_comm] at this
    exact this.symm
  have hrest : q % 2 ^ (b - 53) < 2 ^ (b - 53) := Nat.mod_lt _ (by positivity)
  have hmant : 2 ^ 52 ≤ q / 2 ^ (b - 53) := by
    rw [Nat.le_div_iff_mul_le (by positivity)]
    have : 2 ^ 52 * 2 ^ (b - 53) = 2 ^ (b - 1) := by
      rw [← pow_add]
      congr 1
      omega
    rw [this]
    exact hblo
  generalize hmt : q / 2 ^ (b - 53) = mant at *
  generalize hrs : q % 2 ^ (b - 53) = rest at *
  have hx1 : b - 53 - 1 = x := by omega
  have hround : Float64.round neg num den e =
      if rest > 2 ^ x ∨ (rest = 2 ^ x ∧ ((r != 0) = true ∨ mant % 2 = 1)) then
        .finite neg (mant + 1) (e - (k : Int) + ((b - 53 : Nat) : Int))
      else .finite neg mant (e - (k : Int) + ((b - 53 : Nat) : Int)) := by
    unfold Float64.round
    simp only [hnum, if_false, hk, hN, hq, hb, hrr, hmt, hrs, hx1]
  -- the two products
  have hD : 2 ^ (b - 53) * den = 2 * 2 ^ x * den := by rw [hP]
  have hNexp : N = mant * (2 * 2 ^ x * den) + (rest * den + r) := by
    rw [hNq, hqm, hP]
    ring
  have hlow : rest * den + r < 2 * 2 ^ x * den := by
    have h1 : rest + 1 ≤ 2 * 2 ^ x := by omega
    calc rest * den + r < rest * den + den := by omega
      _ = (rest + 1) * den := by ring
      _ ≤ 2 * 2 ^ x * den := Nat.mul_le_mul_right _ h1
  have h52 : 2 ^ 52 * (2 ^ (b - 53) * den) ≤ N := by
    rw [hD, hNexp]
    have : 2 ^ 52 * (2 * 2 ^ x * den) ≤ mant * (2 * 2 ^ x * den) :=
      Nat.mul_le_mul_right _ hmant
    omega
  by_cases hup : rest > 2 ^ x ∨ (rest = 2 ^ x ∧ ((r != 0) = true ∨ mant % 2 = 1))
  · refine ⟨mant + 1, b - 53, ?_, h52, ?_, ?_⟩
    · rw [hround, if_pos hup]
    · have hge : 2 ^ x ≤ rest := by
        rcases hup with h | h
        · omega
        · omega
      have h2 : 2 ^ x * den ≤ rest * den := Nat.mul_le_mul_right _ hge
      rw [hD, hNexp]
      have e1 : (mant + 1) * (2 * 2 ^ x * den) = mant * (2 * 2 ^ x * den) + 2 * (2 ^ x * den) := by
        ring
      have e2 : 2 * 2 ^ x * den = 2 * (2 ^ x * den) := by ring
      rw [e1, e2]
      omega
    · rw [hD, hNexp]
      have e1 : (mant + 1) * (2 * 2 ^ x * den) = mant * (2 * 2 ^ x * den) + 2 * 2 ^ x * den := by
        ring
      rw [e1]
      omega
  · refine ⟨mant, b - 53, ?_, h52, ?_, ?_⟩
    · rw [hround, if_neg hup]
    · rw [hD, hNexp]
      omega
    · rw [hD, hNexp]
      rw [not_or] at hup
      obtain ⟨h1, h2⟩ := hup
      have hle : rest ≤ 2 ^ x := by omega
      have e2 : 2 * 2 ^ x * den = 2 * (2 ^ x * den) := by ring
      rw [e2]
      by_cases heq : rest = 2 ^ x
      · have hr0 : r = 0 := by
          by_contra hne
          apply h2
          refine ⟨heq, Or.inl ?_⟩
          simpa using hne
        rw [heq, hr0]
        omega
      · have hlt : rest + 1 ≤ 2 ^ x := by omega
        have h3 : (rest + 1) * den ≤ 2 ^ x * den := Nat.mul_le_mul_right _ hlt
        have e3 : (rest + 1) * den = rest * den + den := by ring
        rw [e3] at h3
        omega

/-- One rounding is within relative error `2^-53` of the exact value. -/
theorem round_near (num den : Nat) (e : Int) (hden : den ≠ 0) :
    ∃ m e2, Float64.round false num den e = .finite false m e2 ∧
      (1 - 1 / 2 ^ 53) * ((num : ℚ) / den * 2 ^ e) ≤ (m : ℚ) * 2 ^ e2 ∧
      (m : ℚ) * 2 ^ e2 ≤ (1 + 1 / 2 ^ 53) * ((num : ℚ) / den * 2 ^ e) := by
  by_cases hnum : num = 0
  · refine ⟨0, 0, ?_, ?_, ?_⟩
    · simp [Float64.round, hnum]
    · simp [hnum]
    · simp [hnum]
  · obtain ⟨m, extra, hround, h52, hup, hdown⟩ := round_spec false num den e hnum hden
    refine ⟨m, _, hround, ?_, ?_⟩
    all_goals
      have hdq : (0 : ℚ) < den := by exact_mod_cast Nat.pos_of_ne_zero hden
      have h2k : (0 : ℚ) < 2 ^ (55 + bitLength den) := by positivity
      have h2e : (0 : ℚ) < 2 ^ e := by positivity
      have hexp : (2 : ℚ) ^ (e - ((55 + bitLength den : Nat) : Int) + (extra : Int))
          = 2 ^ e / 2 ^ (55 + bitLength den) * 2 ^ extra := by
        rw [zpow_add₀ (by norm_num : (2 : ℚ) ≠ 0), zpow_sub₀ (by norm_num : (2 : ℚ) ≠ 0),
          zpow_natCast, zpow_natCast]
      have h52q : (2 : ℚ) ^ 52 * (2 ^ extra * den) ≤ num * 2 ^ (55 + bitLength den) := by
        exact_mod_cast h52
      have hupq : (2 : ℚ) * (m * (2 ^ extra * den))
          ≤ 2 * (num * 2 ^ (55 + bitLength den)) + 2 ^ extra * den := by
        exact_mod_cast hup
      have hdownq : (2 : ℚ) * (num * 2 ^ (55 + bitLength den))
          ≤ 2 * (m * (2 ^ extra * den)) + 2 ^ extra * den := by
        exact_mod_cast hdown
      have hc : (0 : ℚ) < 2 ^ e / (2 ^ (55 + bitLength den) * den) := by positivity
      have hy : (num : ℚ) / den * 2 ^ e
          = (num * 2 ^ (55 + bitLength den)) * (2 ^ e / (2 ^ (55 + bitLength den) * den)) := by
        field_simp
        ring
      have hv : (m : ℚ) * (2 ^ e / 2 ^ (55 + bitLength den) * 2 ^ extra)
          = (m * (2 ^ extra * den)) * (2 ^ e / (2 ^ (55 + bitLength den) * den)) := by
        field_simp
        ring
      rw [hexp, hy, hv]
    · have h1 : (1 - 1 / 2 ^ 53) * ((num : ℚ) * 2 ^ (55 + bitLength den))
          ≤ (m : ℚ) * (2 ^ extra * den) := by linarith
      have h2 := mul_le_mul_of_nonneg_right h1 (le_of_lt hc)
      linarith
    · have h1 : (m : ℚ) * (2 ^ extra * den)
          ≤ (1 + 1 / 2 ^ 53) * ((num : ℚ) * 2 ^ (55 + bitLength den)) := by linarith
      have h2 := mul_le_mul_of_nonneg_right h1 (le_of_lt hc)
      linarith

theorem near_mono (f : Float64) (x lo hi lo2 hi2 : ℚ) (h : f.Near x lo hi) (hx : 0 ≤ x)
    (hlo : lo2 ≤ lo) (hhi : hi ≤ hi2) : f.Near x lo2 hi2 := by
  obtain ⟨m, e, hf, h1, h2⟩ := h
  refine ⟨m, e, hf, ?_, ?_⟩
  · have := mul_le_mul_of_nonneg_right hlo hx
    linarith
  · have := mul_le_mul_of_nonneg_right hhi hx
    linarith

theorem near_ofInt (x : Int) (hx : 0 ≤ x) :
    (Float64.ofInt x).Near (x : ℚ) (1 - 1 / 2 ^ 53) (1 + 1 / 2 ^ 53) := by
  obtain ⟨m, e, hr, h1, h2⟩ := round_near x.natAbs 1 0 (by norm_num)
  have hneg : decide (x < 0) = false := by simpa using hx
  have hcast : ((x.natAbs : Nat) : ℚ) = (x : ℚ) := by
    rw [← Int.cast_natCast, Int.natAbs_of_nonneg hx]
  refine ⟨m, e, ?_, ?_, ?_⟩
  · rw [Float64.ofInt, hneg, hr]
  · simpa [hcast] using h1
  · simpa [hcast] using h2

theorem near_div (a b : Float64) (x y la ha lb hb : ℚ) (hA : a.Near x la ha)
    (hB : b.Near y lb hb) (hy : 0 < y) (hlb : 0 < lb) :
    (a.div b).Near (x / y) (la / hb * (1 - 1 / 2 ^ 53)) (ha / lb * (1 + 1 / 2 ^ 53)) := by
  obtain ⟨m, e, rfl, a1, a2⟩ := hA
  obtain ⟨n, f, rfl, b1, b2⟩ := hB
  have hBpos : (0 : ℚ) < (n : ℚ) * 2 ^ f := lt_of_lt_of_le (mul_pos hlb hy) b1
  have hn : n ≠ 0 := by
    rintro rfl
    simp at hBpos
  have hhb : 0 < hb := by
    by_contra hc
    have : hb * y ≤ 0 := mul_nonpos_of_nonpos_of_nonneg (not_lt.mp hc) (le_of_lt hy)
    linarith
  have hApos : (0 : ℚ) ≤ (m : ℚ) * 2 ^ e := by positivity
  obtain ⟨m2, e2, hr, h1, h2⟩ := round_near m n (e - f) hn
  have hz : (m : ℚ) / n * 2 ^ (e - f) = ((m : ℚ) * 2 ^ e) / ((n : ℚ) * 2 ^ f) := by
    rw [zpow_sub₀ (by norm_num : (2 : ℚ) ≠ 0)]
    have hnq : (n : ℚ) ≠ 0 := by exact_mod_cast hn
    field_simp
  rw [hz] at h1 h2
  refine ⟨m2, e2, ?_, ?_, ?_⟩
  · simp [Float64.div, hn, hr]
  · have hlow : la * x / (hb * y) ≤ ((m : ℚ) * 2 ^ e) / ((n : ℚ) * 2 ^ f) := by
      apply div_le_div₀ (hApos) a1 hBpos b2
    have e1 : la / hb * (1 - 1 / 2 ^ 53) * (x / y) = (1 - 1 / 2 ^ 53) * (la * x / (hb * y)) := by
      field_simp
      ring
    rw [e1]
    have : (1 - 1 / 2 ^ 53 : ℚ) * (la * x / (hb * y))
        ≤ (1 - 1 / 2 ^ 53) * (((m : ℚ) * 2 ^ e) / ((n : ℚ) * 2 ^ f)) :=
      mul_le_mul_of_nonneg_left hlow (by norm_num)
    linarith
  · have hhax : 0 ≤ ha * x := le_trans hApos a2
    have hup : ((m : ℚ) * 2 ^ e) / ((n : ℚ) * 2 ^ f) ≤ ha * x / (lb * y) := by
      apply div_le_div₀ hhax a2 (mul_pos hlb hy) b1
    have e1 : ha / lb * (1 + 1 / 2 ^ 53) * (x / y) = (1 + 1 / 2 ^ 53) * (ha * x / (lb * y)) := by
      field_simp
      ring
    rw [e1]
    have : (1 + 1 / 2 ^ 53 : ℚ) * (((m : ℚ) * 2 ^ e) / ((n : ℚ) * 2 ^ f))
        ≤ (1 + 1 / 2 ^ 53) * (ha * x / (lb * y)) :=
      mul_le_mul_of_nonneg_left hup (by norm_num)
    linarith

theorem near_add (a b : Float64) (x y l h : ℚ) (hA : a.Near x l h) (hB : b.Near y l h) :
    (a.add b).Near (x + y) (l * (1 - 1 / 2 ^ 53)) (h * (1 + 1 / 2 ^ 53)) := by
  obtain ⟨m, e, rfl, a1, a2⟩ := hA
  obtain ⟨n, f, rfl, b1, b2⟩ := hB
  have hApos : (0 : ℚ) ≤ (m : ℚ) * 2 ^ e := by positivity
  have hBpos : (0 : ℚ) ≤ (n : ℚ) * 2 ^ f := by positivity
  have hsum1 : l * (x + y) ≤ (m : ℚ) * 2 ^ e + (n : ℚ) * 2 ^ f := by linarith
  have hsum2 : (m : ℚ) * 2 ^ e + (n : ℚ) * 2 ^ f ≤ h * (x + y) := by linarith
  have hge : (0 : Int) ≤ (m : Int) * 2 ^ (e - min e f).toNat + (n : Int) * 2 ^ (f - min e f).toNat := by
    positivity
  have hexact : (((m : Int) * 2 ^ (e - min e f).toNat + (n : Int) * 2 ^ (f - min e f).toNat : Int) : ℚ)
      * 2 ^ (min e f) = (m : ℚ) * 2 ^ e + (n : ℚ) * 2 ^ f := by
    have h1 : ((e - min e f).toNat : Int) = e - min e f := Int.toNat_of_nonneg (by omega)
    have h2 : ((f - min e f).toNat : Int) = f - min e f := Int.toNat_of_nonneg (by omega)
    have p1 : (2 : ℚ) ^ (e - min e f).toNat * 2 ^ (min e f) = 2 ^ e := by
      rw [← zpow_natCast, h1, ← zpow_add₀ (by norm_num : (2 : ℚ) ≠ 0)]
      congr 1
      omega
    have p2 : (2 : ℚ) ^ (f - min e f).toNat * 2 ^ (min e f) = 2 ^ f := by
      rw [← zpow_natCast, h2, ← zpow_add₀ (by norm_num : (2 : ℚ) ≠ 0)]
      congr 1
      omega
    push_cast
    rw [add_mul, mul_assoc, mul_assoc, p1, p2]
  by_cases hzero : (m : Int) * 2 ^ (e - min e f).toNat + (n : Int) * 2 ^ (f - min e f).toNat = 0
  · refine ⟨0, 0, ?_, ?_, ?_⟩
    · simp [Float64.add, hzero]
    · rw [hzero] at hexact
      have h0 : (m : ℚ) * 2 ^ e + (n : ℚ) * 2 ^ f = 0 := by
        rw [← hexact]
        simp
      have : l * (x + y) ≤ 0 := by linarith
      have h3 : l * (1 - 1 / 2 ^ 53) * (x + y) = (1 - 1 / 2 ^ 53) * (l * (x + y)) := by ring
      rw [h3]
      have : (1 - 1 / 2 ^ 53 : ℚ) * (l * (x + y)) ≤ 0 :=
        mul_nonpos_of_nonneg_of_nonpos (by norm_num) this
      simpa using this
    · have : 0 ≤ h * (x + y) := by linarith
      have h3 : h * (1 + 1 / 2 ^ 53) * (x + y) = (1 + 1 / 2 ^ 53) * (h * (x + y)) := by ring
      rw [h3]
      have : (0 : ℚ) ≤ (1 + 1 / 2 ^ 53) * (h * (x + y)) := mul_nonneg (by norm_num) this
      simpa using this
  · obtain ⟨m2, e2, hr, h1, h2⟩ := round_near
      ((m : Int) * 2 ^ (e - min e f).toNat + (n : Int) * 2 ^ (f - min e f).toNat).natAbs 1
      (min e f) (by norm_num)
    have hcast : ((((m : Int) * 2 ^ (e - min e f).toNat
        + (n : Int) * 2 ^ (f - min e f).toNat).natAbs : Nat) : ℚ)
        = (((m : Int) * 2 ^ (e - min e f).toNat + (n : Int) * 2 ^ (f - min e f).toNat : Int) : ℚ) := by
      have := Int.natAbs_of_nonneg hge
      exact_mod_cast this
    rw [hcast] at h1 h2
    simp only [Nat.cast_one, div_one] at h1 h2
    rw [hexact] at h1 h2
    have hneg : decide ((m : Int) * 2 ^ (e - min e f).toNat
        + (n : Int) * 2 ^ (f - min e f).toNat < 0) = false := by
      simpa using hge
    refine ⟨m2, e2, ?_, ?_, ?_⟩
    · simp only [Float64.add, Bool.false_eq_true, if_false, hzero, hneg]
      exact hr
    · have h3 : l * (1 - 1 / 2 ^ 53) * (x + y) = (1 - 1 / 2 ^ 53) * (l * (x + y)) := by ring
      rw [h3]
      have : (1 - 1 / 2 ^ 53 : ℚ) * (l * (x + y))
          ≤ (1 - 1 / 2 ^ 53) * ((m : ℚ) * 2 ^ e + (n : ℚ) * 2 ^ f) :=
        mul_le_mul_of_nonneg_left hsum1 (by norm_num)
      linarith
    · have h3 : h * (1 + 1 / 2 ^ 53) * (x + y) = (1 + 1 / 2 ^ 53) * (h * (x + y)) := by ring
      rw [h3]
      have : (1 + 1 / 2 ^ 53 : ℚ) * ((m : ℚ) * 2 ^ e + (n : ℚ) * 2 ^ f)
          ≤ (1 + 1 / 2 ^ 53) * (h * (x + y)) :=
        mul_le_mul_of_nonneg_left hsum2 (by norm_num)
      linarith

theorem near_Seconds (d : Int) (hd : 0 < d) :
    (Duration.Seconds d).Near ((d : ℚ) / 1000000000) (1 - 1 / 2 ^ 50) (1 + 1 / 2 ^ 50) := by
  have hsec : 0 ≤ Int.tdiv d 1000000000 := Int.tdiv_nonneg (le_of_lt hd) (by norm_num)
  have hnsec : 0 ≤ Int.tmod d 1000000000 := Int.tmod_nonneg _ (le_of_lt hd)
  have hsum : ((Int.tdiv d 1000000000 : Int) : ℚ) + ((Int.tmod d 1000000000 : Int) : ℚ) / 1000000000
      = (d : ℚ) / 1000000000 := by
    have h := Int.tdiv_add_tmod d 1000000000
    have hq : (1000000000 : ℚ) * ((Int.tdiv d 1000000000 : Int) : ℚ)
        + ((Int.tmod d 1000000000 : Int) : ℚ) = (d : ℚ) := by exact_mod_cast h
    field_simp
    linarith
  have hS := near_ofInt _ hsec
  have hN := near_ofInt _ hnsec
  have hC := near_ofInt 1000000000 (by norm_num)
  have hQ := near_div _ _ _ _ _ _ _ _ hN hC (by norm_num) (by norm_num)
  have hsecq : (0 : ℚ) ≤ ((Int.tdiv d 1000000000 : Int) : ℚ) := by exact_mod_cast hsec
  have hnsecq : (0 : ℚ) ≤ ((Int.tmod d 1000000000 : Int) : ℚ) := by exact_mod_cast hnsec
  have hS2 := near_mono _ _ _ _ (1 - 1 / 2 ^ 51) (1 + 1 / 2 ^ 51) hS hsecq
    (by norm_num) (by norm_num)
  have hQ2 := near_mono _ _ _ _ (1 - 1 / 2 ^ 51) (1 + 1 / 2 ^ 51) hQ
    (div_nonneg hnsecq (by norm_num)) (by norm_num) (by norm_num)
  have hA := near_add _ _ _ _ _ _ hS2 hQ2
  have hx : (0 : ℚ) ≤ (d : ℚ) / 1000000000 := by
    have : (0 : ℚ) < d := by exact_mod_cast hd
    positivity
  have hcast : ((1000000000 : Int) : ℚ) = 1000000000 := by norm_num
  rw [hcast, hsum] at hA
  exact near_mono _ _ _ _ _ _ hA hx (by norm_num) (by norm_num)

theorem toInt64_floor (implementation : Float64 → Int) (m : Nat) (e : Int)
    (h : (m : ℚ) * 2 ^ e < 2 ^ 62) :
    Float64.toInt64 implementation (.finite false m e) = ⌊(m : ℚ) * 2 ^ e⌋ := by
  have key : ∀ mag : Nat, ((mag : Nat) : ℚ) ≤ (m : ℚ) * 2 ^ e → (m : ℚ) * 2 ^ e < mag + 1 →
      ((if -9223372036854775808 ≤ (mag : Int) ∧ (mag : Int) ≤ 9223372036854775807 then (mag : Int)
        else implementation (.finite false m e)) = ⌊(m : ℚ) * 2 ^ e⌋) := by
    intro mag h1 h2
    have hfloor : ⌊(m : ℚ) * 2 ^ e⌋ = (mag : Int) := by
      rw [Int.floor_eq_iff]
      constructor
      · exact_mod_cast h1
      · exact_mod_cast h2
    have hlt : ((mag : Nat) : ℚ) < 2 ^ 62 := lt_of_le_of_lt h1 h
    have hlt2 : (mag : Int) < 2 ^ 62 := by exact_mod_cast hlt
    have hge : (0 : Int) ≤ mag := Int.natCast_nonneg _
    rw [hfloor, if_pos]
    constructor <;> omega
  by_cases he : 0 ≤ e
  · have hval : ((m * 2 ^ e.toNat : Nat) : ℚ) = (m : ℚ) * 2 ^ e := by
      have : ((e.toNat : Nat) : Int) = e := Int.toNat_of_nonneg he
      push_cast
      rw [← zpow_natCast, this]
    have := key (m * 2 ^ e.toNat) (le_of_eq hval) (by rw [hval]; linarith)
    simpa [Float64.toInt64, he] using this
  · have hk : (((-e).toNat : Nat) : Int) = -e := Int.toNat_of_nonneg (by omega)
    have hpow : (2 : ℚ) ^ e = 1 / 2 ^ (-e).toNat := by
      rw [← zpow_natCast, hk, zpow_neg]
      simp
    have hpos : (0 : ℚ) < 2 ^ (-e).toNat := by positivity
    have hdm := Nat.div_add_mod m (2 ^ (-e).toNat)
    have hml := Nat.mod_lt m (show 0 < 2 ^ (-e).toNat by positivity)
    have h1 : ((m / 2 ^ (-e).toNat : Nat) : ℚ) ≤ (m : ℚ) * 2 ^ e := by
      rw [hpow, mul_one_div, le_div_iff₀ hpos]
      have : m / 2 ^ (-e).toNat * 2 ^ (-e).toNat ≤ m := Nat.div_mul_le_self _ _
      exact_mod_cast this
    have h2 : (m : ℚ) * 2 ^ e < ((m / 2 ^ (-e).toNat : Nat) : ℚ) + 1 := by
      rw [hpow, mul_one_div, div_lt_iff₀ hpos]
      have : m < (m / 2 ^ (-e).toNat + 1) * 2 ^ (-e).toNat := by
        rw [Nat.add_mul, Nat.mul_comm (m / 2 ^ (-e).toNat)]
        omega
      exact_mod_cast this
    have := key (m / 2 ^ (-e).toNat) h1 h2
    simpa [Float64.toInt64, he] using this

/-- The float64 throughput expression, converted to int64, against the exact quotient
`8000 * n / d` (bits per nanosecond times 1000): equal unless the exact quotient is an
integer, and then equal or one less. -/
theorem speed_close (n d : Int) (hn0 : 0 ≤ n) (hn : n ≤ 209715200) (hd : 0 < d) :
    ∃ v : Int,
      (∀ implementation : Float64 → Int,
        Float64.toInt64 implementation
          (((Float64.ofInt (n * 8)).div (Duration.Seconds d)).div (Float64.ofInt 1000000))
          = v) ∧
      (8000 * n % d ≠ 0 → v = 8000 * n / d) ∧
      (8000 * n % d = 0 → v = 8000 * n / d ∨ v = 8000 * n / d - 1) := by
  have hdq : (0 : ℚ) < d := by exact_mod_cast hd
  have hB := near_ofInt (n * 8) (by omega)
  have hS := near_Seconds d hd
  have hM := near_ofInt 1000000 (by norm_num)
  have hT := near_div _ _ _ _ _ _ _ _ hB hS (by positivity) (by norm_num)
  have hbits : (0 : ℚ) ≤ ((n * 8 : Int) : ℚ) := by
    have : (0 : Int) ≤ n * 8 := by omega
    exact_mod_cast this
  have hT2 := near_mono _ _ _ _ (1 - 1 / 2 ^ 49) (1 + 1 / 2 ^ 49) hT
    (div_nonneg hbits (by positivity)) (by norm_num) (by norm_num)
  have hU := near_div _ _ _ _ _ _ _ _ hT2 hM (by norm_num) (by norm_num)
  have hx : ((n * 8 : Int) : ℚ) / ((d : ℚ) / 1000000000) / ((1000000 : Int) : ℚ)
      = (8000 * n : ℚ) / d := by
    push_cast
    field_simp
    ring
  rw [hx] at hU
  have hX0 : (0 : ℚ) ≤ 8000 * n := by
    have : (0 : ℚ) ≤ n := by exact_mod_cast hn0
    linarith
  have hU2 := near_mono _ _ _ _ (1 - 1 / 2 ^ 48) (1 + 1 / 2 ^ 48) hU
    (div_nonneg hX0 (le_of_lt hdq)) (by norm_num) (by norm_num)
  obtain ⟨m, e, hf, hlo, hhi⟩ := hU2
  have hXle : (8000 * n : ℚ) ≤ 1677721600000 := by
    have : (n : ℚ) ≤ 209715200 := by exact_mod_cast hn
    linarith
  -- multiply the bounds by d
  have hcancel : (8000 * n : ℚ) / d * d = 8000 * n := div_mul_cancel₀ _ (ne_of_gt hdq)
  have hloD : (1 - 1 / 2 ^ 48) * (8000 * n : ℚ) ≤ (m : ℚ) * 2 ^ e * d := by
    have := mul_le_mul_of_nonneg_right hlo (le_of_lt hdq)
    rw [mul_assoc (1 - 1 / 2 ^ 48 : ℚ), hcancel] at this
    exact this
  have hhiD : (m : ℚ) * 2 ^ e * d ≤ (1 + 1 / 2 ^ 48) * (8000 * n : ℚ) := by
    have := mul_le_mul_of_nonneg_right hhi (le_of_lt hdq)
    rw [mul_assoc (1 + 1 / 2 ^ 48 : ℚ), hcancel] at this
    exact this
  have hd1 : (1 : ℚ) ≤ d := by exact_mod_cast hd
  have hVle : (m : ℚ) * 2 ^ e < 2 ^ 62 := by
    have hV0 : (0 : ℚ) ≤ (m : ℚ) * 2 ^ e := by positivity
    have h1 : (m : ℚ) * 2 ^ e * 1 ≤ (m : ℚ) * 2 ^ e * d := mul_le_mul_of_nonneg_left hd1 hV0
    have h2 : (1 + 1 / 2 ^ 48) * (8000 * n : ℚ) ≤ (1 + 1 / 2 ^ 48) * 1677721600000 :=
      mul_le_mul_of_nonneg_left hXle (by norm_num)
    have h3 : ((1 : ℚ) + 1 / 2 ^ 48) * 1677721600000 < 2 ^ 62 := by norm_num
    linarith
  refine ⟨⌊(m : ℚ) * 2 ^ e⌋,
    fun implementation => by rw [hf, toInt64_floor implementation m e hVle], ?_⟩
  -- the exact quotient and remainder
  have hqr : d * (8000 * n / d) + 8000 * n % d = 8000 * n := Int.ediv_add_emod _ _
  have hr0 : 0 ≤ 8000 * n % d := Int.emod_nonneg _ (ne_of_gt hd)
  have hrd : 8000 * n % d < d := Int.emod_lt_of_pos _ hd
  generalize 8000 * n / d = q at *
  generalize 8000 * n % d = r at *
  have hqrQ : (d : ℚ) * q + r = 8000 * n := by exact_mod_cast hqr
  have hr0Q : (0 : ℚ) ≤ r := by exact_mod_cast hr0
  have hrdQ : (r : ℚ) + 1 ≤ d := by
    have : r + 1 ≤ d := by omega
    exact_mod_cast this
  have hfl1 : ((⌊(m : ℚ) * 2 ^ e⌋ : Int) : ℚ) ≤ (m : ℚ) * 2 ^ e := Int.floor_le _
  have hfl2 : (m : ℚ) * 2 ^ e < ((⌊(m : ℚ) * 2 ^ e⌋ : Int) : ℚ) + 1 := Int.lt_floor_add_one _
  generalize ⌊(m : ℚ) * 2 ^ e⌋ = v at *
  generalize (m : ℚ) * 2 ^ e = V at *
  have herr : (1 / 2 ^ 48 : ℚ) * (8000 * n) < 1 := by
    have : (1 / 2 ^ 48 : ℚ) * (8000 * n) ≤ 1 / 2 ^ 48 * 1677721600000 :=
      mul_le_mul_of_nonneg_left hXle (by norm_num)
    have h3 : (1 / 2 ^ 48 : ℚ) * 1677721600000 < 1 := by norm_num
    linarith
  -- v ≤ q
  have hupper : v ≤ q := by
    by_contra hc
    have h1 : q + 1 ≤ v := by omega
    have h1Q : (q : ℚ) + 1 ≤ v := by exact_mod_cast h1
    have h2 : ((q : ℚ) + 1) * d ≤ V * d :=
      mul_le_mul_of_nonneg_right (le_trans h1Q hfl1) (le_of_lt hdq)
    nlinarith
  -- q - 1 ≤ v, and q ≤ v when the quotient is not exact
  have hlower : q - 1 ≤ v := by
    by_contra hc
    have h1 : v + 1 ≤ q - 1 := by omega
    have h1Q : (v : ℚ) + 1 ≤ q - 1 := by exact_mod_cast h1
    have h2 : V * d ≤ ((q : ℚ) - 1) * d :=
      mul_le_mul_of_nonneg_right (le_trans (le_of_lt hfl2) h1Q) (le_of_lt hdq)
    nlinarith
  have hlower2 : r ≠ 0 → q ≤ v := by
    intro hr
    by_contra hc
    have h1 : v + 1 ≤ q := by omega
    have h1Q : (v : ℚ) + 1 ≤ q := by exact_mod_cast h1
    have h2 : V * d ≤ (q : ℚ) * d :=
      mul_le_mul_of_nonneg_right (le_trans (le_of_lt hfl2) h1Q) (le_of_lt hdq)
    have hr1 : (1 : ℚ) ≤ r := by
      have : 1 ≤ r := by omega
      exact_mod_cast this
    nlinarith
  constructor
  · intro hr
    have := hlower2 hr
    omega
  · intro _
    omega

/-- C20, refuted: an upload of one mebibyte that takes 67108864 ns succeeds, and both
providers return 124 Mbps, while (n * 8) / d / 1_000_000 with d = 0.067108864 seconds is
exactly 125: the float64 division by the rounded number of seconds falls just below it. -/
theorem UploadTest_speed_below_exact :
    mebibyteAzureUploadEnv.ParseFileSize "1MB" = .ok 1048576 ∧
    (AzureProvider.UploadTest mebibyteAzureUploadEnv ⟨"ctx"⟩ ⟨"1MB", 0⟩ "bucket").1
      = UploadOutcome.returned 124 67108864 none ∧
    (GCPProvider.UploadTest mebibyteGCPUploadEnv ⟨"ctx"⟩ ⟨"1MB", 0⟩ "bucket").1
      = UploadOutcome.returned 124 67108864 none ∧
    ((1048576 * 8 : ℚ) / ((67108864 : ℚ) / 1000000000) / 1000000 = 125) ∧
    Duration.Seconds 67108864 = Float64.finite false 4835703278458517 (-56) ∧
    (Float64.ofInt (1048576 * 8)).div (Duration.Seconds 67108864)
      = Float64.finite false 8388607999999999 (-26) := by
  refine ⟨rfl, by decide, by decide, by norm_num, by decide, by decide⟩

/-- C20, amended: for a successful upload of n payload bytes (0 <= n <= 209715200, the
cap) measured over a positive duration of d nanoseconds, UploadTest (Azure and GCP, for
GCP with n bytes written) returns the float64 value of (n * 8) / d.Seconds() / 1_000_000
converted to int64, every operation rounded to the nearest float64.  That is the exact
quotient truncated toward zero, 8000 * n / d, whenever the exact quotient is not an
integer; when it is an integer the result is that integer or one less. -/
theorem UploadTest_speed (envA : AzureUploadEnv) (envG : GCPUploadEnv) (ctx : Context)
    (config : UploadSpeedTestConfig) (bucket : String) (n : Int) (d : Duration)
    (hA : envA.ParseFileSize config.FileSize = .ok n)
    (hG : envG.ParseFileSize config.FileSize = .ok n)
    (hn0 : 0 ≤ n) (hn : n ≤ 209715200) (hd : 0 < d)
    (hupload : envA.UploadBuffer
      ⟨ctx, if config.Timeout ≠ 0 then config.Timeout else 30 * Second⟩ bucket
      ("dpt-upload-test-" ++ toString envA.UnixNano) n = (none, d))
    (hwrite : envG.Write
      ⟨ctx, if config.Timeout ≠ 0 then config.Timeout else 30 * Second⟩ bucket
      ("dpt-upload-test-" ++ toString envG.UnixNano) n = (n, none))
    (hclose : envG.Close = none) (helapsed : envG.elapsed = d) :
    ∃ v : Int,
      (AzureProvider.UploadTest envA ctx config bucket).1 = UploadOutcome.returned v d none ∧
      (GCPProvider.UploadTest envG ctx config bucket).1 = UploadOutcome.returned v d none ∧
      v = Float64.toInt64 envA.int64Unrepresentable
        (((Float64.ofInt (n * 8)).div (Duration.Seconds d)).div (Float64.ofInt 1000000)) ∧
      ⌊((n * 8 : Int) : ℚ) / ((d : ℚ) / 1000000000) / 1000000⌋ = 8000 * n / d ∧
      (8000 * n % d ≠ 0 → v = 8000 * n / d) ∧
      (8000 * n % d = 0 → v = 8000 * n / d ∨ v = 8000 * n / d - 1) := by
  have hcap : ¬ n > maxTestSizeBytesAzure := by
    simp only [maxTestSizeBytesAzure]
    omega
  have hcapG : ¬ n > 200 * 1024 * 1024 := by omega
  have hneg : ¬ n < 0 := by omega
  have hAz : (AzureProvider.UploadTest envA ctx config bucket).1
      = UploadOutcome.returned (Float64.toInt64 envA.int64Unrepresentable
          (((Float64.ofInt (n * 8)).div (Duration.Seconds d)).div (Float64.ofInt 1000000)))
        d none := by
    simp only [AzureProvider.UploadTest, hA, hcap, hneg, if_false, hupload]
  have hGc : (GCPProvider.UploadTest envG ctx config bucket).1
      = UploadOutcome.returned (Float64.toInt64 envG.int64Unrepresentable
          (((Float64.ofInt (n * 8)).div (Duration.Seconds d)).div (Float64.ofInt 1000000)))
        d none := by
    simp only [GCPProvider.UploadTest, hG, hcapG, hneg, if_false, hwrite, hclose, helapsed]
  obtain ⟨v, hv, h1, h2⟩ := speed_close n d hn0 hn hd
  rw [hv] at hAz hGc
  have hfloor : ⌊((n * 8 : Int) : ℚ) / ((d : ℚ) / 1000000000) / 1000000⌋ = 8000 * n / d := by
    have hdq : (0 : ℚ) < d := by exact_mod_cast hd
    have hx : ((n * 8 : Int) : ℚ) / ((d : ℚ) / 1000000000) / 1000000
        = ((8000 * n : Int) : ℚ) / ((d : Int) : ℚ) := by
      push_cast
      field_simp
      ring
    rw [hx, Int.floor_eq_iff]
    have hqr : d * (8000 * n / d) + 8000 * n % d = 8000 * n := Int.ediv_add_emod _ _
    have hr0 : 0 ≤ 8000 * n % d := Int.emod_nonneg _ (ne_of_gt hd)
    have hrd : 8000 * n % d < d := Int.emod_lt_of_pos _ hd
    have hdq2 : (0 : ℚ) < ((d : Int) : ℚ) := hdq
    constructor
    · rw [le_div_iff₀ hdq2]
      have : 8000 * n / d * d ≤ 8000 * n := by nlinarith
      exact_mod_cast this
    · rw [div_lt_iff₀ hdq2]
      have : 8000 * n < (8000 * n / d + 1) * d := by nlinarith
      exact_mod_cast this
  exact ⟨v, hAz, hGc, (hv _).symm, hfloor, h1, h2⟩

/-- C20 amended, at the test's 100MB upload that takes two seconds: the exact quotient
419.4304 is not an integer and both providers return 419. -/
theorem UploadTest_speed_witness :
    testAzureUploadEnv.ParseFileSize ({ FileSize := "100MB" } : UploadSpeedTestConfig).FileSize
      = .ok 104857600 ∧
    (8000 * 104857600 % (2000000000 : Int) ≠ 0) ∧
    (8000 * 104857600 / (2000000000 : Int) = 419) ∧
    ∃ v : Int,
      (AzureProvider.UploadTest testAzureUploadEnv ⟨"ctx"⟩ { FileSize := "100MB" } "bucket").1
        = UploadOutcome.returned v 2000000000 none ∧
      (GCPProvider.UploadTest testGCPUploadEnv ⟨"ctx"⟩ { FileSize := "100MB" } "bucket").1
        = UploadOutcome.returned v 2000000000 none ∧
      v = Float64.toInt64 testAzureUploadEnv.int64Unrepresentable
        (((Float64.ofInt (104857600 * 8)).div (Duration.Seconds 2000000000)).div
          (Float64.ofInt 1000000)) ∧
      ⌊((104857600 * 8 : Int) : ℚ) / (((2000000000 : Int) : ℚ) / 1000000000) / 1000000⌋
        = 8000 * 104857600 / 2000000000 ∧
      (8000 * 104857600 % (2000000000 : Int) ≠ 0 → v = 8000 * 104857600 / 2000000000) ∧
      (8000 * 104857600 % (2000000000 : Int) = 0 →
        v = 8000 * 104857600 / 2000000000 ∨ v = 8000 * 104857600 / 2000000000 - 1) :=
  ⟨rfl, by decide, by decide,
    UploadTest_speed testAzureUploadEnv testGCPUploadEnv ⟨"ctx"⟩ { FileSize := "100MB" }
      "bucket" 104857600 2000000000 rfl rfl (by decide) (by decide) (by decide) rfl rfl rfl
      rfl⟩

end OADP
